import Mathlib

/-!
# Rate limiter and batch download queue

A shallow embedding of `ProjectDownloaderIG/rate-limiter.js` and
`ProjectDownloaderIG/download-queue.js`.

Time is the value of `Date.now()`: an integer number of milliseconds.
Synchronous code runs in zero time; the clock moves only while a call is
suspended in `sleep` and between calls.
-/

/-! ## rate-limiter.js -/

/-- Minimum 1 second between requests. -/
def MIN_DELAY_MS : Int := 1000

/-- Max 20 requests per minute. -/
def MAX_REQUESTS_PER_MINUTE : Nat := 20

/-- 30 second cooldown after burst. -/
def BURST_COOLDOWN_MS : Int := 30000

/-- The four fields of the `RateLimiter` class. -/
structure RateLimiter where
  lastRequestTime : Int
  requestTimestamps : List Int
  isThrottled : Bool
  throttleUntil : Int

/-- How late each of the three timers of one `waitForSlot` call fires: a timer
does not fire before its delay has passed, it may fire later. -/
structure Lateness where
  cooldown : Nat
  burst : Nat
  delay : Nat

/-- The longest delay a Node.js timer takes: 2^31 - 1 milliseconds. -/
def TIMEOUT_MAX : Int := 2147483647

/-- The delay `setTimeout(resolve, ms)` waits for: Node.js sets a delay that
is less than 1 or greater than TIMEOUT_MAX to 1. -/
def timerDelay (ms : Int) : Int := if 1 ≤ ms ∧ ms ≤ TIMEOUT_MAX then ms else 1

namespace RateLimiter

/-- The state built by the constructor. -/
def init : RateLimiter :=
  { lastRequestTime := 0, requestTimestamps := [], isThrottled := false, throttleUntil := 0 }

/-- Line 72: the clock value at which `await this.sleep(ms)`, started at
`now`, resumes: the delay of the timer later, or later still (a timer does
not fire before its delay has passed). -/
def sleep (now ms : Int) (late : Nat) : Int := now + timerDelay ms + late

/-- Lines 24-29: wait out a cooldown that is in effect. Returns the state and
the clock value afterwards. -/
def cooldownPhase (s : RateLimiter) (now : Int) (l : Lateness) : RateLimiter × Int :=
  if s.isThrottled && decide (now < s.throttleUntil) then
    let waitTime := s.throttleUntil - now
    ({ s with isThrottled := false }, sleep now waitTime l.cooldown)
  else
    (s, now)

/-- Lines 31-43: clean the window, then enter the burst cooldown when the
window is full. -/
def burstPhase (s : RateLimiter) (now : Int) (l : Lateness) : RateLimiter × Int :=
  let oneMinuteAgo := now - 60000
  let s1 := { s with requestTimestamps := s.requestTimestamps.filter (fun ts => decide (ts > oneMinuteAgo)) }
  if s1.requestTimestamps.length ≥ MAX_REQUESTS_PER_MINUTE then
    ({ s1 with isThrottled := false, throttleUntil := now + BURST_COOLDOWN_MS, requestTimestamps := [] },
      sleep now BURST_COOLDOWN_MS l.burst)
  else
    (s1, now)

/-- Lines 45-56: enforce the minimum delay (skipped for the first request),
then record the request. -/
def recordPhase (s : RateLimiter) (now : Int) (l : Lateness) : RateLimiter × Int :=
  let timeSinceLastRequest := now - s.lastRequestTime
  let now1 :=
    if s.lastRequestTime > 0 ∧ timeSinceLastRequest < MIN_DELAY_MS then
      sleep now (MIN_DELAY_MS - timeSinceLastRequest) l.delay
    else now
  ({ s with lastRequestTime := now1, requestTimestamps := s.requestTimestamps ++ [now1] }, now1)

/-- One whole `waitForSlot()` call started at clock value `now`. Returns the
state when the call returns and the clock value then, which is the timestamp
the call recorded. -/
def waitForSlot (s : RateLimiter) (now : Int) (l : Lateness) : RateLimiter × Int :=
  let p1 := cooldownPhase s now l
  let p2 := burstPhase p1.1 p1.2 l
  recordPhase p2.1 p2.2 l

/-- The call `triggerCooldown(durationMs)` made at clock value `now`. -/
def triggerCooldown (s : RateLimiter) (now : Int) (durationMs : Int) : RateLimiter :=
  { s with isThrottled := true, throttleUntil := now + durationMs }

end RateLimiter

/-- One call made on the limiter, `gap` milliseconds after the previous call
returned (after the start of the run for the first call). -/
inductive LimiterCall where
  | waitForSlot (gap : Nat) (l : Lateness)
  | triggerCooldown (gap : Nat) (durationMs : Int)

/-- A run of sequential calls: the limiter, the clock, and every timestamp
recorded so far, oldest first. -/
structure LimiterRun where
  limiter : RateLimiter
  now : Int
  recorded : List Int

namespace LimiterRun

/-- A fresh limiter at clock value `start`. -/
def start (start : Int) : LimiterRun :=
  { limiter := RateLimiter.init, now := start, recorded := [] }

/-- Performs one call. -/
def step (r : LimiterRun) : LimiterCall → LimiterRun
  | .waitForSlot gap l =>
    let p := r.limiter.waitForSlot (r.now + gap) l
    { limiter := p.1, now := p.2, recorded := r.recorded ++ [p.2] }
  | .triggerCooldown gap d =>
    { r with limiter := r.limiter.triggerCooldown (r.now + gap) d, now := r.now + gap }

/-- Performs the calls in order, starting with a fresh limiter at `t0`. -/
def run (t0 : Int) (calls : List LimiterCall) : LimiterRun :=
  calls.foldl step (start t0)

end LimiterRun

/-- Number of recorded timestamps in the interval `[lo, lo + 60000)`. -/
def requestsInMinute (recorded : List Int) (lo : Int) : Nat :=
  (recorded.filter (fun t => decide (lo ≤ t ∧ t < lo + 60000))).length

/-! ## download-queue.js -/

/-- Max parallel downloads. -/
def MAX_CONCURRENT : Int := 5

/-- The string job_<counter>_<millis>, kept as its two numbers (the rendering
is injective: decimal digits contain no underscore). -/
structure JobId where
  counter : Nat
  millis : Int
  deriving DecidableEq

/-- An element of the `items` argument of `addBatch`. -/
structure MediaItem where
  url : String
  filename : String
  type : String

/-- An entry of `this.queue`. -/
structure QueueItem where
  jobId : JobId
  url : String
  filename : String
  type : String
  username : String
  downloadPath : String

/-- The `status` field of a job record. -/
inductive JobStatus where
  | processing
  | complete
  deriving DecidableEq

/-- The `status` field of an item result. -/
inductive ItemStatus where
  | skipped
  | success
  | failed
  deriving DecidableEq

/-- An entry of `result.items`; `detail` is the `reason`, `path` or `error` field. -/
structure ItemResult where
  filename : String
  status : ItemStatus
  detail : String

/-- A value of the `results` map. -/
structure BatchJob where
  status : JobStatus
  total : Nat
  completed : Nat
  failed : Nat
  items : List ItemResult
  downloadPath : String
  completedAt : Option Int

/-- The `results` map, as a finite partial function. -/
abbrev JobTable := JobId → Option BatchJob

/-- The call `results.set(k, v)`. -/
def JobTable.set (m : JobTable) (k : JobId) (v : BatchJob) : JobTable :=
  fun j => if j = k then some v else m j

/-- The call `results.delete(k)`. -/
def JobTable.delete (m : JobTable) (k : JobId) : JobTable :=
  fun j => if j = k then none else m j

/-- The four fields of the `DownloadQueue` class. -/
structure DownloadQueue where
  queue : List QueueItem
  activeDownloads : Int
  results : JobTable
  jobCounter : Nat

/-- What the synchronous file-system calls answer during one synchronous
section: `existsSync path`, and the message of the error `mkdirSync folder`
throws (`none` when it returns). -/
structure Disk where
  existsSync : String → Bool
  mkdirError : String → Option String

/-- The call `path.join(a, b)` (normalisation is not modelled). -/
def pathJoin (a b : String) : String := a ++ "/" ++ b

/-- A `downloadItem` call suspended at one of its awaits (lines 103-116). -/
structure PendingTask where
  item : QueueItem
  filePath : String

/-- How the asynchronous part of `downloadItem` ends. -/
inductive FetchOutcome where
  /-- `await import('node-fetch')` rejects. -/
  | importFails (message : String)
  /-- `fetch` rejects, the response is not ok, or `response.buffer()` rejects. -/
  | fetchFails (message : String)
  /-- `writeFileSync` throws. -/
  | writeFails (message : String)
  /-- The file is written. -/
  | saved

/-- An observable action of the queue. -/
inductive Effect where
  /-- `downloadItem(item)` is called. -/
  | taskStarted (item : QueueItem)
  /-- `fetch(url, ...)` is called. -/
  | fetchCall (url : String)
  /-- `writeFileSync(filePath, ...)` is called. -/
  | writeCall (filePath : String)

/-- The queue object together with the part of the event loop it uses:
the `downloadItem` calls suspended at an await, the number of settled
`downloadItem` promises whose `finally` callback has not yet run, the job ids
of the pending clean-up timers, and the log of effects so far. -/
structure QueueSystem where
  q : DownloadQueue
  suspended : List PendingTask
  settled : Nat
  timers : List JobId
  effects : List Effect

/-- The code points `String.prototype.trim` strips: the WhiteSpace and
LineTerminator code points of ECMAScript (tab, line feed, vertical tab, form
feed, carriage return, space, no-break space, the other space separators,
line and paragraph separator, byte order mark). -/
def isJsWhiteSpace (c : Char) : Bool :=
  [9, 10, 11, 12, 13, 32, 160, 5760, 8192, 8193, 8194, 8195, 8196, 8197, 8198, 8199, 8200,
    8201, 8202, 8232, 8233, 8239, 8287, 12288, 65279].contains c.toNat

/-- The call `s.trim()`. -/
def jsTrim (s : String) : String :=
  String.mk ((s.toList.dropWhile isJsWhiteSpace).reverse.dropWhile isJsWhiteSpace).reverse

namespace QueueSystem

/-- The state built by the constructor, on an idle event loop. -/
def init : QueueSystem :=
  { q := { queue := [], activeDownloads := 0, results := fun _ => none, jobCounter := 0 },
    suspended := [], settled := 0, timers := [], effects := [] }

/-- Lines 135-146: `checkJobComplete(jobId)` at clock value `now`. -/
def checkJobComplete (s : QueueSystem) (jobId : JobId) (now : Int) : QueueSystem :=
  match s.q.results jobId with
  | some result =>
    if result.completed + result.failed ≥ result.total then
      let updated := { result with status := JobStatus.complete, completedAt := some now }
      { s with q := { s.q with results := s.q.results.set jobId updated }, timers := s.timers ++ [jobId] }
    else s
  | none => s

/-- Lines 96-97 and 119-120: `result.completed++; result.items.push(entry)`
on the record of `jobId` (no record: nothing in the table changes). -/
def recordCompleted (s : QueueSystem) (jobId : JobId) (entry : ItemResult) : QueueSystem :=
  match s.q.results jobId with
  | some result =>
    let updated := { result with completed := result.completed + 1, items := result.items ++ [entry] }
    { s with q := { s.q with results := s.q.results.set jobId updated } }
  | none => s

/-- Lines 124-125: `result.failed++; result.items.push(entry)`. -/
def recordFailed (s : QueueSystem) (jobId : JobId) (entry : ItemResult) : QueueSystem :=
  match s.q.results jobId with
  | some result =>
    let updated := { result with failed := result.failed + 1, items := result.items ++ [entry] }
    { s with q := { s.q with results := s.q.results.set jobId updated } }
  | none => s

/-- The promise returned by a `downloadItem` call settles: its `finally`
callback is queued. -/
def settle (s : QueueSystem) : QueueSystem :=
  { s with settled := s.settled + 1 }

/-- Lines 80-103: `downloadItem(item)` up to its first await. The call either
finishes at once (folder creation throws: catch block; target file exists:
skip) or is suspended at `await import('node-fetch')`. -/
def downloadItem (disk : Disk) (now : Int) (item : QueueItem) (s : QueueSystem) : QueueSystem :=
  let s0 := { s with effects := s.effects ++ [Effect.taskStarted item] }
  let userFolder := pathJoin item.downloadPath item.username
  match (if disk.existsSync userFolder then none else disk.mkdirError userFolder) with
  | some message =>
    settle (checkJobComplete
      (recordFailed s0 item.jobId { filename := item.filename, status := .failed, detail := message })
      item.jobId now)
  | none =>
    let filePath := pathJoin userFolder item.filename
    if disk.existsSync filePath then
      settle (checkJobComplete
        (recordCompleted s0 item.jobId { filename := item.filename, status := .skipped, detail := "exists" })
        item.jobId now)
    else
      { s0 with suspended := s0.suspended ++ [{ item := item, filePath := filePath }] }

/-- The calls the asynchronous part of a task makes before it ends. -/
def outcomeEffects (t : PendingTask) : FetchOutcome → List Effect
  | .importFails _ => []
  | .fetchFails _ => [Effect.fetchCall t.item.url]
  | .writeFails _ => [Effect.fetchCall t.item.url, Effect.writeCall t.filePath]
  | .saved => [Effect.fetchCall t.item.url, Effect.writeCall t.filePath]

/-- Lines 103-129: the suspended task number `i` runs to its end with the
given outcome. -/
def taskResumes (now : Int) (i : Nat) (o : FetchOutcome) (s : QueueSystem) : QueueSystem :=
  match s.suspended[i]? with
  | none => s
  | some t =>
    let s0 := { s with suspended := s.suspended.eraseIdx i, effects := s.effects ++ outcomeEffects t o }
    let s1 :=
      match o with
      | .saved =>
        recordCompleted s0 t.item.jobId { filename := t.item.filename, status := .success, detail := t.filePath }
      | .importFails message =>
        recordFailed s0 t.item.jobId { filename := t.item.filename, status := .failed, detail := message }
      | .fetchFails message =>
        recordFailed s0 t.item.jobId { filename := t.item.filename, status := .failed, detail := message }
      | .writeFails message =>
        recordFailed s0 t.item.jobId { filename := t.item.filename, status := .failed, detail := message }
    settle (checkJobComplete s1 t.item.jobId now)

/-- Lines 65-74: the loop of `processQueue`, over the current queue. -/
def processLoop (disk : Disk) (now : Int) : List QueueItem → QueueSystem → QueueSystem
  | [], s => s
  | item :: rest, s =>
    if s.q.activeDownloads < MAX_CONCURRENT then
      processLoop disk now rest
        (downloadItem disk now item
          { s with q := { s.q with queue := rest, activeDownloads := s.q.activeDownloads + 1 } })
    else s

/-- Lines 64-75: `processQueue()`. -/
def processQueue (disk : Disk) (now : Int) (s : QueueSystem) : QueueSystem :=
  processLoop disk now s.q.queue s

/-- Lines 69-72: the `finally` callback of a settled task runs. -/
def finallyRuns (disk : Disk) (now : Int) (s : QueueSystem) : QueueSystem :=
  if s.settled = 0 then s
  else
    processQueue disk now
      { s with settled := s.settled - 1, q := { s.q with activeDownloads := s.q.activeDownloads - 1 } }

/-- Lines 142-144: the pending clean-up timer number `i` fires. -/
def timerFires (i : Nat) (s : QueueSystem) : QueueSystem :=
  match s.timers[i]? with
  | none => s
  | some jobId =>
    { s with timers := s.timers.eraseIdx i, q := { s.q with results := s.q.results.delete jobId } }

/-- The record `addBatch` stores for a new job. -/
def newJob (total : Nat) (baseFolder : String) : BatchJob :=
  { status := .processing, total := total, completed := 0, failed := 0, items := [],
    downloadPath := baseFolder, completedAt := none }

/-- Line 28: the id of the next job. -/
def nextJobId (s : QueueSystem) (now : Int) : JobId :=
  { counter := s.q.jobCounter + 1, millis := now }

/-- Lines 31-33: the folder a batch is saved under. -/
def baseFolder (defaultFolder downloadPath : String) : String :=
  if downloadPath ≠ "" ∧ jsTrim downloadPath ≠ "" then jsTrim downloadPath else defaultFolder

/-- Lines 45-52: the queue entry made for an item. -/
def toQueueItem (jobId : JobId) (username folder : String) (item : MediaItem) : QueueItem :=
  { jobId := jobId, url := item.url, filename := item.filename, type := item.type,
    username := username, downloadPath := folder }

/-- Lines 27-59: `addBatch(items, username, downloadPath)` at clock value
`now`; `defaultFolder` is the constant DEFAULT_DOWNLOAD_FOLDER. Returns the
state when the call returns, and the job id. -/
def addBatch (defaultFolder : String) (disk : Disk) (now : Int) (items : List MediaItem)
    (username downloadPath : String) (s : QueueSystem) : QueueSystem × JobId :=
  let jobId := nextJobId s now
  let folder := baseFolder defaultFolder downloadPath
  let s1 : QueueSystem :=
    { s with q := { s.q with
        jobCounter := s.q.jobCounter + 1,
        results := s.q.results.set jobId (newJob items.length folder),
        queue := s.q.queue ++ items.map (toQueueItem jobId username folder) } }
  (processQueue disk now s1, jobId)

/-- Lines 151-153: `getStatus(jobId)`; `none` stands for the not_found record. -/
def getStatus (s : QueueSystem) (jobId : JobId) : Option BatchJob :=
  s.q.results jobId

end QueueSystem

/-- What can happen to the queue: a call of `addBatch`, a suspended task
running to its end, a `finally` callback, a clean-up timer. -/
inductive QueueEvent where
  | addBatch (disk : Disk) (now : Int) (items : List MediaItem) (username downloadPath : String)
  | taskResumes (now : Int) (i : Nat) (o : FetchOutcome)
  | finallyRuns (disk : Disk) (now : Int)
  | timerFires (i : Nat)

namespace QueueSystem

/-- Performs one event. -/
def step (defaultFolder : String) (s : QueueSystem) : QueueEvent → QueueSystem
  | .addBatch disk now items username downloadPath =>
    (addBatch defaultFolder disk now items username downloadPath s).1
  | .taskResumes now i o => taskResumes now i o s
  | .finallyRuns disk now => finallyRuns disk now s
  | .timerFires i => timerFires i s

/-- Performs the events in order, from the state `s`. -/
def runFrom (defaultFolder : String) (s : QueueSystem) (events : List QueueEvent) : QueueSystem :=
  events.foldl (step defaultFolder) s

/-- Performs the events in order on a fresh queue. -/
def run (defaultFolder : String) (events : List QueueEvent) : QueueSystem :=
  runFrom defaultFolder init events

/-- Number of queue entries of job `j`. -/
def queuedOf (s : QueueSystem) (j : JobId) : Nat :=
  s.q.queue.countP (fun item => decide (item.jobId = j))

/-- Number of tasks of job `j` started and not yet counted. -/
def runningOf (s : QueueSystem) (j : JobId) : Nat :=
  s.suspended.countP (fun t => decide (t.item.jobId = j))

end QueueSystem

/-- Number of item results with status failed. -/
def failedResults (l : List ItemResult) : Nat :=
  l.countP (fun e => decide (e.status = .failed))

/-! ## Auxiliary definitions for the statements -/

/-- The facts kept by every run of sequential calls started at a positive
clock value. -/
structure LimiterRun.Good (r : LimiterRun) : Prop where
  clock : 0 < r.now
  last_le : r.limiter.lastRequestTime ≤ r.now
  spaced : r.recorded.Pairwise (fun a b => a + MIN_DELAY_MS ≤ b)
  bounded : ∀ t ∈ r.recorded, 0 < t ∧ t ≤ r.limiter.lastRequestTime

/-- All three timers fire exactly on time. -/
def onTime : Lateness := { cooldown := 0, burst := 0, delay := 0 }

/-- Twenty waitForSlot calls three seconds apart, then triggerCooldown with its
default duration, all timers on time. -/
def spacedCallsThenCooldown : List LimiterCall :=
  LimiterCall.waitForSlot 0 onTime :: List.replicate 19 (LimiterCall.waitForSlot 3000 onTime)
    ++ [LimiterCall.triggerCooldown 0 BURST_COOLDOWN_MS]

/-- Number of entries of job `j` in a list of queue entries. -/
def countJob (l : List QueueItem) (j : JobId) : Nat :=
  l.countP (fun item => decide (item.jobId = j))

/-- The record after `checkJobComplete` has looked at it. -/
def closeIfDone (now : Int) (r : BatchJob) : BatchJob :=
  if r.total ≤ r.completed + r.failed then { r with status := .complete, completedAt := some now } else r

/-- The facts kept by every state of the queue. `extra` lists the entries that
`processQueue` has taken off the queue, or that a resumed task holds, and
that are not yet counted in their job record. -/
structure QueueSystem.Inv (extra : List QueueItem) (s : QueueSystem) : Prop where
  active_eq : s.q.activeDownloads = s.suspended.length + s.settled + extra.length
  active_le : s.q.activeDownloads ≤ MAX_CONCURRENT
  table_fresh : ∀ j r, s.q.results j = some r → j.counter ≤ s.q.jobCounter
  timers_fresh : ∀ j ∈ s.timers, j.counter ≤ s.q.jobCounter
  queue_present : ∀ item ∈ s.q.queue, (s.q.results item.jobId).isSome = true
  running_present : ∀ t ∈ s.suspended, (s.q.results t.item.jobId).isSome = true
  extra_present : ∀ item ∈ extra, (s.q.results item.jobId).isSome = true
  conserved : ∀ j r, s.q.results j = some r →
    s.queuedOf j + s.runningOf j + countJob extra j + r.completed + r.failed = r.total
  status_ok : ∀ j r, s.q.results j = some r →
    (r.status = .complete → r.total ≤ r.completed + r.failed) ∧
    (0 < r.total → r.total ≤ r.completed + r.failed → r.status = .complete)
  logged : ∀ j r, s.q.results j = some r →
    r.failed = failedResults r.items ∧ r.completed + r.failed = r.items.length
  timers_ok : ∀ j ∈ s.timers, ∀ r, s.q.results j = some r → r.status = .complete
  complete_pos : ∀ j r, s.q.results j = some r → r.status = .complete → 0 < r.completed + r.failed

/-- The number of tasks one `processQueue()` call starts: as many as the queue
offers and the free slots allow. -/
def QueueSystem.dispatchCount (s : QueueSystem) : Nat :=
  min s.q.queue.length (MAX_CONCURRENT - s.q.activeDownloads).toNat

/-- A disk on which every folder can be created and no file exists yet. -/
def emptyDisk : Disk := { existsSync := fun _ => false, mkdirError := fun _ => none }

/-- A disk on which every path exists. -/
def fullDisk : Disk := { existsSync := fun _ => true, mkdirError := fun _ => none }

/-- A batch item named by a number. -/
def sampleItem (n : Nat) : MediaItem :=
  { url := "https://cdn.example/" ++ toString n, filename := toString n ++ ".jpg", type := "image" }

/-- The `total` of every job in the table. -/
def QueueSystem.totals (s : QueueSystem) (j : JobId) : Option Nat :=
  (s.q.results j).map (fun r => r.total)

/-- Whether the synchronous part of `downloadItem(item)` reaches the await of
line 103 on this disk: the user folder exists or can be created, and the
target file does not exist. -/
def Disk.suspends (disk : Disk) (item : QueueItem) : Prop :=
  (disk.existsSync (pathJoin item.downloadPath item.username) = true ∨
    disk.mkdirError (pathJoin item.downloadPath item.username) = none) ∧
  disk.existsSync (pathJoin (pathJoin item.downloadPath item.username) item.filename) = false

/-- Whether the event is a clean-up timer. -/
def QueueEvent.isTimer : QueueEvent → Bool
  | .timerFires _ => true
  | _ => false

/-- Number of item results with a status other than failed. -/
def otherResults (l : List ItemResult) : Nat :=
  l.countP (fun e => !decide (e.status = .failed))

/-- What follows the submission of five items on an empty disk when only the
third fetch fails: the five tasks end in order, then their five `finally`
callbacks run. -/
def thirdOfFiveFails : List QueueEvent :=
  [.taskResumes 6 0 .saved, .taskResumes 6 0 .saved, .taskResumes 7 0 (.fetchFails "HTTP 404"),
   .taskResumes 8 0 .saved, .taskResumes 8 0 .saved,
   .finallyRuns emptyDisk 9, .finallyRuns emptyDisk 9, .finallyRuns emptyDisk 9,
   .finallyRuns emptyDisk 9, .finallyRuns emptyDisk 9]

/-- Whether the asynchronous part of a task ended in the catch block. -/
def FetchOutcome.isFailure : FetchOutcome → Bool
  | .saved => false
  | _ => true

/-- Whether what the disk answers for `item` fits the assignment `fails` of
outcomes to items: a throwing folder creation is a failure, an existing target
file is not. -/
def Disk.agrees (disk : Disk) (fails : QueueItem → Bool) (item : QueueItem) : Prop :=
  match (if disk.existsSync (pathJoin item.downloadPath item.username) then none
    else disk.mkdirError (pathJoin item.downloadPath item.username)) with
  | some _ => fails item = true
  | none =>
    disk.existsSync (pathJoin (pathJoin item.downloadPath item.username) item.filename) = true →
      fails item = false

/-- Whether an event treats the items of job `j` as the assignment `fails`
says: the tasks it starts or ends fail exactly when their item is assigned a
failure. -/
def QueueEvent.agrees (fails : QueueItem → Bool) (j : JobId) (s : QueueSystem) : QueueEvent → Prop
  | .addBatch disk _ _ _ _ => ∀ item, item.jobId = j → disk.agrees fails item
  | .finallyRuns disk _ => ∀ item, item.jobId = j → disk.agrees fails item
  | .taskResumes _ i o =>
    ∀ t, s.suspended[i]? = some t → t.item.jobId = j → fails t.item = o.isFailure
  | .timerFires _ => True

/-- Whether every event of a run from `s` treats the items of job `j` as the
assignment `fails` says. -/
def QueueSystem.Consistent (defaultFolder : String) (fails : QueueItem → Bool) (j : JobId) :
    QueueSystem → List QueueEvent → Prop
  | _, [] => True
  | s, e :: rest =>
    e.agrees fails j s ∧ QueueSystem.Consistent defaultFolder fails j (s.step defaultFolder e) rest

/-- Number of entries of job `j` in a list that are assigned a failure. -/
def failing (fails : QueueItem → Bool) (j : JobId) (l : List QueueItem) : Nat :=
  l.countP (fun item => decide (item.jobId = j) && fails item)

/-- The `failed` counter of every job in the table. -/
def QueueSystem.failedOf (s : QueueSystem) (j : JobId) : Option Nat :=
  (s.q.results j).map (fun r => r.failed)

/-- The failures of job `j` still to come and those counted add up to `n`. -/
structure QueueSystem.FailInv (fails : QueueItem → Bool) (j : JobId) (n : Nat)
    (extra : List QueueItem) (s : QueueSystem) : Prop where
  old : j.counter ≤ s.q.jobCounter
  counted : ∀ f, s.failedOf j = some f →
    failing fails j s.q.queue + failing fails j (s.suspended.map (fun t => t.item))
      + failing fails j extra + f = n

/-! ## JavaScript strings

A JavaScript string is kept as a Lean `String`. Every pattern the code
searches for is ASCII, so searching by code point and by UTF-16 code unit
agree; only `length` counts code units. -/

/-- The call `s.includes(pat)`. -/
def includes (s pat : String) : Bool :=
  s.toList.tails.any (fun t => pat.toList.isPrefixOf t)

/-- The property `s.length`: the number of UTF-16 code units. -/
def jsLength (s : String) : Nat :=
  (s.toList.map (fun c => if c.val.toNat < 65536 then 1 else 2)).sum

/-- JavaScript truthiness of a string: non-empty. -/
def truthy (s : String) : Bool := !s.toList.isEmpty

/-- Replaces every occurrence of `pat` (non-empty) by `rep`, scanning from the
left: `s.replace(/pat/g, rep)` for a literal pattern. The first argument
bounds the number of steps. -/
def replaceAllAux (pat rep : List Char) : Nat → List Char → List Char
  | 0, s => s
  | _, [] => []
  | n + 1, c :: cs =>
    if pat.isPrefixOf (c :: cs) then rep ++ replaceAllAux pat rep n ((c :: cs).drop pat.length)
    else c :: replaceAllAux pat rep n cs

/-- The call `s.replace(/pat/g, rep)` for a literal, non-empty pattern. -/
def replaceAll (s pat rep : String) : String :=
  String.mk (replaceAllAux pat.toList rep.toList s.toList.length s.toList)

/-- The call `s.split('?')[0]`: what stands before the first question mark. -/
def beforeQuery (s : String) : String :=
  String.mk (s.toList.takeWhile (fun c => c != '?'))

/-! ## error-recovery.js -/

/-- Update when patterns change. -/
def KNOWN_PATTERNS_VERSION : String := "2025-12-19"

/-- Key elements that should exist on a valid post page. -/
def postElements : List String :=
  ["\"shortcode\"", "\"owner\"", "\"edge_", "PolarisPostRootQuery"]

/-- Key elements for media extraction. -/
def mediaElements : List String :=
  ["\"display_url\"", "\"video_url\"", "\"image_versions2\"", "\"video_versions\""]

/-- Signs of Instagram structure change. -/
def warningPatterns : List String :=
  ["You must log in to continue", "Create an account", "Install the app"]

/-- The object `analyzePage` builds. -/
structure Diagnostic where
  url : String
  timestamp : String
  patternsVersion : String
  issues : List String
  suggestions : List String
  structureValid : Bool

namespace ErrorRecovery

/-- Lines 55-62: one step of the loop over the warning patterns. -/
def checkWarning (html : String) (d : Diagnostic) (warning : String) : Diagnostic :=
  if includes html warning then
    { d with
      issues := d.issues ++ ["Login wall detected: \"" ++ warning ++ "\""],
      suggestions := d.suggestions ++ ["Consider adding valid cookies.json"],
      structureValid := false }
  else d

/-- Lines 64-73: the post structure check. -/
def checkPostElements (html : String) (d : Diagnostic) : Diagnostic :=
  let foundPostElements := postElements.filter (fun el => includes html el)
  if foundPostElements.length = 0 then
    { d with
      issues := d.issues ++ ["No post structure elements found"],
      suggestions := d.suggestions ++ ["Instagram may have changed page structure"],
      structureValid := false }
  else if foundPostElements.length < 2 then
    { d with
      issues := d.issues ++
        ["Only " ++ toString foundPostElements.length ++ " post elements found (expected 2+)"],
      suggestions := d.suggestions ++ ["Page may not have fully loaded"] }
  else d

/-- Lines 75-80: the media marker check. -/
def checkMediaElements (html : String) (d : Diagnostic) : Diagnostic :=
  let foundMediaElements := mediaElements.filter (fun el => includes html el)
  if foundMediaElements.length = 0 then
    { d with
      issues := d.issues ++ ["No media URL patterns found in page"],
      suggestions := d.suggestions ++ ["Post may be private or media patterns changed"] }
  else d

/-- Lines 82-87: the page length check. -/
def checkLength (html : String) (d : Diagnostic) : Diagnostic :=
  if jsLength html < 5000 then
    { d with
      issues := d.issues ++ ["Page unusually short (" ++ toString (jsLength html) ++ " chars)"],
      suggestions := d.suggestions ++ ["May be blocked or rate limited"],
      structureValid := false }
  else d

/-- Lines 89-93: the error page check. -/
def checkErrorPage (html : String) (d : Diagnostic) : Diagnostic :=
  if includes html "Page Not Found" || includes html "isn't available" then
    { d with issues := d.issues ++ ["Post not found or unavailable"], structureValid := false }
  else d

/-- Lines 45-97: `analyzePage(html, url)`; `timestamp` is what
`new Date().toISOString()` returns at the call. -/
def analyzePage (timestamp html url : String) : Diagnostic :=
  let diagnostic : Diagnostic :=
    { url := url, timestamp := timestamp, patternsVersion := KNOWN_PATTERNS_VERSION,
      issues := [], suggestions := [], structureValid := true }
  checkErrorPage html
    (checkLength html
      (checkMediaElements html
        (checkPostElements html
          (warningPatterns.foldl (checkWarning html) diagnostic))))

/-- Lines 153-172: `getErrorMessage(diagnostic)`. -/
def getErrorMessage (diagnostic : Diagnostic) : String :=
  if !diagnostic.structureValid then
    if diagnostic.issues.any (fun i => includes i "Login wall") then
      "Instagram requires login. Please add valid cookies to cookies.json"
    else if diagnostic.issues.any (fun i => includes i "Not Found") then
      "Post not found or has been deleted"
    else if diagnostic.issues.any (fun i => includes i "short") then
      "Instagram may have blocked this request. Try again later"
    else
      "Instagram page structure may have changed. Check diagnostics folder for details"
  else
    match diagnostic.issues with
    | first :: _ => "Extraction issues: " ++ first
    | [] => "Unknown error occurred"

end ErrorRecovery

/-! ## scraper.js -/

/-- Maximum number of attempts. -/
def MAX_RETRIES : Nat := 3

/-- Base delay, increases exponentially. -/
def RETRY_DELAY_MS : Nat := 1000

/-- The class `[\w-]` of the URL patterns. -/
def isWordChar (c : Char) : Bool :=
  c.isAlphanum || c == '_' || c == '-'

/-- Matches the literal `lit` at the start of `s`, ignoring the case of ASCII
letters when `ignoreCase` is set; returns what follows the match. -/
def afterLiteral (ignoreCase : Bool) : List Char → List Char → Option (List Char)
  | [], s => some s
  | _ :: _, [] => none
  | l :: ls, c :: cs =>
    if (if ignoreCase then l.toLower == c.toLower else l == c) then afterLiteral ignoreCase ls cs
    else none

/-- Matches `(p|reel|reels|tv)\/[\w-]+` at the start of `s`; returns the
longest run of `[\w-]` characters after the slash. -/
def afterKind (ignoreCase : Bool) (s : List Char) : Option (List Char) :=
  ["p/", "reel/", "reels/", "tv/"].findSome? (fun kind =>
    match afterLiteral ignoreCase kind.toList s with
    | some rest =>
      match rest.takeWhile isWordChar with
      | [] => none
      | code => some code
    | none => none)

/-- The leftmost match of `instagram\.com\/(p|reel|reels|tv)\/([\w-]+)` in
`url`: its capture group. -/
def matchPostUrl (ignoreCase : Bool) (url : String) : Option String :=
  url.toList.tails.findSome? (fun t =>
    match afterLiteral ignoreCase "instagram.com/".toList t with
    | some rest => (afterKind ignoreCase rest).map String.mk
    | none => none)

/-- Lines 47-49: `isValidInstagramUrl(url)`, a case-insensitive test. -/
def isValidInstagramUrl (url : String) : Bool :=
  (matchPostUrl true url).isSome

/-- Lines 54-56: `isReelUrl(url)`, a case-insensitive test. -/
def isReelUrl (url : String) : Bool :=
  url.toList.tails.any (fun t => (afterLiteral true "instagram.com/reel".toList t).isSome)

/-- Lines 61-64: `extractShortcode(url)`, a case-sensitive match. -/
def extractShortcode (url : String) : Option String :=
  matchPostUrl false url

/-- The `type` of a media item. -/
inductive MediaType where
  | image
  | video
  deriving DecidableEq

/-- A media item `{ type, url }` or `{ type, url, thumbnail }`: `thumbnail`
is `none` when the object has no such key, `some none` when it is null. -/
structure Media where
  type : MediaType
  url : String
  thumbnail : Option (Option String)
  deriving DecidableEq

/-- What the in-page extraction code reads from the page: the first capture
of the four thumbnail patterns, the content of the two meta tags, and the
captures of the video patterns and of the image patterns in loop order. -/
structure PageSource where
  thumbnailSrc : Option String
  poster : Option String
  videoSection : Option String
  displayUrl : Option String
  metaOg : Option String
  metaTwitter : Option String
  videoMatches : List String
  imageMatches : List String

/-- Lines 303-309: `decode(url)` of the in-page code. -/
def decode (url : String) : String :=
  replaceAll (replaceAll (replaceAll url "\\u0026" "&") "\\/" "/") "\\" ""

/-- One fallback of lines 311-357: a truthy thumbnail is kept; otherwise a
truthy candidate is taken, after `f`. -/
def orThumbnail (f : String → String) (current candidate : Option String) : Option String :=
  if current.any truthy then current
  else
    match candidate with
    | some c => if truthy c then some (f c) else current
    | none => current

/-- Lines 311-357: the video thumbnail. -/
def videoThumbnail (src : PageSource) : Option String :=
  orThumbnail id
    (orThumbnail id
      (orThumbnail decode
        (orThumbnail decode
          (orThumbnail decode (orThumbnail decode none src.thumbnailSrc) src.poster)
          src.videoSection)
        src.displayUrl)
      src.metaOg)
    src.metaTwitter

/-- Line 372: the test a video capture must pass; returns the decoded url. -/
def acceptVideo (capture : String) : Option String :=
  if truthy (decode capture) && (includes (decode capture) ".mp4" || includes (decode capture) "video")
  then some (decode capture) else none

/-- Lines 394-398: the test an image capture must pass; returns the decoded
url. -/
def acceptImage (capture : String) : Option String :=
  if truthy (decode capture) &&
      !includes (decode capture) "s150x150" &&
      !includes (decode capture) "s320x320" &&
      !includes (decode capture) "s640x640" &&
      (includes (decode capture) "scontent" || includes (decode capture) "cdninstagram"
        || includes (decode capture) "fbcdn")
  then some (decode capture) else none

/-- Lines 368-381: the loops over the video captures. `seen` is the set
`seenUrls`; returns the set afterwards and the items pushed, in order. -/
def videoLoop (thumbnail : Option String) : List String → List String → List String × List Media
  | seen, [] => (seen, [])
  | seen, capture :: rest =>
    match acceptVideo capture with
    | none => videoLoop thumbnail seen rest
    | some url =>
      if seen.contains (beforeQuery url) then videoLoop thumbnail seen rest
      else
        let r := videoLoop thumbnail (beforeQuery url :: seen) rest
        (r.1, { type := .video, url := url, thumbnail := some thumbnail } :: r.2)

/-- Lines 390-402 with `addMedia` (lines 296-301): the loops over the image
captures. -/
def imageLoop : List String → List String → List String × List Media
  | seen, [] => (seen, [])
  | seen, capture :: rest =>
    match acceptImage capture with
    | none => imageLoop seen rest
    | some url =>
      if truthy url && !seen.contains url then
        let r := imageLoop (url :: seen) rest
        (r.1, { type := .image, url := url, thumbnail := none } :: r.2)
      else imageLoop seen rest

/-- The array `results` when line 404 is reached. -/
def patternResults (src : PageSource) : List Media :=
  let videos := videoLoop (videoThumbnail src) [] src.videoMatches
  videos.2 ++ (imageLoop videos.1 src.imageMatches).2

/-- Lines 291-410: the value of `extractedMedia`. -/
def extractFromSource (isReel : Bool) (src : PageSource) : List Media :=
  if isReel && (patternResults src).any (fun r => r.type = .video) then
    (patternResults src).filter (fun r => r.type = .video)
  else patternResults src

/-- A call the scraper makes on one of its collaborators. -/
inductive ScraperCall where
  | waitForSlot
  | getPage
  | setCookie
  | addJitter (ms : Nat)
  | goto (url : String)
  | delay (ms : Nat)
  | content
  | analyzePage
  | triggerCooldown (ms : Nat)
  | trackError (errorType : String)
  | releasePage
  | saveDiagnostic
  | evaluate
  deriving DecidableEq

/-- What `scrapeWithPage` returns. -/
inductive ScrapeResult where
  | failure (error code : String)
  | success (media : List Media) (count : Nat) (username : String)
  deriving DecidableEq

/-- One step of the carousel loop: what the click on Next answers (an error
message when the call rejects) and what the view shows afterwards. -/
structure Slide where
  hasNext : Except String Bool
  view : Except String (List Media)

/-- What the collaborators answer during one attempt. A `some message` or an
`error message` is a call that rejects with that message. -/
structure AttemptEnv where
  /-- `browserManager.getPage()`. -/
  getPage : Option String
  /-- The number of cookies `loadCookies()` returns. -/
  cookies : Nat
  /-- `page.setCookie(...)`. -/
  setCookie : Option String
  /-- `page.goto(...)`. -/
  goto : Option String
  /-- `page.content()`. -/
  content : Except String String
  /-- `new Date().toISOString()` at the calls of `analyzePage`. -/
  timestamp : String
  /-- The first `page.evaluate`: the username. -/
  username : Except String String
  /-- The second `page.evaluate`: what the extraction code reads. -/
  source : Except String PageSource
  /-- The first view of the carousel. -/
  firstView : Except String (List Media)
  /-- The steps of the carousel loop. -/
  slides : List Slide

/-- The exit of the `try` block of `scrapeWithPage`. -/
inductive ExitPath where
  | rateLimited
  | loginWall
  | notFound
  | success
  | carousel
  | noMedia
  | thrown
  deriving DecidableEq

/-- What the `try` block of `scrapeWithPage` did: the value returned or the
message of the error thrown, the calls made, whether `page` is set, and the
exit taken. -/
structure TryBlock where
  outcome : Except String ScrapeResult
  actions : List ScraperCall
  page : Bool
  exit : ExitPath

/-- Modelled from the spec: `browser-manager.js` is missing from the sources.
The call `browserManager.releasePage(page)` returns the handle to the free
set; it does not reject. -/
def releasePageCall : List ScraperCall := [ScraperCall.releasePage]

/-- Lines 476-481 and 499-504: adds the items of a view not seen yet. -/
def mergeView : List String → List Media → List String × List Media
  | seen, [] => (seen, [])
  | seen, m :: rest =>
    if seen.contains m.url then mergeView seen rest
    else
      let r := mergeView (m.url :: seen) rest
      (r.1, m :: r.2)

/-- Lines 483-505: the carousel loop, `budget` being `maxSlides - slideCount`.
Returns the error thrown, if any, the items added and the calls made. When
the list of slides is used up, the click finds no Next button. -/
def carouselLoop : Nat → List String → List Slide → Option String × List Media × List ScraperCall
  | 0, _, _ => (none, [], [])
  | _ + 1, _, [] => (none, [], [ScraperCall.evaluate])
  | budget + 1, seen, slide :: rest =>
    match slide.hasNext with
    | .error message => (some message, [], [ScraperCall.evaluate])
    | .ok false => (none, [], [ScraperCall.evaluate])
    | .ok true =>
      match slide.view with
      | .error message => (some message, [], [ScraperCall.evaluate, ScraperCall.delay 400, ScraperCall.evaluate])
      | .ok view =>
        let merged := mergeView seen view
        let r := carouselLoop budget merged.1 rest
        (r.1, merged.2 ++ r.2.1, [ScraperCall.evaluate, ScraperCall.delay 400, ScraperCall.evaluate] ++ r.2.2)

/-- Line 186-188: the rate limiting response. -/
def hasThrottleSignal (pageContent : String) : Bool :=
  includes pageContent "Please wait a few minutes" ||
  includes pageContent "Try again later" ||
  includes pageContent "rate limit"

/-- Lines 196-197: the login wall. -/
def hasLoginWall (pageContent : String) : Bool :=
  includes pageContent "You must log in to continue" ||
  includes pageContent "Create an account"

/-- Lines 208-209: the not-found page. -/
def hasNotFound (pageContent : String) : Bool :=
  includes pageContent "Page Not Found" ||
  includes pageContent "Sorry, this page isn't available"

/-- Lines 160-162 and 180-182: the url of the post. -/
def postUrl (shortcode : String) (isReel : Bool) : String :=
  if isReel then "https://www.instagram.com/reel/" ++ shortcode ++ "/"
  else "https://www.instagram.com/p/" ++ shortcode ++ "/"

/-- Lines 514-524: no media found. -/
def noMediaExit (env : AttemptEnv) (pageUrl pageContent : String) (done : List ScraperCall) : TryBlock :=
  let finalDiagnostic := ErrorRecovery.analyzePage env.timestamp pageContent pageUrl
  let finalDiagnostic :=
    { finalDiagnostic with issues := finalDiagnostic.issues ++ ["No media extracted after all attempts"] }
  { outcome := .error (ErrorRecovery.getErrorMessage finalDiagnostic),
    actions := done ++ [ScraperCall.trackError "NO_MEDIA", ScraperCall.analyzePage,
      ScraperCall.saveDiagnostic] ++ releasePageCall,
    page := true, exit := .noMedia }

/-- Lines 428-512: the carousel navigation for image posts. -/
def carouselExit (env : AttemptEnv) (pageUrl pageContent username : String) (done : List ScraperCall) :
    TryBlock :=
  match env.firstView with
  | .error message =>
    { outcome := .error message, actions := done ++ [ScraperCall.evaluate], page := true, exit := .thrown }
  | .ok view =>
    let first := mergeView [] view
    let r := carouselLoop 20 first.1 env.slides
    let carouselMedia := first.2 ++ r.2.1
    let done := done ++ [ScraperCall.evaluate] ++ r.2.2
    match r.1 with
    | some message => { outcome := .error message, actions := done, page := true, exit := .thrown }
    | none =>
      if carouselMedia.length > 0 then
        { outcome := .ok (.success carouselMedia carouselMedia.length username),
          actions := done ++ releasePageCall, page := true, exit := .carousel }
      else noMediaExit env pageUrl pageContent done

/-- Lines 412-426: the media found in the page source. -/
def finalMedia (isReel : Bool) (extractedMedia : List Media) : List Media :=
  if isReel then
    match extractedMedia.filter (fun m => m.type = .video) with
    | first :: _ => [first]
    | [] => extractedMedia
  else extractedMedia

/-- Lines 216-524: what follows the three checks of the page content. -/
def extractExit (env : AttemptEnv) (isReel : Bool) (pageUrl pageContent : String)
    (diagnostic : Diagnostic) (done : List ScraperCall) : TryBlock :=
  let done := if !diagnostic.structureValid then done ++ [ScraperCall.saveDiagnostic] else done
  match env.username with
  | .error message =>
    { outcome := .error message, actions := done ++ [ScraperCall.evaluate], page := true, exit := .thrown }
  | .ok username =>
    match env.source with
    | .error message =>
      { outcome := .error message, actions := done ++ [ScraperCall.evaluate, ScraperCall.evaluate],
        page := true, exit := .thrown }
    | .ok src =>
      let extractedMedia := extractFromSource isReel src
      let done := done ++ [ScraperCall.evaluate, ScraperCall.evaluate]
      if extractedMedia.length > 0 then
        { outcome := .ok (.success (finalMedia isReel extractedMedia)
            (finalMedia isReel extractedMedia).length username),
          actions := done ++ releasePageCall, page := true, exit := .success }
      else if !isReel then carouselExit env pageUrl pageContent username done
      else noMediaExit env pageUrl pageContent done

/-- Lines 177-214: the page content is analysed and checked. -/
def contentExit (env : AttemptEnv) (shortcode : String) (isReel : Bool) (pageContent : String)
    (done : List ScraperCall) : TryBlock :=
  let pageUrl := postUrl shortcode isReel
  let diagnostic := ErrorRecovery.analyzePage env.timestamp pageContent pageUrl
  let done := done ++ [ScraperCall.analyzePage]
  if hasThrottleSignal pageContent then
    { outcome := .error "Instagram rate limit detected",
      actions := done ++ [ScraperCall.triggerCooldown 120000, ScraperCall.trackError "RATE_LIMIT"],
      page := true, exit := .rateLimited }
  else if hasLoginWall pageContent then
    { outcome := .ok (.failure "Instagram requires login. Please add valid cookies." "LOGIN_REQUIRED"),
      actions := done ++ [ScraperCall.trackError "LOGIN_REQUIRED"] ++ releasePageCall,
      page := true, exit := .loginWall }
  else if hasNotFound pageContent then
    { outcome := .ok (.failure "Post not found" "NOT_FOUND"),
      actions := done ++ releasePageCall ++ [ScraperCall.trackError "NOT_FOUND"],
      page := true, exit := .notFound }
  else extractExit env isReel pageUrl pageContent diagnostic done

/-- Lines 142-524: the `try` block of `scrapeWithPage`. -/
def tryBlock (env : AttemptEnv) (shortcode : String) (isReel : Bool) : TryBlock :=
  match env.getPage with
  | some message =>
    { outcome := .error message, actions := [ScraperCall.waitForSlot, ScraperCall.getPage],
      page := false, exit := .thrown }
  | none =>
    let done := [ScraperCall.waitForSlot, ScraperCall.getPage]
    match (if env.cookies > 0 then env.setCookie else none) with
    | some message =>
      { outcome := .error message, actions := done ++ [ScraperCall.setCookie], page := true,
        exit := .thrown }
    | none =>
      let done := if env.cookies > 0 then done ++ [ScraperCall.setCookie] else done
      let done := done ++ [ScraperCall.addJitter 100, ScraperCall.goto (postUrl shortcode isReel)]
      match env.goto with
      | some message => { outcome := .error message, actions := done, page := true, exit := .thrown }
      | none =>
        let done := done ++ [ScraperCall.delay 500, ScraperCall.content]
        match env.content with
        | .error message =>
          { outcome := .error message, actions := done, page := true, exit := .thrown }
        | .ok pageContent => contentExit env shortcode isReel pageContent done

/-- Lines 139-533: `scrapeWithPage(url, shortcode, isReel)`. Returns the value
returned or the message of the error thrown, and the calls made. -/
def scrapeWithPage (env : AttemptEnv) (shortcode : String) (isReel : Bool) :
    Except String ScrapeResult × List ScraperCall :=
  let block := tryBlock env shortcode isReel
  match block.outcome with
  | .ok result => (.ok result, block.actions)
  | .error message =>
    (.error message,
      block.actions ++ [ScraperCall.trackError "SCRAPE_ERROR"] ++
        (if block.page then releasePageCall else []))

/-- One entry of the log of a `withRetry` run: `fn` is called for the n-th
time, `fn` makes a call, or the loop waits before the next attempt. -/
inductive RetryStep where
  | attempt (n : Nat)
  | call (c : ScraperCall)
  | wait (ms : Nat)
  deriving DecidableEq

/-- Lines 25-38: the loop of `withRetry`, `fuel` being the number of
iterations left. `fn n` is what the n-th call of `fn` does. -/
def withRetryLoop {E A : Type} (fn : Nat → Except E A × List ScraperCall) (maxRetries : Nat) :
    Nat → Nat → Option E → Except (Option E) A × List RetryStep
  | 0, _, lastError => (.error lastError, [])
  | fuel + 1, attempt, _ =>
    match (fn attempt).1 with
    | .ok value => (.ok value, RetryStep.attempt attempt :: (fn attempt).2.map RetryStep.call)
    | .error error =>
      let waited :=
        if attempt < maxRetries then [RetryStep.wait (RETRY_DELAY_MS * 2 ^ (attempt - 1))] else []
      let next := withRetryLoop fn maxRetries fuel (attempt + 1) (some error)
      (next.1, RetryStep.attempt attempt :: (fn attempt).2.map RetryStep.call ++ waited ++ next.2)

/-- Lines 22-42: `withRetry(fn, maxRetries)`. Returns the value returned or
the error thrown (`none` is null), and the log. -/
def withRetry {E A : Type} (fn : Nat → Except E A × List ScraperCall) (maxRetries : Nat) :
    Except (Option E) A × List RetryStep :=
  withRetryLoop fn maxRetries maxRetries 1 none

/-- Lines 105-134: `scrapeInstagramPost(url)`; `world n` is what the
collaborators answer during the n-th attempt. (`lastError` is an Error here,
MAX_RETRIES being 3; the last case is not reached.) -/
def scrapeInstagramPost (world : Nat → AttemptEnv) (url : String) : ScrapeResult × List RetryStep :=
  if !isValidInstagramUrl url then
    (.failure "Invalid URL. Please enter a valid Instagram post or reel URL." "INVALID_URL", [])
  else
    match extractShortcode url with
    | none => (.failure "Shortcode not found" "INVALID_URL", [])
    | some shortcode =>
      let r := withRetry (fun n => scrapeWithPage (world n) shortcode (isReelUrl url)) MAX_RETRIES
      match r.1 with
      | .ok result => (result, r.2)
      | .error (some message) =>
        (.failure (if truthy message then message else "Scraping failed after multiple attempts")
          "RETRY_EXHAUSTED", r.2)
      | .error none => (.failure "Scraping failed after multiple attempts" "RETRY_EXHAUSTED", r.2)

/-- Number of calls of `fn` in a log. -/
def attemptsIn (log : List RetryStep) : Nat :=
  log.countP (fun s => match s with | .attempt _ => true | _ => false)

/-- The waits of a log, in order. -/
def waitsIn (log : List RetryStep) : List Nat :=
  log.filterMap (fun s => match s with | .wait ms => some ms | _ => none)

/-- The calls `fn` made, in order. -/
def callsIn (log : List RetryStep) : List ScraperCall :=
  log.filterMap (fun s => match s with | .call c => some c | _ => none)

/-- The attempt gets a page and captures its content: `getPage`, `setCookie`
(when there are cookies), `goto` and `content` all resolve. -/
def AttemptEnv.captures (env : AttemptEnv) (pageContent : String) : Prop :=
  env.getPage = none ∧ (env.cookies = 0 ∨ env.setCookie = none) ∧ env.goto = none ∧
    env.content = .ok pageContent

/-- Number of `releasePage` calls in a list of calls. -/
def releasesIn (calls : List ScraperCall) : Nat :=
  calls.count ScraperCall.releasePage

/-- The `try` block leaves `page` set and has released it once when it
returns or leaves by the no-media exit, and not at all when it throws
elsewhere; `done` are the calls made before. -/
def TryBlock.ReleasesAfter (done : List ScraperCall) (b : TryBlock) : Prop :=
  b.page = true ∧
  releasesIn b.actions = releasesIn done +
    (match b.outcome with
     | .ok _ => 1
     | .error _ => if b.exit = .noMedia then 1 else 0)

/-- A page source in which no pattern matches. -/
def emptySource : PageSource :=
  { thumbnailSrc := none, poster := none, videoSection := none, displayUrl := none,
    metaOg := none, metaTwitter := none, videoMatches := [], imageMatches := [] }

/-- An attempt on a page without any marker in which every call resolves and
no media is found, neither in the page source nor in the carousel. -/
def noMediaEnv : AttemptEnv :=
  { getPage := none, cookies := 0, setCookie := none, goto := none,
    content := .ok "<html><body>nothing here</body></html>", timestamp := "2026-01-01T00:00:00.000Z",
    username := .ok "unknown", source := .ok emptySource, firstView := .ok [], slides := [] }

/-- The calls of an attempt up to the capture of the page content. -/
def capturePrefix (env : AttemptEnv) (shortcode : String) (isReel : Bool) : List ScraperCall :=
  (if env.cookies > 0 then [ScraperCall.waitForSlot, ScraperCall.getPage] ++ [ScraperCall.setCookie]
    else [ScraperCall.waitForSlot, ScraperCall.getPage])
  ++ [ScraperCall.addJitter 100, ScraperCall.goto (postUrl shortcode isReel)]
  ++ [ScraperCall.delay 500, ScraperCall.content]

/-- Whether a call is a navigation. -/
def isGoto : ScraperCall → Bool
  | .goto _ => true
  | _ => false

/-- Whether a call is `rateLimiter.triggerCooldown`. -/
def isTriggerCooldown : ScraperCall → Bool
  | .triggerCooldown _ => true
  | _ => false

/-- An attempt in which every call resolves, the page content being `html`
and the page source `src`. -/
def capturingEnv (html : String) (src : PageSource) : AttemptEnv :=
  { noMediaEnv with content := .ok html, source := .ok src }

/-- A page source with one image capture. -/
def oneImageSource : PageSource :=
  { emptySource with imageMatches := ["https:\\/\\/scontent.cdninstagram.com\\/v\\/a.jpg"] }

/-- A page source of a reel: two encodings of one video, another video, and an
image. -/
def reelSource : PageSource :=
  { emptySource with
    videoMatches := ["https:\\/\\/v.cdninstagram.com\\/a.mp4?e=1",
      "https:\\/\\/v.cdninstagram.com\\/a.mp4?e=2", "https:\\/\\/v.cdninstagram.com\\/b.mp4"],
    imageMatches := ["https:\\/\\/scontent.cdninstagram.com\\/v\\/a.jpg"] }

/-- A page source in which one image is captured twice, with two query
strings. -/
def twiceImageSource : PageSource :=
  { emptySource with
    imageMatches := ["https:\\/\\/scontent.cdninstagram.com\\/v\\/a.jpg?stp=dst-jpg_e35",
      "https:\\/\\/scontent.cdninstagram.com\\/v\\/a.jpg?stp=dst-jpg_e15"] }

/-! ## download-queue.js: job ids -/

/-- Line 28: the string the template builds from the counter and the clock
value, job_<counter>_<millis>. -/
def JobId.render (j : JobId) : String :=
  "job_" ++ toString j.counter ++ "_" ++ toString j.millis

/-- The job id an event hands back to its caller: only `addBatch` returns one. -/
def QueueEvent.returned (defaultFolder : String) (s : QueueSystem) : QueueEvent → List JobId
  | .addBatch disk now items username downloadPath =>
    [(QueueSystem.addBatch defaultFolder disk now items username downloadPath s).2]
  | _ => []

/-- The job ids the `addBatch` calls of a run return, in order. -/
def QueueSystem.returnedIds (defaultFolder : String) : QueueSystem → List QueueEvent → List JobId
  | _, [] => []
  | s, e :: rest =>
    e.returned defaultFolder s ++ returnedIds defaultFolder (QueueSystem.step defaultFolder s e) rest

/-! ## error-recovery.js: the diagnostics directory -/

/-- A file of the diagnostics directory: its name and its modification time
(`statSync(...).mtime`, in milliseconds). -/
structure DirEntry where
  name : String
  time : Int
  deriving DecidableEq

/-- The call `s.startsWith(p)`. -/
def startsWith (s p : String) : Bool := p.toList.isPrefixOf s.toList

/-- Line 136: the files the clean-up looks at. -/
def isDiagnosticFile (f : String) : Bool := startsWith f "diag_" || startsWith f "page_"

/-- Line 138: `files.sort((a, b) => b.time - a.time)`, newest first; files
with equal times keep their order (the sort is stable). -/
def sortNewestFirst (files : List DirEntry) : List DirEntry :=
  files.insertionSort (fun a b => b.time ≤ a.time)

/-- Lines 135-141: the files `cleanOldDiagnostics` deletes, `dir` being what
`readdirSync` lists. -/
def toDelete (dir : List DirEntry) : List DirEntry :=
  (sortNewestFirst (dir.filter (fun f => isDiagnosticFile f.name))).drop 20

/-- Lines 133-148: `cleanOldDiagnostics()`, no call throwing. Returns the
directory afterwards: `unlinkSync` removes the file of each name to delete. -/
def cleanOldDiagnostics (dir : List DirEntry) : List DirEntry :=
  dir.filter (fun f => !(toDelete dir).any (fun d => d.name == f.name))

/-- A directory of `d` diag_ files written at 1000, 2000, ... and `p` page_
files written at 1001, 2001, ..., and one other file. -/
def sampleDir (d p : Nat) : List DirEntry :=
  (List.range d).map (fun k => { name := "diag_Cabc_" ++ toString (k + 1) ++ ".json",
                                 time := 1000 * (k + 1) })
  ++ (List.range p).map (fun k => { name := "page_Cabc_" ++ toString (k + 1) ++ ".html",
                                    time := 1000 * (k + 1) + 1 })
  ++ [{ name := "notes.txt", time := 5 }]

/-! ## rate-limiter.js: overlapping calls

A `waitForSlot` call gives up control at each of its three `await`s; another
call can start, or go on, in between. Here the call is cut at its awaits. -/

/-- The await a `waitForSlot` call is suspended at: the sleep of line 27
(cooldown in effect), of line 40 (burst cooldown) or of line 50 (minimum
delay). -/
inductive SleepPoint where
  | cooldown
  | burst
  | delay
  deriving DecidableEq

/-- A suspended `waitForSlot` call: where it sleeps, and the clock value at
which its timer fires at the earliest. -/
structure SleepingCall where
  point : SleepPoint
  wake : Int
  deriving DecidableEq

/-- What a stretch of `waitForSlot` between two awaits ends with: the call
returns, having recorded a timestamp, or it is suspended again. -/
inductive Progress where
  | returned (recorded : Int)
  | sleeping (c : SleepingCall)
  deriving DecidableEq

namespace RateLimiter

/-- Lines 54-56: record this request. -/
def record (s : RateLimiter) (now : Int) : RateLimiter × Progress :=
  ({ s with lastRequestTime := now, requestTimestamps := s.requestTimestamps ++ [now] },
    .returned now)

/-- Lines 45-56, up to the await of line 50. -/
def fromDelayCheck (s : RateLimiter) (now : Int) : RateLimiter × Progress :=
  let timeSinceLastRequest := now - s.lastRequestTime
  if s.lastRequestTime > 0 ∧ timeSinceLastRequest < MIN_DELAY_MS then
    (s, .sleeping { point := .delay, wake := now + timerDelay (MIN_DELAY_MS - timeSinceLastRequest) })
  else record s now

/-- Lines 31-56, up to the next await. -/
def fromWindowCheck (s : RateLimiter) (now : Int) : RateLimiter × Progress :=
  let oneMinuteAgo := now - 60000
  let s1 := { s with requestTimestamps := s.requestTimestamps.filter (fun ts => decide (ts > oneMinuteAgo)) }
  if s1.requestTimestamps.length ≥ MAX_REQUESTS_PER_MINUTE then
    ({ s1 with isThrottled := true, throttleUntil := now + BURST_COOLDOWN_MS },
      .sleeping { point := .burst, wake := now + timerDelay BURST_COOLDOWN_MS })
  else fromDelayCheck s1 now

/-- Lines 24-56, up to the first await: the start of a `waitForSlot()` call
at clock value `now`. -/
def waitForSlotStart (s : RateLimiter) (now : Int) : RateLimiter × Progress :=
  if s.isThrottled && decide (now < s.throttleUntil) then
    (s, .sleeping { point := .cooldown, wake := now + timerDelay (s.throttleUntil - now) })
  else fromWindowCheck s now

/-- A suspended call goes on at clock value `now`, up to its next await. -/
def waitForSlotResume (s : RateLimiter) (now : Int) : SleepPoint → RateLimiter × Progress
  | .cooldown => fromWindowCheck { s with isThrottled := false } now
  | .burst => fromDelayCheck { s with isThrottled := false, requestTimestamps := [] } now
  | .delay => record s now

end RateLimiter

/-- The lateness of the timer of a sleep. -/
def Lateness.of (l : Lateness) : SleepPoint → Nat
  | .cooldown => l.cooldown
  | .burst => l.burst
  | .delay => l.delay

/-- A call runs to its end with no other call in between; the first argument
bounds the number of sleeps. -/
def RateLimiter.finishAlone (l : Lateness) : Nat → RateLimiter × Progress → Option (RateLimiter × Int)
  | _, (s, .returned t) => some (s, t)
  | 0, (_, .sleeping _) => none
  | n + 1, (s, .sleeping c) =>
    finishAlone l n (s.waitForSlotResume (c.wake + l.of c.point) c.point)

/-- The shared limiter with the `waitForSlot` calls in progress: the clock,
the suspended calls, and every timestamp recorded so far, oldest first. -/
structure Overlapping where
  limiter : RateLimiter
  now : Int
  sleeping : List SleepingCall
  recorded : List Int

/-- What happens next, `gap` milliseconds after the previous event: a new
`waitForSlot()` call starts, the suspended call number `i` goes on, or
`triggerCooldown(durationMs)` is called. -/
inductive OverlapEvent where
  | start (gap : Nat)
  | resume (gap : Nat) (i : Nat)
  | triggerCooldown (gap : Nat) (durationMs : Int)

namespace Overlapping

/-- A fresh limiter at clock value `t0`, no call in progress. -/
def init (t0 : Int) : Overlapping :=
  { limiter := RateLimiter.init, now := t0, sleeping := [], recorded := [] }

/-- Files what a stretch of a call ended with. -/
def settle (o : Overlapping) (now : Int) (rest : List SleepingCall) (p : RateLimiter × Progress) :
    Overlapping :=
  match p.2 with
  | .returned t => { limiter := p.1, now := now, sleeping := rest, recorded := o.recorded ++ [t] }
  | .sleeping c => { limiter := p.1, now := now, sleeping := rest ++ [c], recorded := o.recorded }

/-- Performs one event; `none` when the event cannot happen: there is no
suspended call number `i`, or its timer has not fired yet. -/
def step (o : Overlapping) : OverlapEvent → Option Overlapping
  | .start gap => some (o.settle (o.now + gap) o.sleeping (o.limiter.waitForSlotStart (o.now + gap)))
  | .resume gap i =>
    match o.sleeping[i]? with
    | none => none
    | some c =>
      if c.wake ≤ o.now + gap then
        some (o.settle (o.now + gap) (o.sleeping.eraseIdx i)
          (o.limiter.waitForSlotResume (o.now + gap) c.point))
      else none
  | .triggerCooldown gap durationMs =>
    some { o with limiter := o.limiter.triggerCooldown (o.now + gap) durationMs, now := o.now + gap }

/-- Performs the events in order. -/
def runFrom (o : Overlapping) : List OverlapEvent → Option Overlapping
  | [] => some o
  | e :: rest =>
    match o.step e with
    | none => none
    | some o1 => runFrom o1 rest

/-- Performs the events in order on a fresh limiter at `t0`. -/
def run (t0 : Int) (events : List OverlapEvent) : Option Overlapping :=
  runFrom (init t0) events

end Overlapping

/-- A request, then two calls that overlap: the second starts 100 ms after
the first request was recorded, the third 100 ms later, while the second
sleeps; both timers fire 1000 ms after the first request. -/
def twoCallsOverlap : List OverlapEvent :=
  [.start 0, .start 100, .start 100, .resume 800 0, .resume 0 0]

/-- Twenty requests one second apart; the next call finds the window full and
sleeps for the burst cooldown; half a second later `triggerCooldown(120000)`
is called (another request in progress has met the rate limiting of the
site); the sleeping call wakes when its timer fires. -/
def cooldownWhileSleeping : List OverlapEvent :=
  List.replicate 20 (OverlapEvent.start 1000)
    ++ [.start 1000, .triggerCooldown 500 120000, .resume 29500 0]

/-! # Theorems -/

set_option maxRecDepth 100000
set_option linter.unusedVariables false

/-! ## Rate limiter: lemmas -/

theorem timerDelay_bounds (ms : Int) :
    1 ≤ timerDelay ms ∧ (ms ≤ TIMEOUT_MAX → ms ≤ timerDelay ms) ∧ (1 ≤ ms → timerDelay ms ≤ ms) := by
  unfold timerDelay TIMEOUT_MAX
  split <;> omega

namespace RateLimiter

theorem sleep_ge (now ms : Int) (late : Nat) :
    (ms ≤ TIMEOUT_MAX → now + ms ≤ sleep now ms late) ∧ now ≤ sleep now ms late := by
  have h := timerDelay_bounds ms
  unfold sleep
  constructor
  · intro hm
    have := h.2.1 hm
    omega
  · omega

theorem cooldownPhase_time (s : RateLimiter) (now : Int) (l : Lateness) :
    now ≤ (cooldownPhase s now l).2 := by
  unfold cooldownPhase
  split
  · exact (sleep_ge _ _ _).2
  · exact le_refl _

theorem cooldownPhase_last (s : RateLimiter) (now : Int) (l : Lateness) :
    (cooldownPhase s now l).1.lastRequestTime = s.lastRequestTime := by
  unfold cooldownPhase
  split <;> rfl

theorem burstPhase_time (s : RateLimiter) (now : Int) (l : Lateness) :
    now ≤ (burstPhase s now l).2 := by
  unfold burstPhase
  simp only
  split
  · exact (sleep_ge _ _ _).2
  · exact le_refl _

theorem burstPhase_last (s : RateLimiter) (now : Int) (l : Lateness) :
    (burstPhase s now l).1.lastRequestTime = s.lastRequestTime := by
  unfold burstPhase
  simp only
  split <;> rfl

theorem recordPhase_time (s : RateLimiter) (now : Int) (l : Lateness) :
    now ≤ (recordPhase s now l).2 ∧
      (0 < s.lastRequestTime → s.lastRequestTime ≤ now →
        s.lastRequestTime + MIN_DELAY_MS ≤ (recordPhase s now l).2) := by
  have hm : MIN_DELAY_MS = 1000 := rfl
  have hx : TIMEOUT_MAX = 2147483647 := rfl
  unfold recordPhase
  simp only
  split
  · rename_i h
    have h1 := sleep_ge now (MIN_DELAY_MS - (now - s.lastRequestTime)) l.delay
    constructor
    · exact h1.2
    · intro _ hle
      have := h1.1 (by omega)
      omega
  · rename_i h
    constructor
    · exact le_refl _
    · intro h0 _
      have : ¬ (now - s.lastRequestTime < MIN_DELAY_MS) := fun h2 => h ⟨h0, h2⟩
      omega

theorem recordPhase_last (s : RateLimiter) (now : Int) (l : Lateness) :
    (recordPhase s now l).1.lastRequestTime = (recordPhase s now l).2 := rfl

end RateLimiter

namespace RateLimiter

theorem waitForSlot_last (s : RateLimiter) (now : Int) (l : Lateness) :
    (waitForSlot s now l).1.lastRequestTime = (waitForSlot s now l).2 := rfl

theorem waitForSlot_time (s : RateLimiter) (now : Int) (l : Lateness) :
    now ≤ (waitForSlot s now l).2 ∧
      (0 < s.lastRequestTime → s.lastRequestTime ≤ now →
        s.lastRequestTime + MIN_DELAY_MS ≤ (waitForSlot s now l).2) := by
  have h1 := cooldownPhase_time s now l
  have h2 := burstPhase_time (cooldownPhase s now l).1 (cooldownPhase s now l).2 l
  have h3 := recordPhase_time (burstPhase (cooldownPhase s now l).1 (cooldownPhase s now l).2 l).1
    (burstPhase (cooldownPhase s now l).1 (cooldownPhase s now l).2 l).2 l
  rw [burstPhase_last, cooldownPhase_last] at h3
  unfold waitForSlot
  simp only
  constructor
  · omega
  · intro h0 hle
    exact h3.2 h0 (by omega)

theorem cooldownPhase_until_eq (s : RateLimiter) (now : Int) (l : Lateness) :
    (cooldownPhase s now l).1.throttleUntil = s.throttleUntil := by
  unfold cooldownPhase
  split <;> rfl

/-- A cooldown wait within the range of a timer ends at throttleUntil or
later. -/
theorem cooldownPhase_until (s : RateLimiter) (now : Int) (l : Lateness)
    (h : s.isThrottled = true ∨ s.throttleUntil ≤ now)
    (hmax : s.throttleUntil - now ≤ TIMEOUT_MAX) :
    (cooldownPhase s now l).1.throttleUntil = s.throttleUntil ∧
      s.throttleUntil ≤ (cooldownPhase s now l).2 := by
  unfold cooldownPhase
  split
  · refine ⟨rfl, ?_⟩
    have := (sleep_ge now (s.throttleUntil - now) l.cooldown).1 hmax
    simp only
    omega
  · rename_i hc
    refine ⟨rfl, ?_⟩
    simp only
    rcases h with h | h
    · simp [h] at hc
      exact hc
    · exact h

theorem burstPhase_until (s : RateLimiter) (now : Int) (l : Lateness)
    (h : s.throttleUntil ≤ now) :
    (burstPhase s now l).1.throttleUntil ≤ (burstPhase s now l).2 := by
  unfold burstPhase
  simp only
  split
  · exact (sleep_ge _ _ _).1 (by decide)
  · exact h

theorem burstPhase_until_or (s : RateLimiter) (now : Int) (l : Lateness) :
    (burstPhase s now l).1.throttleUntil = s.throttleUntil ∨
      (burstPhase s now l).1.throttleUntil ≤ (burstPhase s now l).2 := by
  unfold burstPhase
  simp only
  split
  · exact Or.inr ((sleep_ge _ _ _).1 (by decide))
  · exact Or.inl rfl

theorem recordPhase_until (s : RateLimiter) (now : Int) (l : Lateness) :
    (recordPhase s now l).1.throttleUntil = s.throttleUntil := rfl

theorem waitForSlot_until (s : RateLimiter) (now : Int) (l : Lateness)
    (h : s.isThrottled = true ∨ s.throttleUntil ≤ now)
    (hmax : s.throttleUntil - now ≤ TIMEOUT_MAX) :
    s.throttleUntil ≤ (waitForSlot s now l).2 ∧
      (waitForSlot s now l).1.throttleUntil ≤ (waitForSlot s now l).2 := by
  have h1 := cooldownPhase_until s now l h hmax
  have h2 := burstPhase_time (cooldownPhase s now l).1 (cooldownPhase s now l).2 l
  have h2u := burstPhase_until (cooldownPhase s now l).1 (cooldownPhase s now l).2 l (by omega)
  have h3 := recordPhase_time (burstPhase (cooldownPhase s now l).1 (cooldownPhase s now l).2 l).1
    (burstPhase (cooldownPhase s now l).1 (cooldownPhase s now l).2 l).2 l
  unfold waitForSlot
  simp only [recordPhase_until]
  constructor <;> omega

/-- A call leaves throttleUntil as it was, or at a value that has passed when
the call returns. -/
theorem waitForSlot_until_or (s : RateLimiter) (now : Int) (l : Lateness) :
    (waitForSlot s now l).1.throttleUntil = s.throttleUntil ∨
      (waitForSlot s now l).1.throttleUntil ≤ (waitForSlot s now l).2 := by
  have h1 := cooldownPhase_until_eq s now l
  have h2 := burstPhase_until_or (cooldownPhase s now l).1 (cooldownPhase s now l).2 l
  have h3 := recordPhase_time (burstPhase (cooldownPhase s now l).1 (cooldownPhase s now l).2 l).1
    (burstPhase (cooldownPhase s now l).1 (cooldownPhase s now l).2 l).2 l
  unfold waitForSlot
  simp only [recordPhase_until]
  rcases h2 with h2 | h2
  · exact Or.inl (h2.trans h1)
  · exact Or.inr (by omega)

end RateLimiter

namespace LimiterRun

theorem good_start (t0 : Int) (h0 : 0 < t0) : (start t0).Good where
  clock := h0
  last_le := by simp [start, RateLimiter.init]; omega
  spaced := by simp [start]
  bounded := by simp [start]

theorem good_step (r : LimiterRun) (c : LimiterCall) (h : r.Good) : (r.step c).Good := by
  cases c with
  | waitForSlot gap l =>
    have ht := RateLimiter.waitForSlot_time r.limiter (r.now + gap) l
    have hc := h.clock
    have hl := h.last_le
    refine ⟨?_, ?_, ?_, ?_⟩
    · show 0 < (r.limiter.waitForSlot (r.now + gap) l).2
      omega
    · show (r.limiter.waitForSlot (r.now + gap) l).1.lastRequestTime ≤ _
      rw [RateLimiter.waitForSlot_last]
      exact le_refl _
    · show (r.recorded ++ [(r.limiter.waitForSlot (r.now + gap) l).2]).Pairwise _
      rw [List.pairwise_append]
      refine ⟨h.spaced, List.pairwise_singleton _ _, ?_⟩
      intro a ha b hb
      rw [List.mem_singleton] at hb
      subst hb
      have hb := h.bounded a ha
      have := ht.2 (by omega) (by omega)
      omega
    · intro t ht1
      show 0 < t ∧ t ≤ (r.limiter.waitForSlot (r.now + gap) l).1.lastRequestTime
      rw [RateLimiter.waitForSlot_last]
      have ht2 : t ∈ r.recorded ++ [(r.limiter.waitForSlot (r.now + gap) l).2] := ht1
      rw [List.mem_append, List.mem_singleton] at ht2
      rcases ht2 with h1 | h1
      · have hb := h.bounded t h1
        have := ht.2 (by omega) (by omega)
        have hm : (0 : Int) ≤ MIN_DELAY_MS := by decide
        omega
      · subst h1
        omega
  | triggerCooldown gap d =>
    have hc := h.clock
    have hl := h.last_le
    refine ⟨?_, ?_, ?_, ?_⟩
    · show 0 < r.now + gap
      omega
    · show r.limiter.lastRequestTime ≤ r.now + gap
      omega
    · exact h.spaced
    · exact h.bounded

theorem good_foldl (calls : List LimiterCall) (r : LimiterRun) (h : r.Good) :
    (calls.foldl step r).Good := by
  induction calls generalizing r with
  | nil => exact h
  | cons c rest ih => exact ih _ (good_step r c h)

theorem good_run (t0 : Int) (calls : List LimiterCall) (h0 : 0 < t0) : (run t0 calls).Good :=
  good_foldl calls _ (good_start t0 h0)

/-- In a run whose `triggerCooldown` calls all use durations of at most `d`,
the cooldown never ends later than `d` after the current clock value. -/
theorem until_bound (d : Int) (hd : 0 ≤ d) (calls : List LimiterCall) :
    ∀ r : LimiterRun, r.limiter.throttleUntil ≤ r.now + d →
      (∀ g e, LimiterCall.triggerCooldown g e ∈ calls → e ≤ d) →
      (calls.foldl step r).limiter.throttleUntil ≤ (calls.foldl step r).now + d := by
  induction calls with
  | nil =>
    intro r h _
    exact h
  | cons c rest ih =>
    intro r h hc
    refine ih (r.step c) ?_ (fun g e hm => hc g e (List.mem_cons_of_mem _ hm))
    cases c with
    | waitForSlot gap l =>
      have ht := (RateLimiter.waitForSlot_time r.limiter (r.now + gap) l).1
      show (r.limiter.waitForSlot (r.now + gap) l).1.throttleUntil
        ≤ (r.limiter.waitForSlot (r.now + gap) l).2 + d
      rcases RateLimiter.waitForSlot_until_or r.limiter (r.now + gap) l with hu | hu
      · rw [hu]
        omega
      · omega
    | triggerCooldown gap e =>
      have := hc gap e (List.mem_cons_self _ _)
      show r.now + gap + e ≤ r.now + gap + d
      omega

/-- In a run whose `triggerCooldown` durations are all within the range of a
timer, a cooldown that has not passed is still flagged, and ends within the
range of a timer. -/
theorem until_flagged (calls : List LimiterCall) :
    ∀ r : LimiterRun,
      (r.limiter.isThrottled = true ∨ r.limiter.throttleUntil ≤ r.now) →
      r.limiter.throttleUntil ≤ r.now + TIMEOUT_MAX →
      (∀ g e, LimiterCall.triggerCooldown g e ∈ calls → e ≤ TIMEOUT_MAX) →
      ((calls.foldl step r).limiter.isThrottled = true ∨
        (calls.foldl step r).limiter.throttleUntil ≤ (calls.foldl step r).now) ∧
      (calls.foldl step r).limiter.throttleUntil ≤ (calls.foldl step r).now + TIMEOUT_MAX := by
  induction calls with
  | nil =>
    intro r h hb _
    exact ⟨h, hb⟩
  | cons c rest ih =>
    intro r h hb hc
    have hb1 := until_bound TIMEOUT_MAX (by decide) [c] r hb
      (fun g e hm => hc g e (by
        rcases List.mem_singleton.mp hm with rfl
        exact List.mem_cons_self _ _))
    refine ih (r.step c) ?_ hb1 (fun g e hm => hc g e (List.mem_cons_of_mem _ hm))
    cases c with
    | waitForSlot gap l =>
      have hu := RateLimiter.waitForSlot_until r.limiter (r.now + gap) l
        (by rcases h with h1 | h1
            · exact Or.inl h1
            · exact Or.inr (by omega))
        (by omega)
      exact Or.inr hu.2
    | triggerCooldown gap e =>
      exact Or.inl rfl

end LimiterRun

/-- C1: in every run of sequential calls on a fresh limiter (waitForSlot calls
with any pauses between them and any timer lateness, with or without
triggerCooldown calls in between) started at a positive clock value, a
recorded timestamp and any later one differ by at least MIN_DELAY_MS; in
particular those of two consecutive waitForSlot calls do. -/
theorem C1_min_delay_between_recorded (t0 : Int) (calls : List LimiterCall) (h0 : 0 < t0)
    (i j : Nat) (a b : Int) (hij : i < j)
    (ha : (LimiterRun.run t0 calls).recorded[i]? = some a)
    (hb : (LimiterRun.run t0 calls).recorded[j]? = some b) :
    a + MIN_DELAY_MS ≤ b := by
  have h := (LimiterRun.good_run t0 calls h0).spaced
  rw [List.pairwise_iff_getElem] at h
  obtain ⟨hi, rfl⟩ := List.getElem?_eq_some.mp ha
  obtain ⟨hj, rfl⟩ := List.getElem?_eq_some.mp hb
  exact h i j hi hj hij

/-- C1 (witness): two back-to-back calls on a fresh limiter at clock value 5 record 5 and 1005. -/
theorem C1_min_delay_between_recorded_witness :
    (0 : Int) < 5 ∧ (0 : Nat) < 1 ∧
    (LimiterRun.run 5 [.waitForSlot 0 onTime, .waitForSlot 0 onTime]).recorded[0]? = some 5 ∧
    (LimiterRun.run 5 [.waitForSlot 0 onTime, .waitForSlot 0 onTime]).recorded[1]? = some 1005 ∧
    (5 : Int) + MIN_DELAY_MS ≤ 1005 :=
  ⟨by decide, by decide, by decide, by decide,
    C1_min_delay_between_recorded 5 [.waitForSlot 0 onTime, .waitForSlot 0 onTime] (by decide)
      0 1 5 1005 (by decide) (by decide) (by decide)⟩

/-- C2 (failing input): 21 back-to-back waitForSlot calls on a fresh limiter,
timers on time. The 21st call takes the 30 second burst cooldown and clears
the window, so 21 timestamps are recorded within 49001 ms: the minute that
starts with the first request holds more than MAX_REQUESTS_PER_MINUTE. -/
theorem C2_minute_holds_21_requests :
    (LimiterRun.run 1700000000000 (List.replicate 21 (LimiterCall.waitForSlot 0 onTime))).recorded.length = 21 ∧
    (LimiterRun.run 1700000000000 (List.replicate 21 (LimiterCall.waitForSlot 0 onTime))).recorded[20]?
      = some 1700000049000 ∧
    MAX_REQUESTS_PER_MINUTE <
      requestsInMinute
        (LimiterRun.run 1700000000000 (List.replicate 21 (LimiterCall.waitForSlot 0 onTime))).recorded
        1700000000000 := by
  decide

/-- C3 (counterexample): after twenty calls three seconds apart and a
triggerCooldown(30000), a waitForSlot call started 2999 ms later finds the
window holding 20 timestamps, all within the trailing 60000 ms; it waits for
the end of the manual cooldown, by then ten of them have left the window, and
it records its timestamp 27001 ms after it started. -/
theorem C3_counterexample :
    ¬ (∀ (s : RateLimiter) (now : Int) (l : Lateness),
        s.requestTimestamps.length = MAX_REQUESTS_PER_MINUTE →
        (∀ ts ∈ s.requestTimestamps, now - 60000 < ts ∧ ts ≤ now) →
        now + BURST_COOLDOWN_MS ≤ (s.waitForSlot now l).2) := by
  intro h
  have h1 := h (LimiterRun.run 1700000000000 spacedCallsThenCooldown).limiter
    ((LimiterRun.run 1700000000000 spacedCallsThenCooldown).now + 2999) onTime
    (by decide) (by decide)
  revert h1
  decide

namespace RateLimiter

theorem cooldownPhase_idle (s : RateLimiter) (now : Int) (l : Lateness)
    (h : s.isThrottled = false ∨ s.throttleUntil ≤ now) : cooldownPhase s now l = (s, now) := by
  unfold cooldownPhase
  split
  · rename_i hc
    rcases h with h | h
    · simp [h] at hc
    · simp at hc
      omega
  · rfl

theorem burstPhase_full (s : RateLimiter) (now : Int) (l : Lateness)
    (hfull : MAX_REQUESTS_PER_MINUTE ≤ s.requestTimestamps.length)
    (hwin : ∀ ts ∈ s.requestTimestamps, now - 60000 < ts) :
    now + BURST_COOLDOWN_MS ≤ (burstPhase s now l).2 := by
  have hf : s.requestTimestamps.filter (fun ts => decide (ts > now - 60000)) = s.requestTimestamps := by
    rw [List.filter_eq_self]
    intro ts hts
    simpa using hwin ts hts
  unfold burstPhase
  simp only [hf]
  split
  · exact (sleep_ge _ _ _).1 (by decide)
  · rename_i hc
    exact absurd hfull hc

end RateLimiter

/-- C3 (amended): when a waitForSlot call starts with the window holding at
least MAX_REQUESTS_PER_MINUTE timestamps, and these are all still newer than
60000 ms at the moment the call cleans the window, the call records its
timestamp no earlier than BURST_COOLDOWN_MS after it started. That moment is
the start of the call when no cooldown is pending (isThrottled is false, or
throttleUntil has passed); otherwise it is the end of the cooldown wait. -/
theorem C3_burst_cooldown_observed (s : RateLimiter) (now : Int) (l : Lateness)
    (hfull : MAX_REQUESTS_PER_MINUTE ≤ s.requestTimestamps.length) :
    ((s.isThrottled = false ∨ s.throttleUntil ≤ now) →
      (∀ ts ∈ s.requestTimestamps, now - 60000 < ts) →
      now + BURST_COOLDOWN_MS ≤ (s.waitForSlot now l).2) ∧
    ((∀ ts ∈ s.requestTimestamps, (s.cooldownPhase now l).2 - 60000 < ts) →
      now + BURST_COOLDOWN_MS ≤ (s.waitForSlot now l).2) := by
  have gen : (∀ ts ∈ s.requestTimestamps, (s.cooldownPhase now l).2 - 60000 < ts) →
      now + BURST_COOLDOWN_MS ≤ (s.waitForSlot now l).2 := by
    intro hwin
    have hreq : (s.cooldownPhase now l).1.requestTimestamps = s.requestTimestamps := by
      unfold RateLimiter.cooldownPhase
      split <;> rfl
    have h1 := RateLimiter.cooldownPhase_time s now l
    have h2 := RateLimiter.burstPhase_full (s.cooldownPhase now l).1 (s.cooldownPhase now l).2 l
      (by rw [hreq]; exact hfull) (by rw [hreq]; exact hwin)
    have h3 := RateLimiter.recordPhase_time
      (RateLimiter.burstPhase (s.cooldownPhase now l).1 (s.cooldownPhase now l).2 l).1
      (RateLimiter.burstPhase (s.cooldownPhase now l).1 (s.cooldownPhase now l).2 l).2 l
    unfold RateLimiter.waitForSlot
    simp only
    omega
  refine ⟨?_, gen⟩
  intro hidle hwin
  apply gen
  rw [RateLimiter.cooldownPhase_idle s now l hidle]
  exact hwin

/-- C3 (witness): after twenty back-to-back calls, a call started with no cooldown pending and a full window records 30000 ms after it started, or later. -/
theorem C3_burst_cooldown_observed_witness :
    MAX_REQUESTS_PER_MINUTE ≤
      (LimiterRun.run 1700000000000
        (List.replicate 20 (LimiterCall.waitForSlot 0 onTime))).limiter.requestTimestamps.length ∧
    (1700000020000 : Int) + BURST_COOLDOWN_MS ≤
      ((LimiterRun.run 1700000000000 (List.replicate 20 (LimiterCall.waitForSlot 0 onTime))).limiter.waitForSlot
        1700000020000 onTime).2 :=
  ⟨by decide,
    (C3_burst_cooldown_observed
      (LimiterRun.run 1700000000000 (List.replicate 20 (LimiterCall.waitForSlot 0 onTime))).limiter
      1700000020000 onTime (by decide)).1 (by decide) (by decide)⟩

/-- C4 (counterexample): two ways in which a request is recorded before the
cooldown has passed. First, twenty requests one second apart, then a call
that sleeps for the burst cooldown; half a second later triggerCooldown(120000)
sets throttleUntil to 1700000141500; when the sleeping call wakes it resets
isThrottled and records 1700000051000, and the next call, started at
1700000052000 with throttleUntil still 1700000141500, records at once.
Second, a duration above 2147483647 ms: the timer of the cooldown wait fires
after 1 ms, so after triggerCooldown(3000000000) at 1700000000000 the next
call records 1700000000001. -/
theorem C4_counterexample :
    (Overlapping.run 1700000000000 cooldownWhileSleeping).map
        (fun o => (o.limiter.isThrottled, o.limiter.throttleUntil, o.sleeping, o.recorded.getLast?))
      = some (false, 1700000141500, [], some 1700000051000) ∧
    (Overlapping.run 1700000000000 (cooldownWhileSleeping ++ [.start 1000])).map
        (fun o => (o.limiter.throttleUntil, o.sleeping, o.recorded.getLast?))
      = some (1700000141500, [], some 1700000052000) ∧
    (0 : Int) < 3000000000 ∧
    ((RateLimiter.init.triggerCooldown 1700000000000 3000000000).waitForSlot
        (1700000000000 + (0 : Nat)) onTime).2 = 1700000000001 ∧
    ¬ (1700000000000 : Int) + 3000000000 ≤
      ((RateLimiter.init.triggerCooldown 1700000000000 3000000000).waitForSlot
        (1700000000000 + (0 : Nat)) onTime).2 := by
  decide

/-- C4 (amended): whatever the limiter state, after triggerCooldown(d) at
time t with 0 < d <= TIMEOUT_MAX, a waitForSlot call that starts on the state
this leaves (any time later, any timer lateness) and runs with no other call
in between records its timestamp at t + d or later; and in every run of
sequential calls on a fresh limiter started at a positive clock value, whose
triggerCooldown durations are all at most TIMEOUT_MAX, the timestamp a
waitForSlot call records is at least the throttleUntil value in effect when
it started. -/
theorem C4_cooldown_takes_effect (s : RateLimiter) (t d : Int) (gap : Nat) (l : Lateness)
    (t0 : Int) (calls : List LimiterCall) (gap2 : Nat) (l2 : Lateness)
    (hd : 0 < d) (hmax : d ≤ TIMEOUT_MAX) (h0 : 0 < t0)
    (hcalls : ∀ g e, LimiterCall.triggerCooldown g e ∈ calls → e ≤ TIMEOUT_MAX) :
    t + d ≤ ((s.triggerCooldown t d).waitForSlot (t + gap) l).2 ∧
    (LimiterRun.run t0 calls).limiter.throttleUntil ≤
      ((LimiterRun.run t0 calls).limiter.waitForSlot ((LimiterRun.run t0 calls).now + gap2) l2).2 := by
  constructor
  · refine (RateLimiter.waitForSlot_until (s.triggerCooldown t d) (t + gap) l (Or.inl rfl) ?_).1
    show t + d - (t + gap) ≤ TIMEOUT_MAX
    omega
  · have hx : TIMEOUT_MAX = 2147483647 := rfl
    obtain ⟨hf, hb⟩ := LimiterRun.until_flagged calls (LimiterRun.start t0)
      (Or.inr (by show (0 : Int) ≤ t0; omega)) (by show (0 : Int) ≤ t0 + TIMEOUT_MAX; omega) hcalls
    have hf1 : (LimiterRun.run t0 calls).limiter.isThrottled = true ∨
        (LimiterRun.run t0 calls).limiter.throttleUntil ≤ (LimiterRun.run t0 calls).now := hf
    have hb1 : (LimiterRun.run t0 calls).limiter.throttleUntil
        ≤ (LimiterRun.run t0 calls).now + TIMEOUT_MAX := hb
    refine (RateLimiter.waitForSlot_until _ _ l2 ?_ (by omega)).1
    rcases hf1 with h1 | h1
    · exact Or.inl h1
    · exact Or.inr (by omega)

/-- C4 (witness): a triggerCooldown(120000) on a fresh limiter, and the run of twenty calls followed by triggerCooldown(30000). -/
theorem C4_cooldown_takes_effect_witness :
    (0 : Int) < 120000 ∧ (120000 : Int) ≤ TIMEOUT_MAX ∧ (0 : Int) < 1700000000000 ∧
    (1700000000500 : Int) + 120000 ≤
      ((RateLimiter.init.triggerCooldown 1700000000500 120000).waitForSlot (1700000000500 + (7 : Nat)) onTime).2 ∧
    (LimiterRun.run 1700000000000 spacedCallsThenCooldown).limiter.throttleUntil ≤
      ((LimiterRun.run 1700000000000 spacedCallsThenCooldown).limiter.waitForSlot
        ((LimiterRun.run 1700000000000 spacedCallsThenCooldown).now + (2999 : Nat)) onTime).2 :=
  ⟨by decide, by decide, by decide,
    C4_cooldown_takes_effect RateLimiter.init 1700000000500 120000 7 onTime
      1700000000000 spacedCallsThenCooldown 2999 onTime (by decide) (by decide) (by decide)
      (by
        intro g e hm
        have he : e = BURST_COOLDOWN_MS := by
          simp [spacedCallsThenCooldown, List.mem_replicate] at hm
          exact hm.2
        rw [he]
        decide)⟩

/-! ## Download queue: lemmas -/

theorem JobTable.set_same (m : JobTable) (k : JobId) (v : BatchJob) : m.set k v k = some v := by
  simp [JobTable.set]

theorem JobTable.set_other (m : JobTable) (k j : JobId) (v : BatchJob) (h : j ≠ k) :
    m.set k v j = m j := by
  simp [JobTable.set, h]

theorem JobTable.set_set (m : JobTable) (k : JobId) (v w : BatchJob) :
    (m.set k v).set k w = m.set k w := by
  funext j
  by_cases h : j = k <;> simp [JobTable.set, h]

theorem countP_eraseIdx_add {α : Type} (p : α → Bool) (l : List α) (i : Nat) (a : α)
    (h : l[i]? = some a) :
    (l.eraseIdx i).countP p + (if p a = true then 1 else 0) = l.countP p := by
  induction l generalizing i with
  | nil => simp at h
  | cons x xs ih =>
    cases i with
    | zero =>
      simp at h
      subst h
      simp [List.countP_cons]
    | succ n =>
      simp at h
      have := ih n h
      simp only [List.eraseIdx_cons_succ, List.countP_cons]
      omega

theorem length_eraseIdx_add {α : Type} (l : List α) (i : Nat) (a : α) (h : l[i]? = some a) :
    (l.eraseIdx i).length + 1 = l.length := by
  induction l generalizing i with
  | nil => simp at h
  | cons x xs ih =>
    cases i with
    | zero => simp
    | succ n =>
      simp at h
      have := ih n h
      simp only [List.eraseIdx_cons_succ, List.length_cons]
      omega

theorem mem_of_mem_eraseIdx_aux {α : Type} (l : List α) (i : Nat) (a : α) (h : a ∈ l.eraseIdx i) :
    a ∈ l := by
  induction l generalizing i with
  | nil => simp at h
  | cons x xs ih =>
    cases i with
    | zero =>
      simp at h
      exact List.mem_cons_of_mem _ h
    | succ n =>
      simp only [List.eraseIdx_cons_succ, List.mem_cons] at h
      rcases h with h | h
      · subst h; exact List.mem_cons_self _ _
      · exact List.mem_cons_of_mem _ (ih n h)

namespace QueueSystem

/-- The end of a task that counts as completed: lines 96-98 and 119-129. -/
theorem finishCompleted_fields (s : QueueSystem) (jobId : JobId) (now : Int) (entry : ItemResult)
    (r : BatchJob) (h : s.q.results jobId = some r) :
    let s1 := settle (checkJobComplete (recordCompleted s jobId entry) jobId now)
    let r1 : BatchJob := { r with completed := r.completed + 1, items := r.items ++ [entry] }
    s1.q.queue = s.q.queue ∧ s1.q.activeDownloads = s.q.activeDownloads ∧
    s1.q.jobCounter = s.q.jobCounter ∧ s1.suspended = s.suspended ∧
    s1.settled = s.settled + 1 ∧ s1.effects = s.effects ∧
    s1.q.results = s.q.results.set jobId (closeIfDone now r1) ∧
    (s1.timers = s.timers ∨
      (s1.timers = s.timers ++ [jobId] ∧ (closeIfDone now r1).status = .complete)) := by
  simp only [settle, checkJobComplete, recordCompleted, h, JobTable.set_same, closeIfDone]
  split
  · simp [JobTable.set_set]
  · refine ⟨rfl, rfl, rfl, rfl, rfl, rfl, ?_, Or.inl rfl⟩
    rfl

/-- The end of a task that counts as failed: lines 124-129. -/
theorem finishFailed_fields (s : QueueSystem) (jobId : JobId) (now : Int) (entry : ItemResult)
    (r : BatchJob) (h : s.q.results jobId = some r) :
    let s1 := settle (checkJobComplete (recordFailed s jobId entry) jobId now)
    let r1 : BatchJob := { r with failed := r.failed + 1, items := r.items ++ [entry] }
    s1.q.queue = s.q.queue ∧ s1.q.activeDownloads = s.q.activeDownloads ∧
    s1.q.jobCounter = s.q.jobCounter ∧ s1.suspended = s.suspended ∧
    s1.settled = s.settled + 1 ∧ s1.effects = s.effects ∧
    s1.q.results = s.q.results.set jobId (closeIfDone now r1) ∧
    (s1.timers = s.timers ∨
      (s1.timers = s.timers ++ [jobId] ∧ (closeIfDone now r1).status = .complete)) := by
  simp only [settle, checkJobComplete, recordFailed, h, JobTable.set_same, closeIfDone]
  split
  · simp [JobTable.set_set]
  · refine ⟨rfl, rfl, rfl, rfl, rfl, rfl, ?_, Or.inl rfl⟩
    rfl

end QueueSystem

theorem closeIfDone_fields (now : Int) (r : BatchJob) :
    (closeIfDone now r).total = r.total ∧ (closeIfDone now r).completed = r.completed ∧
    (closeIfDone now r).failed = r.failed ∧ (closeIfDone now r).items = r.items ∧
    (closeIfDone now r).downloadPath = r.downloadPath ∧
    (r.total ≤ r.completed + r.failed → (closeIfDone now r).status = .complete) ∧
    (¬ r.total ≤ r.completed + r.failed → closeIfDone now r = r) := by
  unfold closeIfDone
  split <;> simp_all

namespace QueueSystem

theorem Inv.finish {s s1 : QueueSystem} {item : QueueItem} {r r1 : BatchJob} {now : Int}
    (h : Inv [item] s) (hr : s.q.results item.jobId = some r)
    (hq : s1.q.queue = s.q.queue) (ha : s1.q.activeDownloads = s.q.activeDownloads)
    (hc : s1.q.jobCounter = s.q.jobCounter) (hs : s1.suspended = s.suspended)
    (hse : s1.settled = s.settled + 1)
    (hres : s1.q.results = s.q.results.set item.jobId (closeIfDone now r1))
    (ht : s1.timers = s.timers ∨
      (s1.timers = s.timers ++ [item.jobId] ∧ (closeIfDone now r1).status = .complete))
    (htotal : r1.total = r.total)
    (hsum : r1.completed + r1.failed = r.completed + r.failed + 1)
    (hstatus : r1.status = r.status)
    (hlog : r1.failed = failedResults r1.items ∧ r1.completed + r1.failed = r1.items.length) :
    Inv [] s1 := by
  obtain ⟨ct, cc, cf, ci, _, cdone, cnot⟩ := closeIfDone_fields now r1
  have look : ∀ j r2, s1.q.results j = some r2 →
      (j = item.jobId ∧ r2 = closeIfDone now r1) ∨ (j ≠ item.jobId ∧ s.q.results j = some r2) := by
    intro j r2 h2
    rw [hres] at h2
    by_cases hj : j = item.jobId
    · subst hj
      rw [JobTable.set_same] at h2
      exact Or.inl ⟨rfl, (Option.some.inj h2).symm⟩
    · rw [JobTable.set_other _ _ _ _ hj] at h2
      exact Or.inr ⟨hj, h2⟩
  have keep : ∀ j, (s.q.results j).isSome = true → (s1.q.results j).isSome = true := by
    intro j hj
    rw [hres]
    by_cases hjk : j = item.jobId
    · subst hjk; rw [JobTable.set_same]; rfl
    · rw [JobTable.set_other _ _ _ _ hjk]; exact hj
  have hst := h.status_ok _ _ hr
  have hcons := h.conserved _ _ hr
  refine ⟨?_, ?_, ?_, ?_, ?_, ?_, ?_, ?_, ?_, ?_, ?_, ?_⟩
  · have := h.active_eq
    simp only [List.length_cons, List.length_nil] at this
    rw [ha, hs, hse, this]
    simp only [List.length_nil]
    push_cast
    omega
  · rw [ha]; exact h.active_le
  · intro j r2 h2
    rw [hc]
    rcases look j r2 h2 with ⟨hj, _⟩ | ⟨_, h3⟩
    · rw [hj]; exact h.table_fresh _ _ hr
    · exact h.table_fresh _ _ h3
  · intro j hj
    rw [hc]
    rcases ht with ht | ⟨ht, _⟩
    · rw [ht] at hj; exact h.timers_fresh j hj
    · rw [ht, List.mem_append, List.mem_singleton] at hj
      rcases hj with hj | hj
      · exact h.timers_fresh j hj
      · rw [hj]; exact h.table_fresh _ _ hr
  · intro it hit
    rw [hq] at hit
    exact keep _ (h.queue_present it hit)
  · intro t ht1
    rw [hs] at ht1
    exact keep _ (h.running_present t ht1)
  · intro it hit
    simp at hit
  · intro j r2 h2
    have hq2 : s1.queuedOf j = s.queuedOf j := by unfold queuedOf; rw [hq]
    have hr2 : s1.runningOf j = s.runningOf j := by unfold runningOf; rw [hs]
    rw [hq2, hr2]
    have e0 : countJob [] j = 0 := rfl
    rw [e0]
    rcases look j r2 h2 with ⟨hj, h3⟩ | ⟨hj, h3⟩
    · rw [h3, cc, cf, ct, htotal, hj]
      have e1 : countJob [item] item.jobId = 1 := by simp [countJob]
      rw [e1] at hcons
      omega
    · have := h.conserved j r2 h3
      have e1 : countJob [item] j = 0 := by
        simp [countJob, List.countP_cons]
        exact fun hh => hj hh.symm
      rw [e1] at this
      omega
  · intro j r2 h2
    rcases look j r2 h2 with ⟨hj, h3⟩ | ⟨hj, h3⟩
    · subst h3
      rw [ct, cc, cf]
      constructor
      · intro hcomp
        by_cases hd : r1.total ≤ r1.completed + r1.failed
        · exact hd
        · rw [cnot hd, hstatus] at hcomp
          have := hst.1 hcomp
          omega
      · intro _ hd
        exact cdone hd
    · exact h.status_ok j r2 h3
  · intro j r2 h2
    rcases look j r2 h2 with ⟨hj, h3⟩ | ⟨hj, h3⟩
    · subst h3
      rw [cc, cf, ci]
      exact hlog
    · exact h.logged j r2 h3
  · intro j hj r2 h2
    rcases look j r2 h2 with ⟨hjk, h3⟩ | ⟨hjk, h3⟩
    · subst h3
      rcases ht with ht | ⟨ht, hdone⟩
      · rw [ht] at hj
        rw [hjk] at hj
        have hold := h.timers_ok _ hj r hr
        by_cases hd : r1.total ≤ r1.completed + r1.failed
        · exact cdone hd
        · rw [cnot hd, hstatus]; exact hold
      · exact hdone
    · rcases ht with ht | ⟨ht, hdone⟩
      · rw [ht] at hj
        exact h.timers_ok j hj r2 h3
      · rw [ht, List.mem_append, List.mem_singleton] at hj
        rcases hj with hj | hj
        · exact h.timers_ok j hj r2 h3
        · exact absurd hj hjk
  · intro j r2 h2 hcomp
    rcases look j r2 h2 with ⟨hjk, h3⟩ | ⟨hjk, h3⟩
    · rw [h3, cc, cf]
      omega
    · exact h.complete_pos j r2 h3 hcomp

end QueueSystem

namespace QueueSystem

theorem Inv.suspend {s s1 : QueueSystem} {item : QueueItem} {t : PendingTask}
    (h : Inv [item] s) (hq : s1.q = s.q) (hs : s1.suspended = s.suspended ++ [t])
    (hti : t.item = item) (hse : s1.settled = s.settled) (ht : s1.timers = s.timers) :
    Inv [] s1 := by
  refine ⟨?_, ?_, ?_, ?_, ?_, ?_, ?_, ?_, ?_, ?_, ?_, ?_⟩
  · have := h.active_eq
    simp only [List.length_cons, List.length_nil] at this
    rw [hq, hs, hse, this]
    simp only [List.length_nil, List.length_append, List.length_cons]
    push_cast
    omega
  · rw [hq]; exact h.active_le
  · rw [hq]; exact h.table_fresh
  · rw [hq, ht]; exact h.timers_fresh
  · rw [hq]; exact h.queue_present
  · intro t1 ht1
    rw [hq]
    rw [hs, List.mem_append, List.mem_singleton] at ht1
    rcases ht1 with ht1 | ht1
    · exact h.running_present t1 ht1
    · rw [ht1, hti]
      exact h.extra_present item (List.mem_singleton.mpr rfl)
  · intro it hit
    simp at hit
  · intro j r hr
    rw [hq] at hr
    have := h.conserved j r hr
    have e0 : countJob [] j = 0 := rfl
    have e1 : s1.queuedOf j = s.queuedOf j := by unfold queuedOf; rw [hq]
    have e2 : s1.runningOf j = s.runningOf j + countJob [item] j := by
      unfold runningOf countJob
      rw [hs, List.countP_append]
      simp [List.countP_cons, hti]
    rw [e0, e1, e2]
    omega
  · rw [hq]; exact h.status_ok
  · rw [hq]; exact h.logged
  · rw [hq, ht]; exact h.timers_ok
  · rw [hq]; exact h.complete_pos

theorem Inv.congr {extra : List QueueItem} {s s1 : QueueSystem}
    (h : Inv extra s) (hq : s1.q = s.q) (hs : s1.suspended = s.suspended)
    (hse : s1.settled = s.settled) (ht : s1.timers = s.timers) : Inv extra s1 := by
  obtain ⟨q, su, se, ti, ef⟩ := s
  obtain ⟨q1, su1, se1, ti1, ef1⟩ := s1
  simp only at hq hs hse ht
  subst hq hs hse ht
  exact ⟨h.active_eq, h.active_le, h.table_fresh, h.timers_fresh, h.queue_present,
    h.running_present, h.extra_present, h.conserved, h.status_ok, h.logged, h.timers_ok,
    h.complete_pos⟩

theorem failedResults_append (l : List ItemResult) (e : ItemResult) :
    failedResults (l ++ [e]) = failedResults l + (if e.status = .failed then 1 else 0) := by
  unfold failedResults
  rw [List.countP_append]
  simp [List.countP_cons]

theorem Inv.finishCompleted {s : QueueSystem} {item : QueueItem} (now : Int) (entry : ItemResult)
    (h : Inv [item] s) (he : entry.status ≠ .failed) :
    Inv [] (settle (checkJobComplete (recordCompleted s item.jobId entry) item.jobId now)) := by
  have hp := h.extra_present item (List.mem_singleton.mpr rfl)
  obtain ⟨r, hr⟩ := Option.isSome_iff_exists.mp hp
  obtain ⟨f1, f2, f3, f4, f5, _, f7, f8⟩ := finishCompleted_fields s item.jobId now entry r hr
  have hl := h.logged _ _ hr
  refine Inv.finish h hr f1 f2 f3 f4 f5 f7 f8 rfl ?_ rfl ?_
  · simp only; omega
  · simp only [failedResults_append, he, if_false, List.length_append, List.length_singleton]
    omega

theorem Inv.finishFailed {s : QueueSystem} {item : QueueItem} (now : Int) (entry : ItemResult)
    (h : Inv [item] s) (he : entry.status = .failed) :
    Inv [] (settle (checkJobComplete (recordFailed s item.jobId entry) item.jobId now)) := by
  have hp := h.extra_present item (List.mem_singleton.mpr rfl)
  obtain ⟨r, hr⟩ := Option.isSome_iff_exists.mp hp
  obtain ⟨f1, f2, f3, f4, f5, _, f7, f8⟩ := finishFailed_fields s item.jobId now entry r hr
  have hl := h.logged _ _ hr
  refine Inv.finish h hr f1 f2 f3 f4 f5 f7 f8 rfl ?_ rfl ?_
  · simp only; omega
  · simp only [failedResults_append, he, if_true, List.length_append, List.length_singleton]
    omega

theorem downloadItem_inv (disk : Disk) (now : Int) (item : QueueItem) (s : QueueSystem)
    (h : Inv [item] s) : Inv [] (downloadItem disk now item s) := by
  have h0 : Inv [item] { s with effects := s.effects ++ [Effect.taskStarted item] } :=
    Inv.congr h rfl rfl rfl rfl
  unfold downloadItem
  simp only
  split
  · exact Inv.finishFailed now _ h0 rfl
  · split
    · exact Inv.finishCompleted now _ h0 (by simp)
    · exact Inv.suspend h0 rfl rfl rfl rfl rfl

theorem settle_checkJobComplete_q (s : QueueSystem) (jobId : JobId) (now : Int) :
    (settle (checkJobComplete s jobId now)).q.queue = s.q.queue ∧
    (settle (checkJobComplete s jobId now)).q.activeDownloads = s.q.activeDownloads ∧
    (settle (checkJobComplete s jobId now)).q.jobCounter = s.q.jobCounter ∧
    (settle (checkJobComplete s jobId now)).effects = s.effects ∧
    (settle (checkJobComplete s jobId now)).suspended = s.suspended := by
  unfold settle checkJobComplete
  split
  · split <;> simp
  · simp

theorem recordCompleted_q (s : QueueSystem) (jobId : JobId) (e : ItemResult) :
    (recordCompleted s jobId e).q.queue = s.q.queue ∧
    (recordCompleted s jobId e).q.activeDownloads = s.q.activeDownloads ∧
    (recordCompleted s jobId e).q.jobCounter = s.q.jobCounter ∧
    (recordCompleted s jobId e).effects = s.effects ∧
    (recordCompleted s jobId e).suspended = s.suspended := by
  unfold recordCompleted
  split <;> simp

theorem recordFailed_q (s : QueueSystem) (jobId : JobId) (e : ItemResult) :
    (recordFailed s jobId e).q.queue = s.q.queue ∧
    (recordFailed s jobId e).q.activeDownloads = s.q.activeDownloads ∧
    (recordFailed s jobId e).q.jobCounter = s.q.jobCounter ∧
    (recordFailed s jobId e).effects = s.effects ∧
    (recordFailed s jobId e).suspended = s.suspended := by
  unfold recordFailed
  split <;> simp

/-- The call `downloadItem(item)` leaves the queue, the counter of active
downloads and the job counter as they are, and logs one started task. -/
theorem downloadItem_q (disk : Disk) (now : Int) (item : QueueItem) (s : QueueSystem) :
    (downloadItem disk now item s).q.queue = s.q.queue ∧
    (downloadItem disk now item s).q.activeDownloads = s.q.activeDownloads ∧
    (downloadItem disk now item s).q.jobCounter = s.q.jobCounter ∧
    (downloadItem disk now item s).effects = s.effects ++ [Effect.taskStarted item] := by
  unfold downloadItem
  simp only
  split
  · obtain ⟨a1, a2, a3, a4, _⟩ := settle_checkJobComplete_q
      (recordFailed { s with effects := s.effects ++ [Effect.taskStarted item] } item.jobId
        { filename := item.filename, status := .failed, detail := ‹String› }) item.jobId now
    obtain ⟨b1, b2, b3, b4, _⟩ := recordFailed_q
      { s with effects := s.effects ++ [Effect.taskStarted item] } item.jobId
        { filename := item.filename, status := .failed, detail := ‹String› }
    rw [a1, a2, a3, a4, b1, b2, b3, b4]
    exact ⟨rfl, rfl, rfl, rfl⟩
  · split
    · obtain ⟨a1, a2, a3, a4, _⟩ := settle_checkJobComplete_q
        (recordCompleted { s with effects := s.effects ++ [Effect.taskStarted item] } item.jobId
          { filename := item.filename, status := .skipped, detail := "exists" }) item.jobId now
      obtain ⟨b1, b2, b3, b4, _⟩ := recordCompleted_q
        { s with effects := s.effects ++ [Effect.taskStarted item] } item.jobId
          { filename := item.filename, status := .skipped, detail := "exists" }
      rw [a1, a2, a3, a4, b1, b2, b3, b4]
      exact ⟨rfl, rfl, rfl, rfl⟩
    · exact ⟨rfl, rfl, rfl, rfl⟩

end QueueSystem

namespace QueueSystem

theorem Inv.shift {s : QueueSystem} {item : QueueItem} {rest : List QueueItem}
    (h : Inv [] s) (hq : s.q.queue = item :: rest) (ha : s.q.activeDownloads < MAX_CONCURRENT) :
    Inv [item]
      { s with q := { s.q with queue := rest, activeDownloads := s.q.activeDownloads + 1 } } := by
  have hmem : item ∈ s.q.queue := by rw [hq]; exact List.mem_cons_self _ _
  refine ⟨?_, ?_, h.table_fresh, h.timers_fresh, ?_, h.running_present, ?_, ?_, h.status_ok,
    h.logged, h.timers_ok, h.complete_pos⟩
  · have := h.active_eq
    simp only [List.length_nil] at this
    simp only [List.length_cons, List.length_nil]
    push_cast at this ⊢
    omega
  · show s.q.activeDownloads + 1 ≤ MAX_CONCURRENT
    omega
  · intro it hit
    exact h.queue_present it (by rw [hq]; exact List.mem_cons_of_mem _ hit)
  · intro it hit
    rw [List.mem_singleton] at hit
    rw [hit]
    exact h.queue_present item hmem
  · intro j r hr
    have := h.conserved j r hr
    have e0 : countJob [] j = 0 := rfl
    have e1 : s.queuedOf j = rest.countP (fun it => decide (it.jobId = j)) + countJob [item] j := by
      unfold queuedOf countJob
      rw [hq]
      simp only [List.countP_cons, List.countP_nil]
      omega
    rw [e0, e1] at this
    show rest.countP (fun it => decide (it.jobId = j)) + s.runningOf j + countJob [item] j
      + r.completed + r.failed = r.total
    omega

theorem processLoop_inv (disk : Disk) (now : Int) (l : List QueueItem) (s : QueueSystem)
    (hq : s.q.queue = l) (h : Inv [] s) : Inv [] (processLoop disk now l s) := by
  induction l generalizing s with
  | nil => exact h
  | cons item rest ih =>
    unfold processLoop
    split
    · rename_i ha
      apply ih
      · rw [(downloadItem_q disk now item _).1]
      · exact downloadItem_inv disk now item _ (Inv.shift h hq ha)
    · exact h

theorem processQueue_inv (disk : Disk) (now : Int) (s : QueueSystem) (h : Inv [] s) :
    Inv [] (processQueue disk now s) :=
  processLoop_inv disk now s.q.queue s rfl h

theorem taskResumes_inv (now : Int) (i : Nat) (o : FetchOutcome) (s : QueueSystem) (h : Inv [] s) :
    Inv [] (taskResumes now i o s) := by
  unfold taskResumes
  split
  · exact h
  · rename_i t ht
    have hmem : t ∈ s.suspended := List.getElem?_mem ht
    have h0 : Inv [t.item]
        { s with suspended := s.suspended.eraseIdx i, effects := s.effects ++ outcomeEffects t o } := by
      refine ⟨?_, h.active_le, h.table_fresh, h.timers_fresh, h.queue_present, ?_, ?_, ?_,
        h.status_ok, h.logged, h.timers_ok, h.complete_pos⟩
      · have := h.active_eq
        have hl := length_eraseIdx_add s.suspended i t ht
        simp only [List.length_nil] at this
        simp only [List.length_cons, List.length_nil]
        push_cast at this ⊢
        omega
      · intro t1 ht1
        exact h.running_present t1 (mem_of_mem_eraseIdx_aux _ _ _ ht1)
      · intro it hit
        rw [List.mem_singleton] at hit
        rw [hit]
        exact h.running_present t hmem
      · intro j r hr
        have := h.conserved j r hr
        have e0 : countJob [] j = 0 := rfl
        have e1 := countP_eraseIdx_add (fun t => decide (t.item.jobId = j)) s.suspended i t ht
        have e2 : countJob [t.item] j = if decide (t.item.jobId = j) = true then 1 else 0 := by
          simp [countJob, List.countP_cons]
        rw [e0] at this
        unfold runningOf at this
        show s.queuedOf j + (s.suspended.eraseIdx i).countP (fun t => decide (t.item.jobId = j))
          + countJob [t.item] j + r.completed + r.failed = r.total
        simp only at e1
        omega
    simp only
    cases o with
    | saved => exact Inv.finishCompleted now _ h0 (by simp)
    | importFails m => exact Inv.finishFailed now _ h0 rfl
    | fetchFails m => exact Inv.finishFailed now _ h0 rfl
    | writeFails m => exact Inv.finishFailed now _ h0 rfl

theorem finallyRuns_inv (disk : Disk) (now : Int) (s : QueueSystem) (h : Inv [] s) :
    Inv [] (finallyRuns disk now s) := by
  unfold finallyRuns
  split
  · exact h
  · rename_i hs
    apply processQueue_inv
    refine ⟨?_, ?_, h.table_fresh, h.timers_fresh, h.queue_present, h.running_present,
      h.extra_present, h.conserved, h.status_ok, h.logged, h.timers_ok, h.complete_pos⟩
    · have := h.active_eq
      simp only [List.length_nil] at this ⊢
      show s.q.activeDownloads - 1 = _
      push_cast at this ⊢
      omega
    · have := h.active_le
      show s.q.activeDownloads - 1 ≤ MAX_CONCURRENT
      omega

theorem countP_eq_zero_not_mem {α : Type} (p : α → Bool) (l : List α) (h : l.countP p = 0)
    (a : α) (ha : a ∈ l) : p a = false := by
  rw [List.countP_eq_zero] at h
  simpa using h a ha

theorem timerFires_inv (i : Nat) (s : QueueSystem) (h : Inv [] s) : Inv [] (timerFires i s) := by
  unfold timerFires
  split
  · exact h
  · rename_i j0 hj0
    have hmem : j0 ∈ s.timers := List.getElem?_mem hj0
    have look : ∀ j r, s.q.results.delete j0 j = some r → j ≠ j0 ∧ s.q.results j = some r := by
      intro j r hr
      by_cases hj : j = j0
      · simp [JobTable.delete, hj] at hr
      · simp [JobTable.delete, hj] at hr
        exact ⟨hj, hr⟩
    have gone : s.queuedOf j0 = 0 ∧ s.runningOf j0 = 0 := by
      cases hr : s.q.results j0 with
      | none =>
        constructor
        · unfold queuedOf
          rw [List.countP_eq_zero]
          intro it hit
          have := h.queue_present it hit
          intro hc
          simp at hc
          rw [hc, hr] at this
          simp at this
        · unfold runningOf
          rw [List.countP_eq_zero]
          intro t ht
          have := h.running_present t ht
          intro hc
          simp at hc
          rw [hc, hr] at this
          simp at this
      | some r =>
        have h1 := h.timers_ok j0 hmem r hr
        have h2 := (h.status_ok j0 r hr).1 h1
        have h3 := h.conserved j0 r hr
        omega
    have keep : ∀ j, j ≠ j0 → (s.q.results j).isSome = true →
        (s.q.results.delete j0 j).isSome = true := by
      intro j hj hs
      simpa [JobTable.delete, hj] using hs
    refine ⟨h.active_eq, h.active_le, ?_, ?_, ?_, ?_, ?_, ?_, ?_, ?_, ?_, ?_⟩
    · intro j r hr
      exact h.table_fresh j r (look j r hr).2
    · intro j hj
      exact h.timers_fresh j (mem_of_mem_eraseIdx_aux _ _ _ hj)
    · intro it hit
      refine keep _ ?_ (h.queue_present it hit)
      intro hc
      have := countP_eq_zero_not_mem _ _ gone.1 it hit
      simp [hc] at this
    · intro t ht
      refine keep _ ?_ (h.running_present t ht)
      intro hc
      have := countP_eq_zero_not_mem _ _ gone.2 t ht
      simp [hc] at this
    · intro it hit
      simp at hit
    · intro j r hr
      exact h.conserved j r (look j r hr).2
    · intro j r hr
      exact h.status_ok j r (look j r hr).2
    · intro j r hr
      exact h.logged j r (look j r hr).2
    · intro j hj r hr
      exact h.timers_ok j (mem_of_mem_eraseIdx_aux _ _ _ hj) r (look j r hr).2
    · intro j r hr
      exact h.complete_pos j r (look j r hr).2

end QueueSystem

namespace QueueSystem

theorem init_inv : Inv [] init := by
  refine ⟨?_, ?_, ?_, ?_, ?_, ?_, ?_, ?_, ?_, ?_, ?_, ?_⟩ <;> simp [init, MAX_CONCURRENT]

/-- The state of `addBatch` just before it calls `processQueue` (line 56). -/
theorem addBatch_eq (defaultFolder : String) (disk : Disk) (now : Int) (items : List MediaItem)
    (username downloadPath : String) (s : QueueSystem) :
    (addBatch defaultFolder disk now items username downloadPath s).1 =
      processQueue disk now
        { s with q := { s.q with
            jobCounter := s.q.jobCounter + 1,
            results := s.q.results.set (nextJobId s now)
              (newJob items.length (baseFolder defaultFolder downloadPath)),
            queue := s.q.queue ++ items.map
              (toQueueItem (nextJobId s now) username (baseFolder defaultFolder downloadPath)) } } ∧
    (addBatch defaultFolder disk now items username downloadPath s).2 = nextJobId s now :=
  ⟨rfl, rfl⟩

theorem Inv.enqueue {s : QueueSystem} (h : Inv [] s) (now : Int) (items : List MediaItem)
    (username folder : String) :
    Inv []
      { s with q := { s.q with
          jobCounter := s.q.jobCounter + 1,
          results := s.q.results.set (nextJobId s now) (newJob items.length folder),
          queue := s.q.queue ++ items.map (toQueueItem (nextJobId s now) username folder) } } := by
  have hnew : ∀ j r, s.q.results j = some r → j ≠ nextJobId s now := by
    intro j r hr hj
    have := h.table_fresh j r hr
    rw [hj] at this
    simp [nextJobId] at this
  have look : ∀ j r, s.q.results.set (nextJobId s now) (newJob items.length folder) j = some r →
      (j = nextJobId s now ∧ r = newJob items.length folder) ∨
      (j ≠ nextJobId s now ∧ s.q.results j = some r) := by
    intro j r hr
    by_cases hj : j = nextJobId s now
    · subst hj
      rw [JobTable.set_same] at hr
      exact Or.inl ⟨rfl, (Option.some.inj hr).symm⟩
    · rw [JobTable.set_other _ _ _ _ hj] at hr
      exact Or.inr ⟨hj, hr⟩
  have keep : ∀ j, (s.q.results j).isSome = true →
      (s.q.results.set (nextJobId s now) (newJob items.length folder) j).isSome = true := by
    intro j hj
    by_cases hjk : j = nextJobId s now
    · subst hjk; rw [JobTable.set_same]; rfl
    · rw [JobTable.set_other _ _ _ _ hjk]; exact hj
  have cnew : ∀ j, (items.map (toQueueItem (nextJobId s now) username folder)).countP
      (fun it => decide (it.jobId = j)) = if nextJobId s now = j then items.length else 0 := by
    intro j
    rw [List.countP_map]
    split
    · rename_i hj
      rw [List.countP_eq_length]
      intro a _
      simp [toQueueItem, hj]
    · rename_i hj
      rw [List.countP_eq_zero]
      intro a _
      simp [toQueueItem, hj]
  refine ⟨h.active_eq, h.active_le, ?_, ?_, ?_, ?_, ?_, ?_, ?_, ?_, ?_, ?_⟩
  · intro j r hr
    show j.counter ≤ s.q.jobCounter + 1
    rcases look j r hr with ⟨hj, _⟩ | ⟨_, h3⟩
    · rw [hj]; simp [nextJobId]
    · exact Nat.le_succ_of_le (h.table_fresh j r h3)
  · intro j hj
    exact Nat.le_succ_of_le (h.timers_fresh j hj)
  · intro it hit
    have hit2 : it ∈ s.q.queue ++ items.map (toQueueItem (nextJobId s now) username folder) := hit
    rw [List.mem_append] at hit2
    rcases hit2 with h1 | h1
    · exact keep _ (h.queue_present it h1)
    · rw [List.mem_map] at h1
      obtain ⟨a, _, ha⟩ := h1
      show (s.q.results.set (nextJobId s now) (newJob items.length folder) it.jobId).isSome = true
      rw [← ha]
      simp [toQueueItem, JobTable.set_same]
  · intro t ht
    exact keep _ (h.running_present t ht)
  · intro it hit
    simp at hit
  · intro j r hr
    have e0 : countJob [] j = 0 := rfl
    rw [e0]
    show (s.q.queue ++ items.map (toQueueItem (nextJobId s now) username folder)).countP
        (fun it => decide (it.jobId = j)) + s.runningOf j + 0 + r.completed + r.failed = r.total
    rw [List.countP_append, cnew j]
    rcases look j r hr with ⟨hj, h3⟩ | ⟨hj, h3⟩
    · have q0 : s.q.queue.countP (fun it => decide (it.jobId = j)) = 0 := by
        rw [List.countP_eq_zero]
        intro it hit hc
        simp at hc
        obtain ⟨r0, hr0⟩ := Option.isSome_iff_exists.mp (h.queue_present it hit)
        exact hnew _ _ hr0 (hc.trans hj)
      have r0 : s.runningOf j = 0 := by
        unfold runningOf
        rw [List.countP_eq_zero]
        intro t ht hc
        simp at hc
        obtain ⟨r0, hr0⟩ := Option.isSome_iff_exists.mp (h.running_present t ht)
        exact hnew _ _ hr0 (hc.trans hj)
      rw [q0, r0, h3, if_pos hj.symm]
      simp [newJob]
    · have := h.conserved j r h3
      rw [e0] at this
      unfold queuedOf at this
      rw [if_neg (fun hh => hj hh.symm)]
      omega
  · intro j r hr
    rcases look j r hr with ⟨hj, h3⟩ | ⟨hj, h3⟩
    · rw [h3]
      constructor
      · intro hc
        simp [newJob] at hc
      · intro hpos hle
        simp only [newJob] at hpos hle
        omega
    · exact h.status_ok j r h3
  · intro j r hr
    rcases look j r hr with ⟨hj, h3⟩ | ⟨hj, h3⟩
    · rw [h3]
      simp [newJob, failedResults]
    · exact h.logged j r h3
  · intro j hj r hr
    rcases look j r hr with ⟨hjk, h3⟩ | ⟨hjk, h3⟩
    · have := h.timers_fresh j hj
      rw [hjk] at this
      simp [nextJobId] at this
    · exact h.timers_ok j hj r h3
  · intro j r hr hcomp
    rcases look j r hr with ⟨hjk, h3⟩ | ⟨hjk, h3⟩
    · rw [h3] at hcomp
      simp [newJob] at hcomp
    · exact h.complete_pos j r h3 hcomp

theorem addBatch_inv (defaultFolder : String) (disk : Disk) (now : Int) (items : List MediaItem)
    (username downloadPath : String) (s : QueueSystem) (h : Inv [] s) :
    Inv [] (addBatch defaultFolder disk now items username downloadPath s).1 := by
  rw [(addBatch_eq defaultFolder disk now items username downloadPath s).1]
  exact processQueue_inv disk now _ (Inv.enqueue h now items username _)

theorem step_inv (defaultFolder : String) (s : QueueSystem) (e : QueueEvent) (h : Inv [] s) :
    Inv [] (step defaultFolder s e) := by
  cases e with
  | addBatch disk now items username downloadPath =>
    exact addBatch_inv defaultFolder disk now items username downloadPath s h
  | taskResumes now i o => exact taskResumes_inv now i o s h
  | finallyRuns disk now => exact finallyRuns_inv disk now s h
  | timerFires i => exact timerFires_inv i s h

theorem runFrom_inv (defaultFolder : String) (events : List QueueEvent) (s : QueueSystem)
    (h : Inv [] s) : Inv [] (runFrom defaultFolder s events) := by
  induction events generalizing s with
  | nil => exact h
  | cons e rest ih => exact ih _ (step_inv defaultFolder s e h)

theorem run_inv (defaultFolder : String) (events : List QueueEvent) :
    Inv [] (run defaultFolder events) :=
  runFrom_inv defaultFolder events init init_inv

end QueueSystem

/-- C5: in every state of the queue reached from a fresh DownloadQueue by any
sequence of addBatch calls, task completions, finally callbacks (each of which
decrements the counter and calls processQueue) and clean-up timers,
0 <= activeDownloads <= MAX_CONCURRENT. -/
theorem C5_active_downloads_bounded (defaultFolder : String) (events : List QueueEvent) :
    0 ≤ (QueueSystem.run defaultFolder events).q.activeDownloads ∧
    (QueueSystem.run defaultFolder events).q.activeDownloads ≤ MAX_CONCURRENT := by
  have h := QueueSystem.run_inv defaultFolder events
  refine ⟨?_, h.active_le⟩
  rw [h.active_eq]
  omega

namespace QueueSystem

theorem processLoop_dispatch (disk : Disk) (now : Int) (l : List QueueItem) (s : QueueSystem)
    (hq : s.q.queue = l) :
    (processLoop disk now l s).q.queue = l.drop s.dispatchCount ∧
    (processLoop disk now l s).effects
      = s.effects ++ (l.take s.dispatchCount).map Effect.taskStarted := by
  induction l generalizing s with
  | nil =>
    simp [processLoop, hq]
  | cons item rest ih =>
    unfold processLoop
    split
    · rename_i ha
      obtain ⟨d1, d2, _, d4⟩ := downloadItem_q disk now item
        { s with q := { s.q with queue := rest, activeDownloads := s.q.activeDownloads + 1 } }
      have hk : s.dispatchCount =
          (downloadItem disk now item
            { s with q := { s.q with queue := rest,
                                     activeDownloads := s.q.activeDownloads + 1 } }).dispatchCount + 1 := by
        unfold dispatchCount
        rw [d1, d2, hq]
        simp only [List.length_cons]
        unfold MAX_CONCURRENT at ha ⊢
        omega
      obtain ⟨i1, i2⟩ := ih _ d1
      rw [i1, i2, hk, d4]
      simp
    · rename_i ha
      have hk : s.dispatchCount = 0 := by
        unfold dispatchCount
        unfold MAX_CONCURRENT at ha ⊢
        omega
      rw [hk]
      simp [hq]

end QueueSystem

/-- C6: in every reachable state and for every job in the table, the
job's entries still in the queue, its tasks started and not yet counted, its
completed and its failed add up to its total; every queue entry and every
running task belongs to a job that is in the table; and one processQueue()
call, in any state, removes exactly the first k entries of the queue and
starts a download task for exactly these, in order, where k is the smaller of
the queue length and the number of free slots. -/
theorem C6_no_item_dropped (defaultFolder : String) (events : List QueueEvent) (j : JobId)
    (r : BatchJob) (disk : Disk) (now : Int) (s : QueueSystem)
    (hr : (QueueSystem.run defaultFolder events).getStatus j = some r) :
    (QueueSystem.run defaultFolder events).queuedOf j
        + (QueueSystem.run defaultFolder events).runningOf j + r.completed + r.failed = r.total ∧
    (∀ item ∈ (QueueSystem.run defaultFolder events).q.queue,
        ((QueueSystem.run defaultFolder events).getStatus item.jobId).isSome = true) ∧
    (∀ t ∈ (QueueSystem.run defaultFolder events).suspended,
        ((QueueSystem.run defaultFolder events).getStatus t.item.jobId).isSome = true) ∧
    (QueueSystem.processQueue disk now s).q.queue = s.q.queue.drop s.dispatchCount ∧
    (QueueSystem.processQueue disk now s).effects
      = s.effects ++ (s.q.queue.take s.dispatchCount).map Effect.taskStarted := by
  have h := QueueSystem.run_inv defaultFolder events
  have hc := h.conserved j r hr
  have e0 : countJob [] j = 0 := rfl
  rw [e0] at hc
  exact ⟨by omega, h.queue_present, h.running_present,
    QueueSystem.processLoop_dispatch disk now s.q.queue s rfl⟩

/-- C6 (witness): seven items submitted on an empty disk: five tasks running, two entries queued, total 7. -/
theorem C6_no_item_dropped_witness :
    ∃ r, (QueueSystem.run "D"
        [.addBatch emptyDisk 5 (List.map sampleItem (List.range 7)) "bob" ""]).getStatus ⟨1, 5⟩ = some r ∧
      (QueueSystem.run "D"
        [.addBatch emptyDisk 5 (List.map sampleItem (List.range 7)) "bob" ""]).queuedOf ⟨1, 5⟩ = 2 ∧
      (QueueSystem.run "D"
        [.addBatch emptyDisk 5 (List.map sampleItem (List.range 7)) "bob" ""]).runningOf ⟨1, 5⟩ = 5 ∧
      (QueueSystem.run "D"
        [.addBatch emptyDisk 5 (List.map sampleItem (List.range 7)) "bob" ""]).queuedOf ⟨1, 5⟩
      + (QueueSystem.run "D"
        [.addBatch emptyDisk 5 (List.map sampleItem (List.range 7)) "bob" ""]).runningOf ⟨1, 5⟩
      + r.completed + r.failed = r.total :=
  ⟨_, rfl, by decide, by decide,
    (C6_no_item_dropped "D" [.addBatch emptyDisk 5 (List.map sampleItem (List.range 7)) "bob" ""]
      ⟨1, 5⟩ _ emptyDisk 0 QueueSystem.init rfl).1⟩

/-- C8 (counterexample): addBatch with an empty list creates a job with
total = 0, so completed + failed >= total, whose status is processing. -/
theorem C8_counterexample :
    ∃ r, (QueueSystem.run "D" [.addBatch emptyDisk 5 [] "bob" ""]).getStatus ⟨1, 5⟩ = some r ∧
      ¬ (r.status = .complete ↔ r.total ≤ r.completed + r.failed) :=
  ⟨_, rfl, by decide⟩

/-- C8 (amended): in every reachable state, a job in the table has status
complete if and only if its total is at least 1 and completed + failed >=
total. -/
theorem C8_complete_iff_all_counted (defaultFolder : String) (events : List QueueEvent)
    (j : JobId) (r : BatchJob)
    (hr : (QueueSystem.run defaultFolder events).getStatus j = some r) :
    r.status = .complete ↔ (0 < r.total ∧ r.total ≤ r.completed + r.failed) := by
  have h := QueueSystem.run_inv defaultFolder events
  have h1 := h.status_ok j r hr
  have h2 := h.complete_pos j r hr
  have h3 := h.conserved j r hr
  constructor
  · intro hc
    have := h1.1 hc
    have := h2 hc
    exact ⟨by omega, by omega⟩
  · intro hc
    exact h1.2 hc.1 hc.2

/-- C8 (witness): a batch of one item whose download is saved: the job is complete with completed + failed = total = 1. -/
theorem C8_complete_iff_all_counted_witness :
    ∃ r, (QueueSystem.run "D"
        [.addBatch emptyDisk 5 [sampleItem 1] "bob" "", .taskResumes 9 0 .saved]).getStatus ⟨1, 5⟩
        = some r ∧
      r.status = .complete ∧ r.completed + r.failed = 1 ∧
      (r.status = .complete ↔ (0 < r.total ∧ r.total ≤ r.completed + r.failed)) :=
  ⟨_, rfl, by decide, by decide,
    C8_complete_iff_all_counted "D"
      [.addBatch emptyDisk 5 [sampleItem 1] "bob" "", .taskResumes 9 0 .saved] ⟨1, 5⟩ _ rfl⟩

/-- C10: when `downloadItem(item)` runs and the target file exists (the user
folder existing or being created), the task ends at once: no fetch call and
no write call is made (the only effect logged is the start of the task, and
no task is left suspended), the job record gets completed + 1, the same
failed and total, and one more item result, with status skipped; the records
of other jobs are unchanged. -/
theorem C10_existing_file_skipped (disk : Disk) (now : Int) (item : QueueItem) (s : QueueSystem)
    (r : BatchJob) (hr : s.getStatus item.jobId = some r)
    (hfolder : disk.existsSync (pathJoin item.downloadPath item.username) = true ∨
      disk.mkdirError (pathJoin item.downloadPath item.username) = none)
    (hfile : disk.existsSync
      (pathJoin (pathJoin item.downloadPath item.username) item.filename) = true) :
    (QueueSystem.downloadItem disk now item s).effects = s.effects ++ [Effect.taskStarted item] ∧
    (QueueSystem.downloadItem disk now item s).suspended = s.suspended ∧
    (∃ r1, (QueueSystem.downloadItem disk now item s).getStatus item.jobId = some r1 ∧
      r1.completed = r.completed + 1 ∧ r1.failed = r.failed ∧ r1.total = r.total ∧
      r1.items = r.items ++ [{ filename := item.filename, status := .skipped, detail := "exists" }]) ∧
    (∀ j, j ≠ item.jobId →
      (QueueSystem.downloadItem disk now item s).getStatus j = s.getStatus j) := by
  have hm : (if disk.existsSync (pathJoin item.downloadPath item.username) = true then none
      else disk.mkdirError (pathJoin item.downloadPath item.username)) = none := by
    rcases hfolder with h | h
    · simp [h]
    · simp [h]
  have hr0 : ({ s with effects := s.effects ++ [Effect.taskStarted item] } : QueueSystem).q.results
      item.jobId = some r := hr
  obtain ⟨_, _, _, f4, _, f6, f7, _⟩ := QueueSystem.finishCompleted_fields
    { s with effects := s.effects ++ [Effect.taskStarted item] } item.jobId now
    { filename := item.filename, status := .skipped, detail := "exists" } r hr0
  obtain ⟨ct, cc, cf, ci, _, _, _⟩ := closeIfDone_fields now
    { r with completed := r.completed + 1,
             items := r.items ++ [{ filename := item.filename, status := .skipped, detail := "exists" }] }
  unfold QueueSystem.downloadItem QueueSystem.getStatus
  simp only [hm, hfile, if_true]
  refine ⟨f6, f4, ⟨_, by rw [f7, JobTable.set_same], cc, cf, ct, ci⟩, ?_⟩
  intro j hj
  rw [f7, JobTable.set_other _ _ _ _ hj]

/-- C10 (witness): the sixth item of a batch, still queued, is started on a disk where its file exists. -/
theorem C10_existing_file_skipped_witness :
    ∃ r1, (QueueSystem.downloadItem fullDisk 7
        (QueueSystem.toQueueItem ⟨1, 5⟩ "bob" "D" (sampleItem 5))
        (QueueSystem.run "D"
          [.addBatch emptyDisk 5 (List.map sampleItem (List.range 6)) "bob" ""])).getStatus ⟨1, 5⟩
        = some r1 ∧
      r1.completed = 0 + 1 ∧ r1.failed = 0 ∧ r1.total = 6 ∧
      (QueueSystem.downloadItem fullDisk 7
        (QueueSystem.toQueueItem ⟨1, 5⟩ "bob" "D" (sampleItem 5))
        (QueueSystem.run "D"
          [.addBatch emptyDisk 5 (List.map sampleItem (List.range 6)) "bob" ""])).suspended.length
        = 5 := by
  obtain ⟨_, h2, ⟨r1, h3, h4, h5, h6, _⟩, _⟩ := C10_existing_file_skipped fullDisk 7
    (QueueSystem.toQueueItem ⟨1, 5⟩ "bob" "D" (sampleItem 5))
    (QueueSystem.run "D" [.addBatch emptyDisk 5 (List.map sampleItem (List.range 6)) "bob" ""])
    (QueueSystem.newJob 6 "D") rfl (Or.inl rfl) rfl
  exact ⟨r1, h3, h4, h5, h6, by rw [h2]; decide⟩
namespace QueueSystem

theorem finishCompleted_results (s : QueueSystem) (jobId : JobId) (now : Int) (entry : ItemResult) :
    (settle (checkJobComplete (recordCompleted s jobId entry) jobId now)).totals = s.totals ∧
    ∀ j, j ≠ jobId →
      (settle (checkJobComplete (recordCompleted s jobId entry) jobId now)).q.results j
        = s.q.results j := by
  cases hr : s.q.results jobId with
  | none =>
    have e1 : recordCompleted s jobId entry = s := by simp [recordCompleted, hr]
    have e2 : checkJobComplete s jobId now = s := by simp [checkJobComplete, hr]
    rw [e1, e2]
    exact ⟨rfl, fun _ _ => rfl⟩
  | some r =>
    obtain ⟨_, _, _, _, _, _, f7, _⟩ := finishCompleted_fields s jobId now entry r hr
    obtain ⟨ct, _⟩ := closeIfDone_fields now
      { r with completed := r.completed + 1, items := r.items ++ [entry] }
    constructor
    · funext j
      unfold totals
      rw [f7]
      by_cases hj : j = jobId
      · subst hj
        rw [JobTable.set_same, hr]
        simp [ct]
      · rw [JobTable.set_other _ _ _ _ hj]
    · intro j hj
      rw [f7, JobTable.set_other _ _ _ _ hj]

theorem finishFailed_results (s : QueueSystem) (jobId : JobId) (now : Int) (entry : ItemResult) :
    (settle (checkJobComplete (recordFailed s jobId entry) jobId now)).totals = s.totals ∧
    ∀ j, j ≠ jobId →
      (settle (checkJobComplete (recordFailed s jobId entry) jobId now)).q.results j
        = s.q.results j := by
  cases hr : s.q.results jobId with
  | none =>
    have e1 : recordFailed s jobId entry = s := by simp [recordFailed, hr]
    have e2 : checkJobComplete s jobId now = s := by simp [checkJobComplete, hr]
    rw [e1, e2]
    exact ⟨rfl, fun _ _ => rfl⟩
  | some r =>
    obtain ⟨_, _, _, _, _, _, f7, _⟩ := finishFailed_fields s jobId now entry r hr
    obtain ⟨ct, _⟩ := closeIfDone_fields now
      { r with failed := r.failed + 1, items := r.items ++ [entry] }
    constructor
    · funext j
      unfold totals
      rw [f7]
      by_cases hj : j = jobId
      · subst hj
        rw [JobTable.set_same, hr]
        simp [ct]
      · rw [JobTable.set_other _ _ _ _ hj]
    · intro j hj
      rw [f7, JobTable.set_other _ _ _ _ hj]

theorem downloadItem_totals (disk : Disk) (now : Int) (item : QueueItem) (s : QueueSystem) :
    (downloadItem disk now item s).totals = s.totals := by
  unfold downloadItem
  simp only
  split
  · rw [(finishFailed_results _ _ _ _).1]; rfl
  · split
    · rw [(finishCompleted_results _ _ _ _).1]; rfl
    · rfl

theorem downloadItem_untouched (disk : Disk) (now : Int) (item : QueueItem) (s : QueueSystem)
    (j : JobId) (h : item.jobId = j → disk.suspends item) :
    (downloadItem disk now item s).q.results j = s.q.results j := by
  by_cases hj : item.jobId = j
  · obtain ⟨h1, h2⟩ := h hj
    have hm : (if disk.existsSync (pathJoin item.downloadPath item.username) = true then none
        else disk.mkdirError (pathJoin item.downloadPath item.username)) = none := by
      rcases h1 with h1 | h1
      · simp [h1]
      · simp [h1]
    unfold downloadItem
    simp only [hm, h2]
    rfl
  · unfold downloadItem
    simp only
    split
    · rw [(finishFailed_results _ _ _ _).2 j (fun hh => hj hh.symm)]
    · split
      · rw [(finishCompleted_results _ _ _ _).2 j (fun hh => hj hh.symm)]
      · rfl

theorem processLoop_totals (disk : Disk) (now : Int) (l : List QueueItem) (s : QueueSystem) :
    (processLoop disk now l s).totals = s.totals ∧
    (processLoop disk now l s).q.jobCounter = s.q.jobCounter := by
  induction l generalizing s with
  | nil => exact ⟨rfl, rfl⟩
  | cons item rest ih =>
    unfold processLoop
    split
    · obtain ⟨i1, i2⟩ := ih (downloadItem disk now item
        { s with q := { s.q with queue := rest, activeDownloads := s.q.activeDownloads + 1 } })
      rw [i1, i2, downloadItem_totals, (downloadItem_q _ _ _ _).2.2.1]
      exact ⟨rfl, rfl⟩
    · exact ⟨rfl, rfl⟩

theorem processLoop_untouched (disk : Disk) (now : Int) (l : List QueueItem) (s : QueueSystem)
    (j : JobId) (h : ∀ item ∈ l, item.jobId = j → disk.suspends item) :
    (processLoop disk now l s).q.results j = s.q.results j := by
  induction l generalizing s with
  | nil => rfl
  | cons item rest ih =>
    unfold processLoop
    split
    · rw [ih _ (fun it hit => h it (List.mem_cons_of_mem _ hit)),
        downloadItem_untouched disk now item _ j (h item (List.mem_cons_self _ _))]
    · rfl

theorem taskResumes_totals (now : Int) (i : Nat) (o : FetchOutcome) (s : QueueSystem) :
    (taskResumes now i o s).totals = s.totals ∧
    (taskResumes now i o s).q.jobCounter = s.q.jobCounter := by
  unfold taskResumes
  split
  · exact ⟨rfl, rfl⟩
  · simp only
    cases o with
    | saved =>
      simp only
      rw [(finishCompleted_results _ _ _ _).1, (settle_checkJobComplete_q _ _ _).2.2.1,
        (recordCompleted_q _ _ _).2.2.1]
      exact ⟨rfl, rfl⟩
    | importFails m =>
      simp only
      rw [(finishFailed_results _ _ _ _).1, (settle_checkJobComplete_q _ _ _).2.2.1,
        (recordFailed_q _ _ _).2.2.1]
      exact ⟨rfl, rfl⟩
    | fetchFails m =>
      simp only
      rw [(finishFailed_results _ _ _ _).1, (settle_checkJobComplete_q _ _ _).2.2.1,
        (recordFailed_q _ _ _).2.2.1]
      exact ⟨rfl, rfl⟩
    | writeFails m =>
      simp only
      rw [(finishFailed_results _ _ _ _).1, (settle_checkJobComplete_q _ _ _).2.2.1,
        (recordFailed_q _ _ _).2.2.1]
      exact ⟨rfl, rfl⟩

theorem finallyRuns_totals (disk : Disk) (now : Int) (s : QueueSystem) :
    (finallyRuns disk now s).totals = s.totals ∧
    (finallyRuns disk now s).q.jobCounter = s.q.jobCounter := by
  unfold finallyRuns
  split
  · exact ⟨rfl, rfl⟩
  · unfold processQueue
    obtain ⟨i1, i2⟩ := processLoop_totals disk now s.q.queue
      { s with settled := s.settled - 1, q := { s.q with activeDownloads := s.q.activeDownloads - 1 } }
    exact ⟨i1, i2⟩

theorem addBatch_totals (defaultFolder : String) (disk : Disk) (now : Int) (items : List MediaItem)
    (username downloadPath : String) (s : QueueSystem) (j : JobId) :
    (addBatch defaultFolder disk now items username downloadPath s).1.totals j
      = (if j = nextJobId s now then some items.length else s.totals j) ∧
    (addBatch defaultFolder disk now items username downloadPath s).1.q.jobCounter
      = s.q.jobCounter + 1 := by
  rw [(addBatch_eq defaultFolder disk now items username downloadPath s).1]
  unfold processQueue
  obtain ⟨i1, i2⟩ := processLoop_totals disk now
    (s.q.queue ++ items.map
      (toQueueItem (nextJobId s now) username (baseFolder defaultFolder downloadPath)))
    { s with q := { s.q with
        jobCounter := s.q.jobCounter + 1,
        results := s.q.results.set (nextJobId s now)
          (newJob items.length (baseFolder defaultFolder downloadPath)),
        queue := s.q.queue ++ items.map
          (toQueueItem (nextJobId s now) username (baseFolder defaultFolder downloadPath)) } }
  refine ⟨?_, i2⟩
  show (processLoop disk now _ _).totals j = _
  rw [i1]
  unfold totals
  by_cases hj : j = nextJobId s now
  · simp [hj, JobTable.set_same, newJob]
  · simp [hj, JobTable.set_other _ _ _ _ hj]

end QueueSystem

/-- C9 (counterexample): addBatch with one item whose target file exists. The
task runs up to its first await inside addBatch, so when addBatch returns the
record already has completed = 1 and status complete. -/
theorem C9_counterexample :
    ∃ r, ((QueueSystem.init).addBatch "D" fullDisk 5 [sampleItem 1] "bob" "").1.getStatus
        ((QueueSystem.init).addBatch "D" fullDisk 5 [sampleItem 1] "bob" "").2 = some r ∧
      r.status = .complete ∧ r.completed = 1 ∧
      ¬ (r.status = .processing ∧ r.completed = 0 ∧ r.failed = 0 ∧ r.total = 1) :=
  ⟨_, rfl, by decide, by decide, by decide⟩

namespace QueueSystem

theorem processLoop_untouched_take (disk : Disk) (now : Int) (l : List QueueItem) (s : QueueSystem)
    (j : JobId) (hq : s.q.queue = l)
    (h : ∀ item ∈ l.take s.dispatchCount, item.jobId = j → disk.suspends item) :
    (processLoop disk now l s).q.results j = s.q.results j := by
  induction l generalizing s with
  | nil => rfl
  | cons item rest ih =>
    unfold processLoop
    split
    · rename_i ha
      obtain ⟨d1, d2, _, _⟩ := downloadItem_q disk now item
        { s with q := { s.q with queue := rest, activeDownloads := s.q.activeDownloads + 1 } }
      have hk : s.dispatchCount =
          (downloadItem disk now item
            { s with q := { s.q with queue := rest,
                                     activeDownloads := s.q.activeDownloads + 1 } }).dispatchCount + 1 := by
        unfold dispatchCount
        rw [d1, d2, hq]
        simp only [List.length_cons]
        unfold MAX_CONCURRENT at ha ⊢
        omega
      rw [hk, List.take_succ_cons] at h
      rw [ih _ d1 (fun it hit => h it (List.mem_cons_of_mem _ hit)),
        downloadItem_untouched disk now item _ j (h item (List.mem_cons_self _ _))]
    · rfl

end QueueSystem

/-- C9 (amended): for every reachable state, list of items, group key and
destination, when addBatch returns the record stored under the returned job
id exists and has total = items.length; and it is the record addBatch
created (status processing, completed = 0, failed = 0, no item results) when
every task of the batch started within the call reaches its first await:
each batch item among the first MAX_CONCURRENT - activeDownloads entries of
the queue has a user folder that exists or can be created, and a target file
that does not exist. -/
theorem C9_record_when_addBatch_returns (defaultFolder : String) (events : List QueueEvent)
    (disk : Disk) (now : Int) (items : List MediaItem) (username downloadPath : String)
    (s1 : QueueSystem) (jobId : JobId)
    (hsubmit : (QueueSystem.run defaultFolder events).addBatch defaultFolder disk now items
      username downloadPath = (s1, jobId)) :
    (∃ r, s1.getStatus jobId = some r ∧ r.total = items.length) ∧
    ((∀ item ∈ ((QueueSystem.run defaultFolder events).q.queue ++ items.map
          (QueueSystem.toQueueItem jobId username
            (QueueSystem.baseFolder defaultFolder downloadPath))).take
          (MAX_CONCURRENT - (QueueSystem.run defaultFolder events).q.activeDownloads).toNat,
        item.jobId = jobId → disk.suspends item) →
      s1.getStatus jobId = some
        { status := .processing, total := items.length, completed := 0, failed := 0, items := [],
          downloadPath := QueueSystem.baseFolder defaultFolder downloadPath,
          completedAt := none }) := by
  obtain ⟨e1, e2⟩ := QueueSystem.addBatch_eq defaultFolder disk now items username downloadPath
    (QueueSystem.run defaultFolder events)
  have ht := (QueueSystem.addBatch_totals defaultFolder disk now items username downloadPath
    (QueueSystem.run defaultFolder events)
    (QueueSystem.nextJobId (QueueSystem.run defaultFolder events) now)).1
  rw [if_pos rfl] at ht
  rw [hsubmit] at e1 e2 ht
  simp only at e1 e2 ht
  rw [← e2] at e1 ht
  constructor
  · unfold QueueSystem.totals at ht
    unfold QueueSystem.getStatus
    cases hr : s1.q.results jobId with
    | none => rw [hr] at ht; simp at ht
    | some r =>
      rw [hr] at ht
      simp at ht
      exact ⟨r, rfl, ht⟩
  · intro hs
    rw [e1]
    unfold QueueSystem.getStatus QueueSystem.processQueue
    rw [QueueSystem.processLoop_untouched_take _ _ _ _ _ rfl]
    · show JobTable.set _ _ _ _ = _
      rw [JobTable.set_same]
      rfl
    · intro it hit hj
      refine hs it ?_ hj
      refine List.take_subset_take_left _ ?_ hit
      unfold QueueSystem.dispatchCount
      exact Nat.min_le_right _ _

/-- C9 (witness): seven items submitted on an empty disk: the record returned
is the one addBatch created. -/
theorem C9_record_when_addBatch_returns_witness :
    ((QueueSystem.run "D" []).addBatch "D" emptyDisk 5 (List.map sampleItem (List.range 7))
        "bob" "").1.getStatus ⟨1, 5⟩
    = some
      { status := .processing, total := (List.map sampleItem (List.range 7)).length,
        completed := 0, failed := 0, items := [],
        downloadPath := QueueSystem.baseFolder "D" "", completedAt := none } :=
  (C9_record_when_addBatch_returns "D" [] emptyDisk 5 (List.map sampleItem (List.range 7))
    "bob" "" _ ⟨1, 5⟩ rfl).2 (fun _ _ _ => ⟨Or.inr rfl, rfl⟩)

namespace QueueSystem

theorem timerFires_totals (i : Nat) (s : QueueSystem) (j : JobId) :
    ((timerFires i s).totals j = s.totals j ∨ (timerFires i s).totals j = none) ∧
    (timerFires i s).q.jobCounter = s.q.jobCounter := by
  unfold timerFires
  split
  · exact ⟨Or.inl rfl, rfl⟩
  · rename_i j0 _
    refine ⟨?_, rfl⟩
    unfold totals
    by_cases hj : j = j0
    · right; simp [JobTable.delete, hj]
    · left; simp [JobTable.delete, hj]

/-- One event keeps the total of a job created earlier, as long as the job is
in the table; only a clean-up timer removes a job. -/
theorem step_totals (defaultFolder : String) (s : QueueSystem) (e : QueueEvent) (j : JobId)
    (n : Nat) (hc : j.counter ≤ s.q.jobCounter) :
    j.counter ≤ (step defaultFolder s e).q.jobCounter ∧
    ((s.totals j = some n ∨ s.totals j = none) →
      ((step defaultFolder s e).totals j = some n ∨ (step defaultFolder s e).totals j = none)) ∧
    (e.isTimer = false → s.totals j = some n → (step defaultFolder s e).totals j = some n) := by
  cases e with
  | addBatch disk now items username downloadPath =>
    obtain ⟨t1, t2⟩ := addBatch_totals defaultFolder disk now items username downloadPath s j
    have hj : j ≠ nextJobId s now := by
      intro hh
      rw [hh] at hc
      simp [nextJobId] at hc
    rw [if_neg hj] at t1
    show j.counter ≤ (addBatch defaultFolder disk now items username downloadPath s).1.q.jobCounter ∧
      (_ → ((addBatch defaultFolder disk now items username downloadPath s).1.totals j = some n ∨
        (addBatch defaultFolder disk now items username downloadPath s).1.totals j = none)) ∧
      (_ → _ → (addBatch defaultFolder disk now items username downloadPath s).1.totals j = some n)
    rw [t1, t2]
    exact ⟨by omega, id, fun _ h => h⟩
  | taskResumes now i o =>
    obtain ⟨t1, t2⟩ := taskResumes_totals now i o s
    show j.counter ≤ (taskResumes now i o s).q.jobCounter ∧
      (_ → ((taskResumes now i o s).totals j = some n ∨ (taskResumes now i o s).totals j = none)) ∧
      (_ → _ → (taskResumes now i o s).totals j = some n)
    rw [t1, t2]
    exact ⟨hc, id, fun _ h => h⟩
  | finallyRuns disk now =>
    obtain ⟨t1, t2⟩ := finallyRuns_totals disk now s
    show j.counter ≤ (finallyRuns disk now s).q.jobCounter ∧
      (_ → ((finallyRuns disk now s).totals j = some n ∨ (finallyRuns disk now s).totals j = none)) ∧
      (_ → _ → (finallyRuns disk now s).totals j = some n)
    rw [t1, t2]
    exact ⟨hc, id, fun _ h => h⟩
  | timerFires i =>
    obtain ⟨t1, t2⟩ := timerFires_totals i s j
    show j.counter ≤ (timerFires i s).q.jobCounter ∧
      (_ → ((timerFires i s).totals j = some n ∨ (timerFires i s).totals j = none)) ∧
      (_ → _ → (timerFires i s).totals j = some n)
    rw [t2]
    refine ⟨hc, ?_, ?_⟩
    · intro h
      rcases t1 with t1 | t1
      · rw [t1]; exact h
      · exact Or.inr t1
    · intro h
      simp [QueueEvent.isTimer] at h

theorem runFrom_totals (defaultFolder : String) (events : List QueueEvent) (s : QueueSystem)
    (j : JobId) (n : Nat) (hc : j.counter ≤ s.q.jobCounter) (ht : s.totals j = some n) :
    ((runFrom defaultFolder s events).totals j = some n ∨
      (runFrom defaultFolder s events).totals j = none) ∧
    ((∀ e ∈ events, e.isTimer = false) → (runFrom defaultFolder s events).totals j = some n) := by
  have gen : ∀ (events : List QueueEvent) (s : QueueSystem), j.counter ≤ s.q.jobCounter →
      ((s.totals j = some n ∨ s.totals j = none) →
        ((runFrom defaultFolder s events).totals j = some n ∨
          (runFrom defaultFolder s events).totals j = none)) ∧
      ((∀ e ∈ events, e.isTimer = false) → s.totals j = some n →
        (runFrom defaultFolder s events).totals j = some n) := by
    intro events
    induction events with
    | nil => intro s _; exact ⟨id, fun _ h => h⟩
    | cons e rest ih =>
      intro s hc
      obtain ⟨s1, s2, s3⟩ := step_totals defaultFolder s e j n hc
      obtain ⟨i1, i2⟩ := ih (step defaultFolder s e) s1
      constructor
      · intro h
        exact i1 (s2 h)
      · intro hne h
        exact i2 (fun e1 he1 => hne e1 (List.mem_cons_of_mem _ he1))
          (s3 (hne e (List.mem_cons_self _ _)) h)
  exact ⟨(gen events s hc).1 (Or.inl ht), fun hne => (gen events s hc).2 hne ht⟩

end QueueSystem

theorem otherResults_add_failedResults (l : List ItemResult) :
    otherResults l + failedResults l = l.length := by
  unfold otherResults failedResults
  rw [List.length_eq_countP_add_countP (fun e => decide (e.status = .failed)) l]
  have : (fun (e : ItemResult) => !decide (e.status = .failed))
      = (fun e => decide ¬ (decide (e.status = .failed)) = true) := by
    funext e
    simp
  rw [this]
  omega

namespace QueueSystem

theorem finishCompleted_failedOf (s : QueueSystem) (jobId : JobId) (now : Int) (entry : ItemResult) :
    (settle (checkJobComplete (recordCompleted s jobId entry) jobId now)).failedOf = s.failedOf := by
  cases hr : s.q.results jobId with
  | none =>
    have e1 : recordCompleted s jobId entry = s := by simp [recordCompleted, hr]
    have e2 : checkJobComplete s jobId now = s := by simp [checkJobComplete, hr]
    rw [e1, e2]
    rfl
  | some r =>
    obtain ⟨_, _, _, _, _, _, f7, _⟩ := finishCompleted_fields s jobId now entry r hr
    obtain ⟨_, _, cf, _⟩ := closeIfDone_fields now
      { r with completed := r.completed + 1, items := r.items ++ [entry] }
    funext j
    unfold failedOf
    rw [f7]
    by_cases hj : j = jobId
    · subst hj
      rw [JobTable.set_same, hr]
      simp [cf]
    · rw [JobTable.set_other _ _ _ _ hj]

theorem finishFailed_failedOf (s : QueueSystem) (jobId : JobId) (now : Int) (entry : ItemResult)
    (j : JobId) :
    (settle (checkJobComplete (recordFailed s jobId entry) jobId now)).failedOf j
      = (s.failedOf j).map (fun f => f + if j = jobId then 1 else 0) := by
  cases hr : s.q.results jobId with
  | none =>
    have e1 : recordFailed s jobId entry = s := by simp [recordFailed, hr]
    have e2 : checkJobComplete s jobId now = s := by simp [checkJobComplete, hr]
    rw [e1, e2]
    show s.failedOf j = _
    unfold failedOf
    by_cases hj : j = jobId
    · subst hj
      simp [hr]
    · simp only [if_neg hj, Nat.add_zero]
      cases s.q.results j <;> rfl
  | some r =>
    obtain ⟨_, _, _, _, _, _, f7, _⟩ := finishFailed_fields s jobId now entry r hr
    obtain ⟨_, _, cf, _⟩ := closeIfDone_fields now
      { r with failed := r.failed + 1, items := r.items ++ [entry] }
    unfold failedOf
    rw [f7]
    by_cases hj : j = jobId
    · subst hj
      rw [JobTable.set_same, hr]
      simp [cf]
    · rw [JobTable.set_other _ _ _ _ hj]
      simp only [if_neg hj, Nat.add_zero]
      cases s.q.results j <;> rfl

theorem failing_nil (fails : QueueItem → Bool) (j : JobId) : failing fails j [] = 0 := rfl

theorem failing_cons (fails : QueueItem → Bool) (j : JobId) (a : QueueItem) (l : List QueueItem) :
    failing fails j (a :: l)
      = failing fails j l + (if a.jobId = j ∧ fails a = true then 1 else 0) := by
  unfold failing
  rw [List.countP_cons]
  simp

theorem failing_append (fails : QueueItem → Bool) (j : JobId) (l1 l2 : List QueueItem) :
    failing fails j (l1 ++ l2) = failing fails j l1 + failing fails j l2 := by
  unfold failing
  rw [List.countP_append]

theorem FailInv.completedTask {fails : QueueItem → Bool} {j : JobId} {n : Nat}
    {s : QueueSystem} {item : QueueItem} (now : Int) (entry : ItemResult)
    (h : FailInv fails j n [item] s) (hf : item.jobId = j → fails item = false) :
    FailInv fails j n []
      (settle (checkJobComplete (recordCompleted s item.jobId entry) item.jobId now)) := by
  obtain ⟨a1, _, a3, _, a5⟩ := settle_checkJobComplete_q
    (recordCompleted s item.jobId entry) item.jobId now
  obtain ⟨b1, _, b3, _, b5⟩ := recordCompleted_q s item.jobId entry
  refine ⟨by rw [a3, b3]; exact h.old, ?_⟩
  intro f hf1
  rw [finishCompleted_failedOf] at hf1
  have := h.counted f hf1
  rw [a1, b1, a5, b5, failing_nil]
  rw [failing_cons, failing_nil] at this
  have h0 : ¬ (item.jobId = j ∧ fails item = true) := by
    intro hh
    have := hf hh.1
    rw [hh.2] at this
    exact Bool.noConfusion this
  rw [if_neg h0] at this
  omega

theorem FailInv.failedTask {fails : QueueItem → Bool} {j : JobId} {n : Nat}
    {s : QueueSystem} {item : QueueItem} (now : Int) (entry : ItemResult)
    (h : FailInv fails j n [item] s) (hf : item.jobId = j → fails item = true) :
    FailInv fails j n []
      (settle (checkJobComplete (recordFailed s item.jobId entry) item.jobId now)) := by
  obtain ⟨a1, _, a3, _, a5⟩ := settle_checkJobComplete_q
    (recordFailed s item.jobId entry) item.jobId now
  obtain ⟨b1, _, b3, _, b5⟩ := recordFailed_q s item.jobId entry
  refine ⟨by rw [a3, b3]; exact h.old, ?_⟩
  intro f hf1
  rw [finishFailed_failedOf] at hf1
  cases hs : s.failedOf j with
  | none => rw [hs] at hf1; simp at hf1
  | some f0 =>
    rw [hs] at hf1
    simp only [Option.map_some', Option.some.injEq] at hf1
    have := h.counted f0 hs
    rw [a1, b1, a5, b5, failing_nil]
    rw [failing_cons, failing_nil] at this
    by_cases hj : item.jobId = j
    · have hfi := hf hj
      rw [if_pos ⟨hj, hfi⟩] at this
      rw [if_pos hj.symm] at hf1
      omega
    · rw [if_neg (fun hh => hj hh.1)] at this
      rw [if_neg (fun hh => hj hh.symm)] at hf1
      omega

theorem downloadItem_failInv {fails : QueueItem → Bool} {j : JobId} {n : Nat}
    (disk : Disk) (now : Int) (item : QueueItem) (s : QueueSystem)
    (h : FailInv fails j n [item] s) (hag : item.jobId = j → disk.agrees fails item) :
    FailInv fails j n [] (downloadItem disk now item s) := by
  have h0 : FailInv fails j n [item] { s with effects := s.effects ++ [Effect.taskStarted item] } :=
    ⟨h.old, h.counted⟩
  unfold downloadItem
  simp only
  split
  · rename_i message hm
    refine FailInv.failedTask now _ h0 ?_
    intro hj
    have := hag hj
    unfold Disk.agrees at this
    rw [hm] at this
    exact this
  · rename_i hm
    split
    · rename_i hfile
      refine FailInv.completedTask now _ h0 ?_
      intro hj
      have := hag hj
      unfold Disk.agrees at this
      rw [hm] at this
      exact this hfile
    · refine ⟨h.old, ?_⟩
      intro f hf1
      have := h.counted f hf1
      show failing fails j s.q.queue
        + failing fails j ((s.suspended ++ [_]).map (fun (t : PendingTask) => t.item))
        + failing fails j [] + f = n
      rw [List.map_append, failing_append]
      simp only [List.map_cons, List.map_nil]
      rw [failing_nil]
      omega

end QueueSystem

namespace QueueSystem

theorem processLoop_failInv {fails : QueueItem → Bool} {j : JobId} {n : Nat}
    (disk : Disk) (now : Int) (l : List QueueItem) (s : QueueSystem) (hq : s.q.queue = l)
    (h : FailInv fails j n [] s) (hag : ∀ item, item.jobId = j → disk.agrees fails item) :
    FailInv fails j n [] (processLoop disk now l s) := by
  induction l generalizing s with
  | nil => exact h
  | cons item rest ih =>
    unfold processLoop
    split
    · apply ih
      · rw [(downloadItem_q disk now item _).1]
      · apply downloadItem_failInv disk now item _ _ (hag item)
        refine ⟨h.old, ?_⟩
        intro f hf
        have := h.counted f hf
        rw [hq, failing_cons, failing_nil] at this
        show failing fails j rest + failing fails j (s.suspended.map (fun t => t.item))
          + failing fails j [item] + f = n
        rw [failing_cons, failing_nil]
        omega
    · exact h

theorem failing_eraseIdx (fails : QueueItem → Bool) (j : JobId) (l : List PendingTask) (i : Nat)
    (t : PendingTask) (h : l[i]? = some t) :
    failing fails j ((l.eraseIdx i).map (fun t => t.item)) + failing fails j [t.item]
      = failing fails j (l.map (fun t => t.item)) := by
  have := countP_eraseIdx_add (fun (t : PendingTask) => decide (t.item.jobId = j) && fails t.item)
    l i t h
  unfold failing
  rw [List.countP_map, List.countP_map, List.countP_cons, List.countP_nil]
  simp only [Function.comp_def]
  simp only at this
  omega

theorem taskResumes_failInv {fails : QueueItem → Bool} {j : JobId} {n : Nat}
    (now : Int) (i : Nat) (o : FetchOutcome) (s : QueueSystem) (h : FailInv fails j n [] s)
    (hag : ∀ t, s.suspended[i]? = some t → t.item.jobId = j → fails t.item = o.isFailure) :
    FailInv fails j n [] (taskResumes now i o s) := by
  unfold taskResumes
  split
  · exact h
  · rename_i t ht
    have h0 : FailInv fails j n [t.item]
        { s with suspended := s.suspended.eraseIdx i, effects := s.effects ++ outcomeEffects t o } := by
      refine ⟨h.old, ?_⟩
      intro f hf
      have := h.counted f hf
      have e := failing_eraseIdx fails j s.suspended i t ht
      rw [failing_nil] at this
      show failing fails j s.q.queue + failing fails j ((s.suspended.eraseIdx i).map (fun t => t.item))
        + failing fails j [t.item] + f = n
      omega
    have hfa := hag t ht
    simp only
    cases o with
    | saved => exact FailInv.completedTask now _ h0 (fun hj => by rw [hfa hj]; rfl)
    | importFails m => exact FailInv.failedTask now _ h0 (fun hj => by rw [hfa hj]; rfl)
    | fetchFails m => exact FailInv.failedTask now _ h0 (fun hj => by rw [hfa hj]; rfl)
    | writeFails m => exact FailInv.failedTask now _ h0 (fun hj => by rw [hfa hj]; rfl)

theorem finallyRuns_failInv {fails : QueueItem → Bool} {j : JobId} {n : Nat}
    (disk : Disk) (now : Int) (s : QueueSystem) (h : FailInv fails j n [] s)
    (hag : ∀ item, item.jobId = j → disk.agrees fails item) :
    FailInv fails j n [] (finallyRuns disk now s) := by
  unfold finallyRuns
  split
  · exact h
  · exact processLoop_failInv disk now s.q.queue _ rfl ⟨h.old, h.counted⟩ hag

theorem timerFires_failInv {fails : QueueItem → Bool} {j : JobId} {n : Nat}
    (i : Nat) (s : QueueSystem) (h : FailInv fails j n [] s) :
    FailInv fails j n [] (timerFires i s) := by
  unfold timerFires
  split
  · exact h
  · rename_i j0 _
    refine ⟨h.old, ?_⟩
    intro f hf
    apply h.counted f
    unfold failedOf at hf ⊢
    by_cases hj : j = j0
    · simp [JobTable.delete, hj] at hf
    · simpa [JobTable.delete, hj] using hf

theorem failing_other (fails : QueueItem → Bool) (j : JobId) (l : List QueueItem)
    (h : ∀ item ∈ l, item.jobId ≠ j) : failing fails j l = 0 := by
  unfold failing
  rw [List.countP_eq_zero]
  intro item hi
  simp [h item hi]

theorem addBatch_failInv {fails : QueueItem → Bool} {j : JobId} {n : Nat}
    (defaultFolder : String) (disk : Disk) (now : Int) (items : List MediaItem)
    (username downloadPath : String) (s : QueueSystem) (h : FailInv fails j n [] s)
    (hag : ∀ item, item.jobId = j → disk.agrees fails item) :
    FailInv fails j n [] (addBatch defaultFolder disk now items username downloadPath s).1 := by
  rw [(addBatch_eq defaultFolder disk now items username downloadPath s).1]
  have hj : j ≠ nextJobId s now := by
    intro hh
    have := h.old
    rw [hh] at this
    simp [nextJobId] at this
  apply processLoop_failInv disk now _ _ rfl _ hag
  refine ⟨Nat.le_succ_of_le h.old, ?_⟩
  intro f hf
  have hf0 : s.failedOf j = some f := by
    unfold failedOf at hf ⊢
    simpa [JobTable.set_other _ _ _ _ hj] using hf
  have := h.counted f hf0
  show failing fails j (s.q.queue ++ items.map _) + _ + _ + f = n
  rw [failing_append, failing_other fails j (items.map _)]
  · exact this
  · intro item hi
    rw [List.mem_map] at hi
    obtain ⟨a, _, ha⟩ := hi
    rw [← ha]
    exact fun hh => hj hh.symm

theorem runFrom_failInv {fails : QueueItem → Bool} {j : JobId} {n : Nat}
    (defaultFolder : String) (events : List QueueEvent) (s : QueueSystem)
    (h : FailInv fails j n [] s) (hc : Consistent defaultFolder fails j s events) :
    FailInv fails j n [] (runFrom defaultFolder s events) := by
  induction events generalizing s with
  | nil => exact h
  | cons e rest ih =>
    obtain ⟨hag, hrest⟩ := hc
    apply ih _ _ hrest
    cases e with
    | addBatch disk now items username downloadPath =>
      exact addBatch_failInv defaultFolder disk now items username downloadPath s h hag
    | taskResumes now i o => exact taskResumes_failInv now i o s h hag
    | finallyRuns disk now => exact finallyRuns_failInv disk now s h hag
    | timerFires i => exact timerFires_failInv i s h

/-- A batch just submitted: its failures are all still to come. -/
theorem addBatch_failInv_new (fails : QueueItem → Bool)
    (defaultFolder : String) (disk : Disk) (now : Int) (items : List MediaItem)
    (username downloadPath : String) (s : QueueSystem) (h : Inv [] s)
    (hag : ∀ item, item.jobId = nextJobId s now → disk.agrees fails item) :
    FailInv fails (nextJobId s now)
      (failing fails (nextJobId s now)
        (items.map (toQueueItem (nextJobId s now) username (baseFolder defaultFolder downloadPath))))
      [] (addBatch defaultFolder disk now items username downloadPath s).1 := by
  rw [(addBatch_eq defaultFolder disk now items username downloadPath s).1]
  have hnew : ∀ r, s.q.results (nextJobId s now) ≠ some r := by
    intro r hr
    have := h.table_fresh _ r hr
    simp [nextJobId] at this
  apply processLoop_failInv disk now _ _ rfl _ hag
  refine ⟨by simp [nextJobId], ?_⟩
  intro f hf
  have hf0 : f = 0 := by
    unfold failedOf at hf
    simp [JobTable.set_same, newJob] at hf
    exact hf.symm
  show failing fails _ (s.q.queue ++ items.map _)
    + failing fails _ (s.suspended.map (fun t => t.item)) + failing fails _ [] + f = _
  rw [failing_append, failing_nil, hf0, failing_other fails _ s.q.queue,
    failing_other fails _ (s.suspended.map (fun t => t.item))]
  · omega
  · intro item hi
    rw [List.mem_map] at hi
    obtain ⟨t, ht, hti⟩ := hi
    intro hh
    obtain ⟨r0, hr0⟩ := Option.isSome_iff_exists.mp (h.running_present t ht)
    rw [hti, hh] at hr0
    exact hnew r0 hr0
  · intro item hi hh
    obtain ⟨r0, hr0⟩ := Option.isSome_iff_exists.mp (h.queue_present item hi)
    rw [hh] at hr0
    exact hnew r0 hr0

end QueueSystem

theorem agrees_taskResumes (fails : QueueItem → Bool) (j : JobId) (s : QueueSystem) (now : Int)
    (i : Nat) (o : FetchOutcome)
    (h : (s.suspended[i]?).all (fun t => fails t.item == o.isFailure) = true) :
    (QueueEvent.taskResumes now i o).agrees fails j s := by
  intro t ht _
  rw [ht] at h
  simpa using h

theorem agrees_emptyDisk (fails : QueueItem → Bool) (item : QueueItem) :
    emptyDisk.agrees fails item := by
  unfold Disk.agrees
  simp [emptyDisk]

theorem failing_map_toQueueItem (fails : QueueItem → Bool) (j : JobId) (username folder : String)
    (items : List MediaItem) :
    failing fails j (items.map (QueueSystem.toQueueItem j username folder))
      = items.countP (fun it => fails (QueueSystem.toQueueItem j username folder it)) := by
  unfold failing
  rw [List.countP_map]
  congr 1
  funext it
  simp [QueueSystem.toQueueItem]

/-- C7: submit a batch of n >= 1 items in any reachable state and let any
events follow (tasks ending with any outcome, finally callbacks, further
batches, clean-up timers). Once the queue is empty and activeDownloads = 0:
(1) the job record, as long as it is in the table, has status complete,
total = n, completed + failed = n, one item result per item, failed = the
number of item results with status failed and completed = the number of the
others; (2) the record is in the table when no clean-up timer has fired;
(3) for every assignment of an outcome to each item which the tasks of the
job follow (a task fails when its folder cannot be created or its fetch or
write fails, and does not when its file exists or is saved), failed is the
number of items assigned a failure and completed the number of the others;
(4) five items on an empty disk of which only the third fetch fails give
completed = 4, failed = 1, status complete. -/
theorem C7_partial_failure_completes (defaultFolder : String) (pre post : List QueueEvent)
    (disk : Disk) (now : Int) (items : List MediaItem) (username downloadPath : String)
    (s1 s2 : QueueSystem) (jobId : JobId)
    (hsubmit : (QueueSystem.run defaultFolder pre).addBatch defaultFolder disk now items
      username downloadPath = (s1, jobId))
    (hrun : QueueSystem.runFrom defaultFolder s1 post = s2)
    (hn : 0 < items.length) (hq : s2.q.queue = []) (ha : s2.q.activeDownloads = 0) :
    (∀ r, s2.getStatus jobId = some r →
      r.status = .complete ∧ r.total = items.length ∧
      r.completed + r.failed = items.length ∧ r.items.length = items.length ∧
      r.failed = failedResults r.items ∧ r.completed = otherResults r.items) ∧
    ((∀ e ∈ post, e.isTimer = false) → (s2.getStatus jobId).isSome = true) ∧
    (∀ fails : QueueItem → Bool,
      (∀ item, item.jobId = jobId → disk.agrees fails item) →
      QueueSystem.Consistent defaultFolder fails jobId s1 post →
      ∀ r, s2.getStatus jobId = some r →
        r.failed = items.countP (fun it => fails
          (QueueSystem.toQueueItem jobId username
            (QueueSystem.baseFolder defaultFolder downloadPath) it)) ∧
        r.completed = items.countP (fun it => !fails
          (QueueSystem.toQueueItem jobId username
            (QueueSystem.baseFolder defaultFolder downloadPath) it))) ∧
    (∃ r, (QueueSystem.runFrom "D"
        ((QueueSystem.init).addBatch "D" emptyDisk 5 (List.map sampleItem (List.range 5))
          "bob" "").1 thirdOfFiveFails).getStatus ⟨1, 5⟩ = some r ∧
      r.completed = 4 ∧ r.failed = 1 ∧ r.status = .complete ∧
      r.items.map (fun e => e.status) = [.success, .success, .failed, .success, .success]) := by
  have h0 := QueueSystem.run_inv defaultFolder pre
  have h1 := QueueSystem.addBatch_inv defaultFolder disk now items username downloadPath _ h0
  obtain ⟨_, e2⟩ := QueueSystem.addBatch_eq defaultFolder disk now items username downloadPath
    (QueueSystem.run defaultFolder pre)
  obtain ⟨t1, t2⟩ := QueueSystem.addBatch_totals defaultFolder disk now items username downloadPath
    (QueueSystem.run defaultFolder pre) (QueueSystem.nextJobId (QueueSystem.run defaultFolder pre) now)
  rw [if_pos rfl] at t1
  rw [hsubmit] at h1 e2 t1 t2
  simp only at h1 e2 t1 t2
  have h2 := QueueSystem.runFrom_inv defaultFolder post _ h1
  obtain ⟨k1, k2⟩ := QueueSystem.runFrom_totals defaultFolder post s1
    (QueueSystem.nextJobId (QueueSystem.run defaultFolder pre) now) items.length
    (by rw [t2]; simp [QueueSystem.nextJobId]) t1
  rw [hrun] at h2 k1 k2
  rw [← e2] at k1 k2
  have main : ∀ r, s2.getStatus jobId = some r →
      r.status = .complete ∧ r.total = items.length ∧
      r.completed + r.failed = items.length ∧ r.items.length = items.length ∧
      r.failed = failedResults r.items ∧ r.completed = otherResults r.items := by
    intro r hr
    have hr1 : s2.q.results jobId = some r := hr
    have htot : r.total = items.length := by
      unfold QueueSystem.totals at k1
      rw [hr1] at k1
      simpa using k1
    have hcons := h2.conserved _ r hr1
    have hact := h2.active_eq
    rw [ha] at hact
    have hsus : s2.suspended = [] := by
      apply List.eq_nil_of_length_eq_zero
      simp only [List.length_nil] at hact
      omega
    have e0 : countJob [] jobId = 0 := rfl
    unfold QueueSystem.queuedOf QueueSystem.runningOf at hcons
    rw [hq, hsus, e0] at hcons
    simp only [List.countP_nil] at hcons
    have hst := (h2.status_ok _ r hr1).2 (by omega) (by omega)
    have hlog := h2.logged _ r hr1
    have hoth := otherResults_add_failedResults r.items
    exact ⟨hst, htot, by omega, by omega, hlog.1, by omega⟩
  refine ⟨main, ?_, ?_, ⟨_, rfl, by decide, by decide, by decide, by decide⟩⟩
  · intro hne
    have := k2 hne
    unfold QueueSystem.totals at this
    unfold QueueSystem.getStatus
    cases hr : s2.q.results jobId with
    | none => rw [hr] at this; simp at this
    | some r => rfl
  · intro fails hdisk hcons r hr
    have f1 := QueueSystem.addBatch_failInv_new fails defaultFolder disk now items username
      downloadPath (QueueSystem.run defaultFolder pre) h0 (by rw [← e2]; exact hdisk)
    rw [hsubmit, ← e2] at f1
    simp only at f1
    have f2 := QueueSystem.runFrom_failInv defaultFolder post s1 f1 hcons
    rw [hrun] at f2
    have hr1 : s2.q.results jobId = some r := hr
    have f3 := f2.counted r.failed (by unfold QueueSystem.failedOf; rw [hr1]; rfl)
    have hact := h2.active_eq
    rw [ha] at hact
    have hsus : s2.suspended = [] := by
      apply List.eq_nil_of_length_eq_zero
      simp only [List.length_nil] at hact
      omega
    rw [hq, hsus] at f3
    simp only [List.map_nil, QueueSystem.failing_nil, failing_map_toQueueItem] at f3
    obtain ⟨_, _, m3, _⟩ := main r hr
    have hsplit := List.length_eq_countP_add_countP
      (fun it => fails (QueueSystem.toQueueItem jobId username
        (QueueSystem.baseFolder defaultFolder downloadPath) it)) items
    have hneg : (fun (it : MediaItem) => !fails (QueueSystem.toQueueItem jobId username
        (QueueSystem.baseFolder defaultFolder downloadPath) it))
        = (fun it => decide ¬ (fails (QueueSystem.toQueueItem jobId username
            (QueueSystem.baseFolder defaultFolder downloadPath) it)) = true) := by
      funext it
      simp
    rw [hneg]
    constructor <;> omega

theorem thirdOfFiveFails_consistent :
    QueueSystem.Consistent "D" (fun q => q.filename == "2.jpg") ⟨1, 5⟩
      ((QueueSystem.run "D" []).addBatch "D" emptyDisk 5 (List.map sampleItem (List.range 5))
        "bob" "").1 thirdOfFiveFails :=
  ⟨agrees_taskResumes _ _ _ _ _ _ (by decide),
    agrees_taskResumes _ _ _ _ _ _ (by decide),
    agrees_taskResumes _ _ _ _ _ _ (by decide),
    agrees_taskResumes _ _ _ _ _ _ (by decide),
    agrees_taskResumes _ _ _ _ _ _ (by decide),
    fun item _ => agrees_emptyDisk _ item, fun item _ => agrees_emptyDisk _ item,
    fun item _ => agrees_emptyDisk _ item, fun item _ => agrees_emptyDisk _ item,
    fun item _ => agrees_emptyDisk _ item, trivial⟩

/-- C7 (witness): the five-item run in which only the third fetch fails. -/
theorem C7_partial_failure_completes_witness :
    ∃ r, (QueueSystem.runFrom "D"
        ((QueueSystem.run "D" []).addBatch "D" emptyDisk 5 (List.map sampleItem (List.range 5))
          "bob" "").1 thirdOfFiveFails).getStatus ⟨1, 5⟩ = some r ∧
      (r.status = .complete ∧ r.total = (List.map sampleItem (List.range 5)).length ∧
        r.completed + r.failed = (List.map sampleItem (List.range 5)).length ∧
        r.items.length = (List.map sampleItem (List.range 5)).length ∧
        r.failed = failedResults r.items ∧ r.completed = otherResults r.items) ∧
      r.failed = (List.map sampleItem (List.range 5)).countP (fun it =>
        (fun (q : QueueItem) => q.filename == "2.jpg")
          (QueueSystem.toQueueItem ⟨1, 5⟩ "bob" (QueueSystem.baseFolder "D" "") it)) :=
  ⟨_, rfl,
    (C7_partial_failure_completes "D" [] thirdOfFiveFails emptyDisk 5
      (List.map sampleItem (List.range 5)) "bob" "" _ _ ⟨1, 5⟩ rfl rfl
      (by decide) rfl (by decide)).1 _ rfl,
    ((C7_partial_failure_completes "D" [] thirdOfFiveFails emptyDisk 5
      (List.map sampleItem (List.range 5)) "bob" "" _ _ ⟨1, 5⟩ rfl rfl
      (by decide) rfl (by decide)).2.2.1 (fun q => q.filename == "2.jpg")
      (fun item _ => agrees_emptyDisk _ item) thirdOfFiveFails_consistent _ rfl).1⟩

/-! ## Scraper: lemmas -/

/-- C13: for every url that `isValidInstagramUrl` rejects, and whatever the
collaborators would answer, `scrapeInstagramPost` returns success false with
code INVALID_URL and an empty log: no attempt, no call to the rate limiter, the
browser pool or the diagnostics recorder, no wait. -/
theorem C13_invalid_url_returns_at_once (world : Nat → AttemptEnv) (url : String)
    (h : isValidInstagramUrl url = false) :
    scrapeInstagramPost world url =
      (.failure "Invalid URL. Please enter a valid Instagram post or reel URL." "INVALID_URL", []) ∧
    attemptsIn (scrapeInstagramPost world url).2 = 0 ∧
    waitsIn (scrapeInstagramPost world url).2 = [] ∧
    callsIn (scrapeInstagramPost world url).2 = [] := by
  have e : scrapeInstagramPost world url =
      (.failure "Invalid URL. Please enter a valid Instagram post or reel URL." "INVALID_URL", []) := by
    unfold scrapeInstagramPost
    simp [h]
  rw [e]
  exact ⟨rfl, rfl, rfl, rfl⟩

/-- C13 (witness): a url of another site. -/
theorem C13_invalid_url_returns_at_once_witness :
    isValidInstagramUrl "https://example.com/p/abc" = false ∧
    ∀ world : Nat → AttemptEnv, scrapeInstagramPost world "https://example.com/p/abc" =
      (.failure "Invalid URL. Please enter a valid Instagram post or reel URL." "INVALID_URL", []) :=
  ⟨by decide, fun world =>
    (C13_invalid_url_returns_at_once world "https://example.com/p/abc" (by decide)).1⟩

theorem attemptsIn_cons_attempt (n : Nat) (log : List RetryStep) :
    attemptsIn (RetryStep.attempt n :: log) = attemptsIn log + 1 := by
  simp [attemptsIn]

theorem attemptsIn_append (l1 l2 : List RetryStep) :
    attemptsIn (l1 ++ l2) = attemptsIn l1 + attemptsIn l2 := by
  simp [attemptsIn]

theorem attemptsIn_calls (calls : List ScraperCall) :
    attemptsIn (calls.map RetryStep.call) = 0 := by
  simp [attemptsIn, List.countP_eq_zero]

theorem waitsIn_cons_attempt (n : Nat) (log : List RetryStep) :
    waitsIn (RetryStep.attempt n :: log) = waitsIn log := by
  simp [waitsIn]

theorem waitsIn_append (l1 l2 : List RetryStep) :
    waitsIn (l1 ++ l2) = waitsIn l1 ++ waitsIn l2 := by
  simp [waitsIn]

theorem waitsIn_calls (calls : List ScraperCall) :
    waitsIn (calls.map RetryStep.call) = [] := by
  simp [waitsIn]

theorem callsIn_cons_attempt (n : Nat) (log : List RetryStep) :
    callsIn (RetryStep.attempt n :: log) = callsIn log := by
  simp [callsIn]

theorem callsIn_append (l1 l2 : List RetryStep) :
    callsIn (l1 ++ l2) = callsIn l1 ++ callsIn l2 := by
  simp [callsIn]

theorem callsIn_calls (calls : List ScraperCall) :
    callsIn (calls.map RetryStep.call) = calls := by
  induction calls with
  | nil => rfl
  | cons c rest ih => simpa [callsIn] using ih

theorem withRetryLoop_ok {E A : Type} (fn : Nat → Except E A × List ScraperCall)
    (maxRetries fuel attempt : Nat) (last : Option E) (value : A)
    (h : (fn attempt).1 = .ok value) :
    withRetryLoop fn maxRetries (fuel + 1) attempt last =
      (.ok value, RetryStep.attempt attempt :: (fn attempt).2.map RetryStep.call) := by
  simp [withRetryLoop, h]

theorem withRetryLoop_error {E A : Type} (fn : Nat → Except E A × List ScraperCall)
    (maxRetries fuel attempt : Nat) (last : Option E) (error : E)
    (h : (fn attempt).1 = .error error) :
    withRetryLoop fn maxRetries (fuel + 1) attempt last =
      ((withRetryLoop fn maxRetries fuel (attempt + 1) (some error)).1,
        RetryStep.attempt attempt :: (fn attempt).2.map RetryStep.call ++
          (if attempt < maxRetries then [RetryStep.wait (RETRY_DELAY_MS * 2 ^ (attempt - 1))] else [])
          ++ (withRetryLoop fn maxRetries fuel (attempt + 1) (some error)).2) := by
  simp [withRetryLoop, h]

theorem withRetryLoop_succeeds {E A : Type} (fn : Nat → Except E A × List ScraperCall)
    (maxRetries k : Nat) (value : A) (hk : (fn k).1 = .ok value) :
    ∀ (fuel attempt : Nat) (last : Option E), attempt ≤ k → k ≤ maxRetries →
      attempt + fuel = maxRetries + 1 →
      (∀ i, attempt ≤ i → i < k → ∃ e, (fn i).1 = .error e) →
      (withRetryLoop fn maxRetries fuel attempt last).1 = .ok value ∧
      attemptsIn (withRetryLoop fn maxRetries fuel attempt last).2 = k + 1 - attempt ∧
      waitsIn (withRetryLoop fn maxRetries fuel attempt last).2
        = (List.range' attempt (k - attempt)).map (fun i => RETRY_DELAY_MS * 2 ^ (i - 1)) ∧
      callsIn (withRetryLoop fn maxRetries fuel attempt last).2
        = (List.range' attempt (k + 1 - attempt)).flatMap (fun i => (fn i).2) := by
  intro fuel
  induction fuel with
  | zero => intro attempt last h1 h2 h3 _; omega
  | succ fuel ih =>
    intro attempt last h1 h2 h3 hfail
    by_cases hak : attempt = k
    · subst hak
      rw [withRetryLoop_ok fn maxRetries fuel attempt last value hk]
      have e1 : attempt + 1 - attempt = 1 := by omega
      simp [attemptsIn_cons_attempt, attemptsIn_calls, waitsIn_cons_attempt, waitsIn_calls,
        callsIn_cons_attempt, callsIn_calls, e1]
    · obtain ⟨e, he⟩ := hfail attempt (le_refl _) (by omega)
      rw [withRetryLoop_error fn maxRetries fuel attempt last e he]
      obtain ⟨i1, i2, i3, i4⟩ := ih (attempt + 1) (some e) (by omega) h2 (by omega)
        (fun i hi1 hi2 => hfail i (by omega) hi2)
      have hlt : attempt < maxRetries := by omega
      have e1 : k - attempt = (k - (attempt + 1)) + 1 := by omega
      have e2 : k + 1 - attempt = (k + 1 - (attempt + 1)) + 1 := by omega
      refine ⟨i1, ?_, ?_, ?_⟩
      · simp only [attemptsIn_cons_attempt, attemptsIn_append, attemptsIn_calls, i2, if_pos hlt]
        simp [attemptsIn]
        omega
      · simp only [waitsIn_cons_attempt, waitsIn_append, waitsIn_calls, i3, if_pos hlt]
        rw [e1, List.range'_succ]
        simp [waitsIn]
      · simp only [callsIn_cons_attempt, callsIn_append, callsIn_calls, i4, if_pos hlt]
        rw [e2, List.range'_succ]
        simp [callsIn]

theorem withRetryLoop_fails {E A : Type} (fn : Nat → Except E A × List ScraperCall)
    (maxRetries : Nat) (err : Nat → E) :
    ∀ (fuel attempt : Nat) (last : Option E), attempt + fuel = maxRetries + 1 →
      (∀ i, attempt ≤ i → i ≤ maxRetries → (fn i).1 = .error (err i)) →
      (withRetryLoop fn maxRetries fuel attempt last).1
        = .error (if fuel = 0 then last else some (err maxRetries)) ∧
      attemptsIn (withRetryLoop fn maxRetries fuel attempt last).2 = fuel ∧
      waitsIn (withRetryLoop fn maxRetries fuel attempt last).2
        = (List.range' attempt (fuel - 1)).map (fun i => RETRY_DELAY_MS * 2 ^ (i - 1)) ∧
      callsIn (withRetryLoop fn maxRetries fuel attempt last).2
        = (List.range' attempt fuel).flatMap (fun i => (fn i).2) := by
  intro fuel
  induction fuel with
  | zero =>
    intro attempt last _ _
    simp [withRetryLoop, attemptsIn, waitsIn, callsIn]
  | succ fuel ih =>
    intro attempt last h3 hfail
    have he := hfail attempt (le_refl _) (by omega)
    rw [withRetryLoop_error fn maxRetries fuel attempt last (err attempt) he]
    obtain ⟨i1, i2, i3, i4⟩ := ih (attempt + 1) (some (err attempt)) (by omega)
      (fun i hi1 hi2 => hfail i (by omega) hi2)
    refine ⟨?_, ?_, ?_, ?_⟩
    · simp only [i1]
      by_cases hf : fuel = 0
      · have : attempt = maxRetries := by omega
        simp [hf, this]
      · simp [hf]
    · simp only [attemptsIn_cons_attempt, attemptsIn_append, attemptsIn_calls, i2]
      split <;> simp [attemptsIn] <;> omega
    · simp only [waitsIn_cons_attempt, waitsIn_append, waitsIn_calls, i3]
      by_cases hf : fuel = 0
      · have : ¬ attempt < maxRetries := by omega
        simp [hf, this, waitsIn]
      · have hlt : attempt < maxRetries := by omega
        have e1 : fuel + 1 - 1 = (fuel - 1) + 1 := by omega
        rw [if_pos hlt, e1, List.range'_succ]
        simp [waitsIn]
    · simp only [callsIn_cons_attempt, callsIn_append, callsIn_calls, i4]
      rw [List.range'_succ]
      split <;> simp [callsIn]

/-- C16: `withRetry(fn, maxRetries)` with maxRetries >= 1. If the k-th call of
`fn` is the first to succeed, k <= maxRetries, it returns that result after
exactly k calls of `fn`, having waited RETRY_DELAY_MS * 2^(i-1) after the
i-th call for i = 1 .. k-1. If the calls 1 .. maxRetries of `fn` all fail, it
throws the error of the last one after exactly maxRetries calls, having
waited RETRY_DELAY_MS * 2^(i-1) after the i-th call for i = 1 .. maxRetries-1
and not after the last one. RETRY_DELAY_MS is 1000. -/
theorem C16_withRetry_backoff {E A : Type} (fn : Nat → Except E A × List ScraperCall)
    (maxRetries : Nat) (hmax : 1 ≤ maxRetries) :
    RETRY_DELAY_MS = 1000 ∧
    (∀ (k : Nat) (value : A), 1 ≤ k → k ≤ maxRetries →
      (∀ i, 1 ≤ i → i < k → ∃ e, (fn i).1 = .error e) → (fn k).1 = .ok value →
      (withRetry fn maxRetries).1 = .ok value ∧
      attemptsIn (withRetry fn maxRetries).2 = k ∧
      waitsIn (withRetry fn maxRetries).2
        = (List.range' 1 (k - 1)).map (fun i => RETRY_DELAY_MS * 2 ^ (i - 1)) ∧
      callsIn (withRetry fn maxRetries).2 = (List.range' 1 k).flatMap (fun i => (fn i).2)) ∧
    (∀ err : Nat → E, (∀ i, 1 ≤ i → i ≤ maxRetries → (fn i).1 = .error (err i)) →
      (withRetry fn maxRetries).1 = .error (some (err maxRetries)) ∧
      attemptsIn (withRetry fn maxRetries).2 = maxRetries ∧
      waitsIn (withRetry fn maxRetries).2
        = (List.range' 1 (maxRetries - 1)).map (fun i => RETRY_DELAY_MS * 2 ^ (i - 1)) ∧
      callsIn (withRetry fn maxRetries).2
        = (List.range' 1 maxRetries).flatMap (fun i => (fn i).2)) := by
  refine ⟨rfl, ?_, ?_⟩
  · intro k value h1 h2 hfail hk
    have := withRetryLoop_succeeds fn maxRetries k value hk maxRetries 1 none h1 h2 (by omega) hfail
    simpa [withRetry] using this
  · intro err hfail
    have := withRetryLoop_fails fn maxRetries err maxRetries 1 none (by omega) hfail
    have h0 : ¬ maxRetries = 0 := by omega
    simpa [withRetry, h0] using this

/-- The first two calls of a function that fails twice, then succeeds. -/
theorem failsTwice_errors :
    (∀ i, 1 ≤ i → i < 3 → ∃ e, ((fun n => if n < 3 then (Except.error "no", [ScraperCall.getPage])
        else (Except.ok n, [])) i : Except String Nat × List ScraperCall).1 = .error e) := by
  intro i h1 h2
  exact ⟨"no", by simp [h2]⟩

/-- C16 (witness): a function that fails twice and then succeeds is called
three times, with waits of 1000 and 2000 ms. -/
theorem C16_withRetry_backoff_witness :
    (1 ≤ 3) ∧
    (withRetry (fun n => if n < 3 then (Except.error "no", [ScraperCall.getPage])
        else (Except.ok n, [])) 3 : Except (Option String) Nat × List RetryStep).1 = .ok 3 ∧
    attemptsIn (withRetry (fun n => if n < 3 then (Except.error "no", [ScraperCall.getPage])
        else (Except.ok n, [])) 3 : Except (Option String) Nat × List RetryStep).2 = 3 ∧
    waitsIn (withRetry (fun n => if n < 3 then (Except.error "no", [ScraperCall.getPage])
        else (Except.ok n, [])) 3 : Except (Option String) Nat × List RetryStep).2 = [1000, 2000] := by
  obtain ⟨_, h, _⟩ := C16_withRetry_backoff
    (fun n => if n < 3 then (Except.error "no", [ScraperCall.getPage]) else (Except.ok n, []))
    3 (by decide)
  obtain ⟨h1, h2, h3, _⟩ := h 3 3 (by decide) (by decide) failsTwice_errors (by simp)
  exact ⟨by decide, h1, h2, by rw [h3]; decide⟩

/-! ## Diagnostics: lemmas -/

namespace ErrorRecovery

theorem checkWarning_valid (html : String) (d : Diagnostic) (w : String) :
    (checkWarning html d w).structureValid = (d.structureValid && !includes html w) := by
  unfold checkWarning
  split <;> simp_all

theorem checkWarning_issues (html : String) (d : Diagnostic) (w : String) (i : String)
    (h : i ∈ d.issues) : i ∈ (checkWarning html d w).issues := by
  unfold checkWarning
  split
  · exact List.mem_append_left _ h
  · exact h

theorem foldl_checkWarning_valid (html : String) (ws : List String) (d : Diagnostic) :
    (ws.foldl (checkWarning html) d).structureValid
      = (d.structureValid && ws.all (fun w => !includes html w)) := by
  induction ws generalizing d with
  | nil => simp
  | cons w rest ih =>
    simp only [List.foldl_cons, ih, checkWarning_valid, List.all_cons, Bool.and_assoc]

theorem checkPostElements_valid (html : String) (d : Diagnostic) :
    (checkPostElements html d).structureValid
      = (d.structureValid && postElements.any (fun el => includes html el)) := by
  have hany : postElements.any (fun el => includes html el) = true ↔
      (postElements.filter (fun el => includes html el)).length ≠ 0 := by
    rw [List.any_eq_true, Ne, List.length_eq_zero, List.filter_eq_nil_iff]
    constructor
    · rintro ⟨x, hx, hi⟩ hall
      exact hall x hx hi
    · intro h
      by_contra hne
      apply h
      intro x hx hi
      exact hne ⟨x, hx, hi⟩
  unfold checkPostElements
  simp only
  split
  · rename_i h0
    have : postElements.any (fun el => includes html el) = false := by
      rw [Bool.eq_false_iff]
      intro ht
      exact (hany.mp ht) h0
    simp [this]
  · rename_i h0
    have : postElements.any (fun el => includes html el) = true := hany.mpr h0
    split <;> simp [this]

theorem checkPostElements_issues (html : String) (d : Diagnostic) (i : String)
    (h : i ∈ d.issues) : i ∈ (checkPostElements html d).issues := by
  unfold checkPostElements
  simp only
  split
  · exact List.mem_append_left _ h
  · split
    · exact List.mem_append_left _ h
    · exact h

theorem checkPostElements_one (html : String) (d : Diagnostic)
    (h : (postElements.filter (fun el => includes html el)).length = 1) :
    "Only 1 post elements found (expected 2+)" ∈ (checkPostElements html d).issues := by
  unfold checkPostElements
  simp only [h]
  have e : "Only " ++ toString 1 ++ " post elements found (expected 2+)"
      = "Only 1 post elements found (expected 2+)" := by decide
  simp [e]

theorem checkMediaElements_valid (html : String) (d : Diagnostic) :
    (checkMediaElements html d).structureValid = d.structureValid := by
  unfold checkMediaElements
  simp only
  split <;> rfl

theorem checkMediaElements_issues (html : String) (d : Diagnostic) (i : String)
    (h : i ∈ d.issues) : i ∈ (checkMediaElements html d).issues := by
  unfold checkMediaElements
  simp only
  split
  · exact List.mem_append_left _ h
  · exact h

theorem checkMediaElements_none (html : String) (d : Diagnostic)
    (h : (mediaElements.filter (fun el => includes html el)).length = 0) :
    "No media URL patterns found in page" ∈ (checkMediaElements html d).issues := by
  unfold checkMediaElements
  simp only [h]
  simp

theorem checkLength_valid (html : String) (d : Diagnostic) :
    (checkLength html d).structureValid = (d.structureValid && decide (5000 ≤ jsLength html)) := by
  unfold checkLength
  split
  · rename_i h
    have : ¬ 5000 ≤ jsLength html := by omega
    simp [this]
  · rename_i h
    have : 5000 ≤ jsLength html := by omega
    simp [this]

theorem checkLength_issues (html : String) (d : Diagnostic) (i : String)
    (h : i ∈ d.issues) : i ∈ (checkLength html d).issues := by
  unfold checkLength
  split
  · exact List.mem_append_left _ h
  · exact h

theorem checkErrorPage_valid (html : String) (d : Diagnostic) :
    (checkErrorPage html d).structureValid
      = (d.structureValid &&
          !(includes html "Page Not Found" || includes html "isn't available")) := by
  unfold checkErrorPage
  split
  · rename_i h
    simp only [h]
    simp
  · rename_i h
    simp only [h]
    simp

theorem checkErrorPage_issues (html : String) (d : Diagnostic) (i : String)
    (h : i ∈ d.issues) : i ∈ (checkErrorPage html d).issues := by
  unfold checkErrorPage
  split
  · exact List.mem_append_left _ h
  · exact h

end ErrorRecovery

/-- C20: for every content string and url, `analyzePage(html, url)` has
structureValid true if and only if html contains none of the three warning
patterns, contains at least one of the four post-structure markers, has
length >= 5000, and contains neither Page Not Found nor isn't available.
Finding exactly one post-structure marker adds the issue Only 1 post elements
found (expected 2+), and finding no media marker adds the issue No media URL
patterns found in page; neither enters the condition for structureValid. -/
theorem C20_structureValid_iff (timestamp html url : String) :
    ((ErrorRecovery.analyzePage timestamp html url).structureValid = true ↔
      ((∀ w ∈ warningPatterns, includes html w = false) ∧
        (∃ el ∈ postElements, includes html el = true) ∧
        5000 ≤ jsLength html ∧
        includes html "Page Not Found" = false ∧ includes html "isn't available" = false)) ∧
    ((postElements.filter (fun el => includes html el)).length = 1 →
      "Only 1 post elements found (expected 2+)"
        ∈ (ErrorRecovery.analyzePage timestamp html url).issues) ∧
    ((mediaElements.filter (fun el => includes html el)).length = 0 →
      "No media URL patterns found in page"
        ∈ (ErrorRecovery.analyzePage timestamp html url).issues) := by
  refine ⟨?_, ?_, ?_⟩
  · unfold ErrorRecovery.analyzePage
    simp only [ErrorRecovery.checkErrorPage_valid, ErrorRecovery.checkLength_valid,
      ErrorRecovery.checkMediaElements_valid, ErrorRecovery.checkPostElements_valid,
      ErrorRecovery.foldl_checkWarning_valid]
    simp only [Bool.true_and, Bool.and_eq_true, List.all_eq_true, List.any_eq_true,
      Bool.not_eq_true', decide_eq_true_eq, Bool.or_eq_false_iff, Bool.not_eq_eq_eq_not,
      Bool.not_true]
    constructor
    · rintro ⟨⟨⟨h1, h2⟩, h3⟩, h4, h5⟩
      exact ⟨h1, h2, h3, h4, h5⟩
    · rintro ⟨h1, h2, h3, h4, h5⟩
      exact ⟨⟨⟨h1, h2⟩, h3⟩, h4, h5⟩
  · intro h
    unfold ErrorRecovery.analyzePage
    exact ErrorRecovery.checkErrorPage_issues _ _ _ (ErrorRecovery.checkLength_issues _ _ _
      (ErrorRecovery.checkMediaElements_issues _ _ _ (ErrorRecovery.checkPostElements_one _ _ h)))
  · intro h
    unfold ErrorRecovery.analyzePage
    exact ErrorRecovery.checkErrorPage_issues _ _ _ (ErrorRecovery.checkLength_issues _ _ _
      (ErrorRecovery.checkMediaElements_none _ _ h))

/-- C20 (witness): a page holding only the marker "owner" gets both soft
issues; it is not valid, being short. -/
theorem C20_structureValid_iff_witness :
    (postElements.filter (fun el => includes "\"owner\"" el)).length = 1 ∧
    "Only 1 post elements found (expected 2+)"
      ∈ (ErrorRecovery.analyzePage "t" "\"owner\"" "u").issues ∧
    (mediaElements.filter (fun el => includes "\"owner\"" el)).length = 0 ∧
    "No media URL patterns found in page"
      ∈ (ErrorRecovery.analyzePage "t" "\"owner\"" "u").issues ∧
    ¬ (5000 ≤ jsLength "\"owner\"") ∧
    (ErrorRecovery.analyzePage "t" "\"owner\"" "u").structureValid = false :=
  ⟨by decide,
    (C20_structureValid_iff "t" "\"owner\"" "u").2.1 (by decide),
    by decide,
    (C20_structureValid_iff "t" "\"owner\"" "u").2.2 (by decide),
    by decide,
    by
      rw [Bool.eq_false_iff]
      intro h
      exact absurd ((C20_structureValid_iff "t" "\"owner\"" "u").1.mp h).2.2.1 (by decide)⟩

theorem releasesIn_append (a b : List ScraperCall) :
    releasesIn (a ++ b) = releasesIn a + releasesIn b := by
  simp [releasesIn]

theorem releasesIn_releasePageCall : releasesIn releasePageCall = 1 := by decide

theorem carouselLoop_releases (budget : Nat) (seen : List String) (slides : List Slide) :
    releasesIn (carouselLoop budget seen slides).2.2 = 0 := by
  induction budget generalizing seen slides with
  | zero => simp [carouselLoop, releasesIn]
  | succ budget ih =>
    cases slides with
    | nil => simp [carouselLoop, releasesIn]
    | cons slide rest =>
      unfold carouselLoop
      split
      · simp [releasesIn]
      · simp [releasesIn]
      · split
        · simp [releasesIn]
        · simp only [releasesIn_append, ih]
          simp [releasesIn]

theorem noMediaExit_releases (env : AttemptEnv) (pageUrl pageContent : String)
    (done : List ScraperCall) :
    (noMediaExit env pageUrl pageContent done).ReleasesAfter done ∧
    (noMediaExit env pageUrl pageContent done).exit = .noMedia ∧
    ∃ m, (noMediaExit env pageUrl pageContent done).outcome = .error m := by
  refine ⟨⟨rfl, ?_⟩, rfl, _, rfl⟩
  simp only [noMediaExit, releasesIn_append, releasesIn_releasePageCall]
  simp [releasesIn]

theorem carouselExit_releases (env : AttemptEnv) (pageUrl pageContent username : String)
    (done : List ScraperCall) :
    (carouselExit env pageUrl pageContent username done).ReleasesAfter done := by
  unfold carouselExit
  split
  · refine ⟨rfl, ?_⟩
    simp [releasesIn_append, releasesIn]
  · simp only
    split
    · refine ⟨rfl, ?_⟩
      simp only [releasesIn_append, carouselLoop_releases]
      simp [releasesIn]
    · split
      · refine ⟨rfl, ?_⟩
        simp only [releasesIn_append, carouselLoop_releases, releasesIn_releasePageCall]
        simp [releasesIn]
      · obtain ⟨⟨h1, h2⟩, _⟩ := noMediaExit_releases env pageUrl pageContent
          (done ++ [ScraperCall.evaluate] ++ (carouselLoop 20 (mergeView [] ‹List Media›).1 env.slides).2.2)
        refine ⟨h1, ?_⟩
        rw [h2]
        simp only [releasesIn_append, carouselLoop_releases]
        simp [releasesIn]

theorem extractExit_releases (env : AttemptEnv) (isReel : Bool) (pageUrl pageContent : String)
    (diagnostic : Diagnostic) (done : List ScraperCall) :
    (extractExit env isReel pageUrl pageContent diagnostic done).ReleasesAfter done := by
  have hd : releasesIn (if (!diagnostic.structureValid) = true then done ++ [ScraperCall.saveDiagnostic]
      else done) = releasesIn done := by
    split <;> simp [releasesIn]
  unfold extractExit
  simp only
  split
  · refine ⟨rfl, ?_⟩
    simp only [releasesIn_append, hd]
    simp [releasesIn]
  · split
    · refine ⟨rfl, ?_⟩
      simp only [releasesIn_append, hd]
      simp [releasesIn]
    · split
      · refine ⟨rfl, ?_⟩
        simp only [releasesIn_append, hd, releasesIn_releasePageCall]
        simp [releasesIn]
      · split
        · obtain ⟨h1, h2⟩ := carouselExit_releases env pageUrl pageContent ‹String›
            ((if (!diagnostic.structureValid) = true then done ++ [ScraperCall.saveDiagnostic]
              else done) ++ [ScraperCall.evaluate, ScraperCall.evaluate])
          refine ⟨h1, ?_⟩
          rw [h2]
          simp only [releasesIn_append, hd]
          simp [releasesIn]
        · obtain ⟨⟨h1, h2⟩, _⟩ := noMediaExit_releases env pageUrl pageContent
            ((if (!diagnostic.structureValid) = true then done ++ [ScraperCall.saveDiagnostic]
              else done) ++ [ScraperCall.evaluate, ScraperCall.evaluate])
          refine ⟨h1, ?_⟩
          rw [h2]
          simp only [releasesIn_append, hd]
          simp [releasesIn]

theorem contentExit_releases (env : AttemptEnv) (shortcode : String) (isReel : Bool)
    (pageContent : String) (done : List ScraperCall) :
    (contentExit env shortcode isReel pageContent done).ReleasesAfter done := by
  unfold contentExit
  simp only
  split
  · refine ⟨rfl, ?_⟩
    simp [releasesIn_append, releasesIn]
  · split
    · refine ⟨rfl, ?_⟩
      simp only [releasesIn_append, releasesIn_releasePageCall]
      simp [releasesIn]
    · split
      · refine ⟨rfl, ?_⟩
        simp only [releasesIn_append, releasesIn_releasePageCall]
        simp [releasesIn]
      · obtain ⟨h1, h2⟩ := extractExit_releases env isReel (postUrl shortcode isReel) pageContent
          (ErrorRecovery.analyzePage env.timestamp pageContent (postUrl shortcode isReel))
          (done ++ [ScraperCall.analyzePage])
        refine ⟨h1, ?_⟩
        rw [h2]
        simp [releasesIn_append, releasesIn]

theorem tryBlock_releases (env : AttemptEnv) (shortcode : String) (isReel : Bool)
    (h : env.getPage = none) : (tryBlock env shortcode isReel).ReleasesAfter [] := by
  unfold tryBlock
  simp only [h]
  split
  · refine ⟨rfl, ?_⟩
    simp [releasesIn]
  · have hd : releasesIn ((if env.cookies > 0 then [ScraperCall.waitForSlot, ScraperCall.getPage]
          ++ [ScraperCall.setCookie] else [ScraperCall.waitForSlot, ScraperCall.getPage])
        ++ [ScraperCall.addJitter 100, ScraperCall.goto (postUrl shortcode isReel)]) = 0 := by
      split <;> simp [releasesIn]
    split
    · refine ⟨rfl, ?_⟩
      simp only [hd]
      simp [releasesIn]
    · split
      · refine ⟨rfl, ?_⟩
        simp only [releasesIn_append, hd]
        simp [releasesIn]
      · obtain ⟨h1, h2⟩ := contentExit_releases env shortcode isReel ‹String›
          ((if env.cookies > 0 then [ScraperCall.waitForSlot, ScraperCall.getPage]
              ++ [ScraperCall.setCookie] else [ScraperCall.waitForSlot, ScraperCall.getPage])
            ++ [ScraperCall.addJitter 100, ScraperCall.goto (postUrl shortcode isReel)]
            ++ [ScraperCall.delay 500, ScraperCall.content])
        refine ⟨h1, ?_⟩
        rw [h2]
        simp only [releasesIn_append, hd]
        simp [releasesIn]

/-- The number of `releasePage` calls of one attempt that got a page: one
when the attempt returns, two when it throws from the no-media exit, one when
it throws elsewhere. -/
theorem scrapeWithPage_releases (env : AttemptEnv) (shortcode : String) (isReel : Bool)
    (h : env.getPage = none) :
    releasesIn (scrapeWithPage env shortcode isReel).2 =
      (match (tryBlock env shortcode isReel).outcome with
       | .ok _ => 1
       | .error _ => if (tryBlock env shortcode isReel).exit = .noMedia then 2 else 1) := by
  obtain ⟨h1, h2⟩ := tryBlock_releases env shortcode isReel h
  unfold scrapeWithPage
  simp only
  cases ho : (tryBlock env shortcode isReel).outcome with
  | ok r =>
    rw [ho] at h2
    simp only [h2]
    simp [releasesIn]
  | error m =>
    rw [ho] at h2
    simp only [releasesIn_append, h2, h1, if_true, releasesIn_releasePageCall]
    by_cases hx : (tryBlock env shortcode isReel).exit = .noMedia
    · simp [hx, releasesIn]
    · simp [hx, releasesIn]

/-- C11 (failing input): an attempt on a post whose page has no marker and
yields no media, every call resolving. The `try` block calls `releasePage`
and then throws; the `catch` block, `page` being still set, calls
`releasePage` again: two calls on the one handle. On every other exit of an
attempt that got a page there is exactly one call. -/
theorem C11_no_media_exit_releases_twice :
    noMediaEnv.getPage = none ∧
    (tryBlock noMediaEnv "Cabc" false).exit = .noMedia ∧
    (scrapeWithPage noMediaEnv "Cabc" false).2 =
      [.waitForSlot, .getPage, .addJitter 100, .goto "https://www.instagram.com/p/Cabc/",
       .delay 500, .content, .analyzePage, .saveDiagnostic, .evaluate, .evaluate, .evaluate,
       .evaluate, .trackError "NO_MEDIA", .analyzePage, .saveDiagnostic, .releasePage,
       .trackError "SCRAPE_ERROR", .releasePage] ∧
    releasesIn (scrapeWithPage noMediaEnv "Cabc" false).2 = 2 ∧
    (∀ (env : AttemptEnv) (shortcode : String) (isReel : Bool), env.getPage = none →
      releasesIn (scrapeWithPage env shortcode isReel).2 =
        (match (tryBlock env shortcode isReel).outcome with
         | .ok _ => 1
         | .error _ => if (tryBlock env shortcode isReel).exit = .noMedia then 2 else 1)) :=
  ⟨rfl, by decide, by decide, by decide, scrapeWithPage_releases⟩

/-- C12: every attempt that gets a page has called `releasePage` at least
once when it returns or throws, whatever the collaborators answer
(`releasePage` itself does not reject). -/
theorem C12_page_released_at_least_once (env : AttemptEnv) (shortcode : String) (isReel : Bool)
    (h : env.getPage = none) :
    1 ≤ releasesIn (scrapeWithPage env shortcode isReel).2 := by
  rw [scrapeWithPage_releases env shortcode isReel h]
  split
  · exact le_refl _
  · split <;> omega

/-- C12 (witness): the attempt that finds no media. -/
theorem C12_page_released_at_least_once_witness :
    noMediaEnv.getPage = none ∧ 1 ≤ releasesIn (scrapeWithPage noMediaEnv "Cabc" false).2 :=
  ⟨rfl, C12_page_released_at_least_once noMediaEnv "Cabc" false rfl⟩

theorem tryBlock_captures (env : AttemptEnv) (shortcode : String) (isReel : Bool)
    (pageContent : String) (h : env.captures pageContent) :
    tryBlock env shortcode isReel
      = contentExit env shortcode isReel pageContent (capturePrefix env shortcode isReel) := by
  obtain ⟨h1, h2, h3, h4⟩ := h
  have hc : (if env.cookies > 0 then env.setCookie else none) = none := by
    rcases h2 with h2 | h2
    · simp [h2]
    · simp [h2]
  unfold tryBlock capturePrefix
  simp only [h1, hc, h3, h4]

theorem capturePrefix_counts (env : AttemptEnv) (shortcode : String) (isReel : Bool) :
    (capturePrefix env shortcode isReel).count ScraperCall.waitForSlot = 1 ∧
    (capturePrefix env shortcode isReel).countP isGoto = 1 ∧
    (capturePrefix env shortcode isReel).countP isTriggerCooldown = 0 := by
  unfold capturePrefix
  split <;> simp [isGoto, isTriggerCooldown, List.countP_cons, List.count_cons]

theorem scrapeWithPage_rateLimited (env : AttemptEnv) (shortcode : String) (isReel : Bool)
    (pageContent : String) (h : env.captures pageContent)
    (ht : hasThrottleSignal pageContent = true) :
    scrapeWithPage env shortcode isReel =
      (.error "Instagram rate limit detected",
        capturePrefix env shortcode isReel ++
          [ScraperCall.analyzePage, ScraperCall.triggerCooldown 120000,
           ScraperCall.trackError "RATE_LIMIT", ScraperCall.trackError "SCRAPE_ERROR",
           ScraperCall.releasePage]) := by
  unfold scrapeWithPage
  rw [tryBlock_captures env shortcode isReel pageContent h]
  simp [contentExit, ht, releasePageCall]

theorem scrapeWithPage_loginWall (env : AttemptEnv) (shortcode : String) (isReel : Bool)
    (pageContent : String) (h : env.captures pageContent)
    (ht : hasThrottleSignal pageContent = false) (hl : hasLoginWall pageContent = true) :
    scrapeWithPage env shortcode isReel =
      (.ok (.failure "Instagram requires login. Please add valid cookies." "LOGIN_REQUIRED"),
        capturePrefix env shortcode isReel ++
          [ScraperCall.analyzePage, ScraperCall.trackError "LOGIN_REQUIRED",
           ScraperCall.releasePage]) := by
  unfold scrapeWithPage
  rw [tryBlock_captures env shortcode isReel pageContent h]
  simp [contentExit, ht, hl, releasePageCall]

theorem scrapeWithPage_notFound (env : AttemptEnv) (shortcode : String) (isReel : Bool)
    (pageContent : String) (h : env.captures pageContent)
    (ht : hasThrottleSignal pageContent = false) (hl : hasLoginWall pageContent = false)
    (hn : hasNotFound pageContent = true) :
    scrapeWithPage env shortcode isReel =
      (.ok (.failure "Post not found" "NOT_FOUND"),
        capturePrefix env shortcode isReel ++
          [ScraperCall.analyzePage, ScraperCall.releasePage,
           ScraperCall.trackError "NOT_FOUND"]) := by
  unfold scrapeWithPage
  rw [tryBlock_captures env shortcode isReel pageContent h]
  simp [contentExit, ht, hl, hn, releasePageCall]

theorem scrapeWithPage_success (env : AttemptEnv) (shortcode : String) (isReel : Bool)
    (pageContent username : String) (src : PageSource) (h : env.captures pageContent)
    (ht : hasThrottleSignal pageContent = false) (hl : hasLoginWall pageContent = false)
    (hn : hasNotFound pageContent = false) (hu : env.username = .ok username)
    (hsrc : env.source = .ok src) (hne : extractFromSource isReel src ≠ []) :
    scrapeWithPage env shortcode isReel =
      (.ok (.success (finalMedia isReel (extractFromSource isReel src))
          (finalMedia isReel (extractFromSource isReel src)).length username),
        capturePrefix env shortcode isReel ++ [ScraperCall.analyzePage] ++
          (if (ErrorRecovery.analyzePage env.timestamp pageContent
              (postUrl shortcode isReel)).structureValid then [] else [ScraperCall.saveDiagnostic])
          ++ [ScraperCall.evaluate, ScraperCall.evaluate, ScraperCall.releasePage]) := by
  have hpos : (extractFromSource isReel src).length > 0 := List.length_pos.mpr hne
  unfold scrapeWithPage
  rw [tryBlock_captures env shortcode isReel pageContent h]
  simp only [contentExit, ht, hl, hn, extractExit, hu, hsrc, hpos, if_true, releasePageCall]
  cases (ErrorRecovery.analyzePage env.timestamp pageContent (postUrl shortcode isReel)).structureValid
    <;> simp

/-- The first attempt returns: `scrapeInstagramPost` returns its result after that
one attempt. -/
theorem scrapeInstagramPost_first_returns (world : Nat → AttemptEnv) (url shortcode : String)
    (result : ScrapeResult) (calls : List ScraperCall)
    (hv : isValidInstagramUrl url = true) (hs : extractShortcode url = some shortcode)
    (h : scrapeWithPage (world 1) shortcode (isReelUrl url) = (.ok result, calls)) :
    scrapeInstagramPost world url = (result, RetryStep.attempt 1 :: calls.map RetryStep.call) := by
  unfold scrapeInstagramPost
  simp only [hv, hs, withRetry, MAX_RETRIES]
  rw [withRetryLoop_ok _ 3 2 1 none result (by rw [h])]
  simp [h]

/-- C14: for every valid url (one with a shortcode) whose first attempt
captures page content without a throttling signal: when the content has a
login-wall marker the result is the failure with code LOGIN_REQUIRED;
otherwise, when it has a not-found marker, the failure with code NOT_FOUND;
in both cases `fn` is called once, with one waitForSlot, one navigation and
no retry wait. -/
theorem C14_terminal_results_not_retried (world : Nat → AttemptEnv) (url shortcode html : String)
    (hv : isValidInstagramUrl url = true) (hs : extractShortcode url = some shortcode)
    (hcap : (world 1).captures html) (ht : hasThrottleSignal html = false) :
    (hasLoginWall html = true →
      (scrapeInstagramPost world url).1
        = .failure "Instagram requires login. Please add valid cookies." "LOGIN_REQUIRED") ∧
    (hasLoginWall html = false → hasNotFound html = true →
      (scrapeInstagramPost world url).1 = .failure "Post not found" "NOT_FOUND") ∧
    ((hasLoginWall html = true ∨ hasNotFound html = true) →
      attemptsIn (scrapeInstagramPost world url).2 = 1 ∧
      waitsIn (scrapeInstagramPost world url).2 = [] ∧
      (callsIn (scrapeInstagramPost world url).2).count ScraperCall.waitForSlot = 1 ∧
      (callsIn (scrapeInstagramPost world url).2).countP isGoto = 1) := by
  obtain ⟨c1, c2, _⟩ := capturePrefix_counts (world 1) shortcode (isReelUrl url)
  have login : hasLoginWall html = true →
      scrapeInstagramPost world url =
        (.failure "Instagram requires login. Please add valid cookies." "LOGIN_REQUIRED",
          RetryStep.attempt 1 :: (capturePrefix (world 1) shortcode (isReelUrl url) ++
            [ScraperCall.analyzePage, ScraperCall.trackError "LOGIN_REQUIRED",
             ScraperCall.releasePage]).map RetryStep.call) := fun hl =>
    scrapeInstagramPost_first_returns world url shortcode _ _ hv hs
      (scrapeWithPage_loginWall (world 1) shortcode (isReelUrl url) html hcap ht hl)
  have notFound : hasLoginWall html = false → hasNotFound html = true →
      scrapeInstagramPost world url =
        (.failure "Post not found" "NOT_FOUND",
          RetryStep.attempt 1 :: (capturePrefix (world 1) shortcode (isReelUrl url) ++
            [ScraperCall.analyzePage, ScraperCall.releasePage,
             ScraperCall.trackError "NOT_FOUND"]).map RetryStep.call) := fun hl hn =>
    scrapeInstagramPost_first_returns world url shortcode _ _ hv hs
      (scrapeWithPage_notFound (world 1) shortcode (isReelUrl url) html hcap ht hl hn)
  refine ⟨fun hl => by rw [login hl], fun hl hn => by rw [notFound hl hn], ?_⟩
  intro h
  by_cases hl : hasLoginWall html = true
  · rw [login hl]
    simp only [attemptsIn_cons_attempt, attemptsIn_calls, waitsIn_cons_attempt, waitsIn_calls,
      callsIn_cons_attempt, callsIn_calls, List.count_append, List.countP_append, c1, c2]
    simp [isGoto, List.countP_cons, List.count_cons]
  · have hl2 : hasLoginWall html = false := by simpa using hl
    have hn : hasNotFound html = true := by
      rcases h with h | h
      · exact absurd h hl
      · exact h
    rw [notFound hl2 hn]
    simp only [attemptsIn_cons_attempt, attemptsIn_calls, waitsIn_cons_attempt, waitsIn_calls,
      callsIn_cons_attempt, callsIn_calls, List.count_append, List.countP_append, c1, c2]
    simp [isGoto, List.countP_cons, List.count_cons]

/-- C14 (witness): a post whose page shows the login wall. -/
theorem C14_terminal_results_not_retried_witness :
    isValidInstagramUrl "https://www.instagram.com/p/Cabc/" = true ∧
    hasThrottleSignal "<p>You must log in to continue</p>" = false ∧
    hasLoginWall "<p>You must log in to continue</p>" = true ∧
    (scrapeInstagramPost (fun _ => capturingEnv "<p>You must log in to continue</p>" emptySource)
        "https://www.instagram.com/p/Cabc/").1
      = .failure "Instagram requires login. Please add valid cookies." "LOGIN_REQUIRED" ∧
    attemptsIn (scrapeInstagramPost
        (fun _ => capturingEnv "<p>You must log in to continue</p>" emptySource)
        "https://www.instagram.com/p/Cabc/").2 = 1 :=
  ⟨by decide, by decide, by decide,
    (C14_terminal_results_not_retried
      (fun _ => capturingEnv "<p>You must log in to continue</p>" emptySource)
      "https://www.instagram.com/p/Cabc/" "Cabc" "<p>You must log in to continue</p>"
      (by decide) (by decide) ⟨rfl, Or.inl rfl, rfl, rfl⟩ (by decide)).1 (by decide),
    ((C14_terminal_results_not_retried
      (fun _ => capturingEnv "<p>You must log in to continue</p>" emptySource)
      "https://www.instagram.com/p/Cabc/" "Cabc" "<p>You must log in to continue</p>"
      (by decide) (by decide) ⟨rfl, Or.inl rfl, rfl, rfl⟩ (by decide)).2.2
        (Or.inl (by decide))).1⟩

/-- C15: when each of the three attempts captures content with a throttling
signal, whatever else the content holds, `scrapeInstagramPost` calls `fn`
three times, waits 1000 and 2000 ms between the attempts, each attempt calls
`triggerCooldown` exactly once (with 120000), and the result is the failure
with code RETRY_EXHAUSTED. -/
theorem C15_rate_limit_exhausts_retries (world : Nat → AttemptEnv) (url shortcode : String)
    (html : Nat → String)
    (hv : isValidInstagramUrl url = true) (hs : extractShortcode url = some shortcode)
    (hcap : ∀ n, 1 ≤ n → n ≤ 3 → (world n).captures (html n))
    (ht : ∀ n, 1 ≤ n → n ≤ 3 → hasThrottleSignal (html n) = true) :
    (scrapeInstagramPost world url).1
      = .failure "Instagram rate limit detected" "RETRY_EXHAUSTED" ∧
    attemptsIn (scrapeInstagramPost world url).2 = 3 ∧
    waitsIn (scrapeInstagramPost world url).2 = [1000, 2000] ∧
    callsIn (scrapeInstagramPost world url).2
      = (scrapeWithPage (world 1) shortcode (isReelUrl url)).2
        ++ (scrapeWithPage (world 2) shortcode (isReelUrl url)).2
        ++ (scrapeWithPage (world 3) shortcode (isReelUrl url)).2 ∧
    (∀ n, 1 ≤ n → n ≤ 3 →
      (scrapeWithPage (world n) shortcode (isReelUrl url)).2.countP isTriggerCooldown = 1 ∧
      (scrapeWithPage (world n) shortcode (isReelUrl url)).2.count
        (ScraperCall.triggerCooldown 120000) = 1) ∧
    (callsIn (scrapeInstagramPost world url).2).countP isTriggerCooldown = 3 := by
  have hatt : ∀ n, 1 ≤ n → n ≤ 3 →
      scrapeWithPage (world n) shortcode (isReelUrl url) =
        (.error "Instagram rate limit detected",
          capturePrefix (world n) shortcode (isReelUrl url) ++
            [ScraperCall.analyzePage, ScraperCall.triggerCooldown 120000,
             ScraperCall.trackError "RATE_LIMIT", ScraperCall.trackError "SCRAPE_ERROR",
             ScraperCall.releasePage]) := fun n h1 h2 =>
    scrapeWithPage_rateLimited (world n) shortcode (isReelUrl url) (html n) (hcap n h1 h2)
      (ht n h1 h2)
  have hcount : ∀ n, 1 ≤ n → n ≤ 3 →
      (scrapeWithPage (world n) shortcode (isReelUrl url)).2.countP isTriggerCooldown = 1 ∧
      (scrapeWithPage (world n) shortcode (isReelUrl url)).2.count
        (ScraperCall.triggerCooldown 120000) = 1 := by
    intro n h1 h2
    obtain ⟨_, _, c3⟩ := capturePrefix_counts (world n) shortcode (isReelUrl url)
    have c4 : (capturePrefix (world n) shortcode (isReelUrl url)).count
        (ScraperCall.triggerCooldown 120000) = 0 := by
      rw [List.count_eq_zero]
      intro hmem
      rw [List.countP_eq_zero] at c3
      exact c3 _ hmem rfl
    rw [hatt n h1 h2]
    simp only [List.countP_append, List.count_append, c3, c4]
    simp [isTriggerCooldown, List.countP_cons, List.count_cons]
  obtain ⟨r1, r2, r3, r4⟩ := withRetryLoop_fails
    (fun n => scrapeWithPage (world n) shortcode (isReelUrl url)) 3
    (fun _ => "Instagram rate limit detected") 3 1 none (by omega)
    (fun i h1 h2 => by
      show (scrapeWithPage (world i) shortcode (isReelUrl url)).1 = _
      rw [hatt i h1 h2])
  have e : scrapeInstagramPost world url =
      (.failure "Instagram rate limit detected" "RETRY_EXHAUSTED",
        (withRetryLoop (fun n => scrapeWithPage (world n) shortcode (isReelUrl url)) 3 3 1 none).2) := by
    unfold scrapeInstagramPost
    simp only [hv, hs, withRetry, MAX_RETRIES]
    rw [r1]
    simp [truthy]
  rw [e]
  have hr : List.range' 1 3 = [1, 2, 3] := by decide
  have hw : (List.range' 1 (3 - 1)).map (fun i => RETRY_DELAY_MS * 2 ^ (i - 1)) = [1000, 2000] := by
    decide
  have hcalls : callsIn (withRetryLoop (fun n => scrapeWithPage (world n) shortcode (isReelUrl url))
      3 3 1 none).2 = (scrapeWithPage (world 1) shortcode (isReelUrl url)).2
        ++ (scrapeWithPage (world 2) shortcode (isReelUrl url)).2
        ++ (scrapeWithPage (world 3) shortcode (isReelUrl url)).2 := by
    rw [r4, hr]
    simp
  refine ⟨rfl, r2, by rw [r3, hw], hcalls, hcount, ?_⟩
  show (callsIn (withRetryLoop _ 3 3 1 none).2).countP isTriggerCooldown = 3
  rw [hcalls]
  simp only [List.countP_append, (hcount 1 (by omega) (by omega)).1,
    (hcount 2 (by omega) (by omega)).1, (hcount 3 (by omega) (by omega)).1]

/-- C15 (witness): three attempts on a page that says to wait. -/
theorem C15_rate_limit_exhausts_retries_witness :
    isValidInstagramUrl "https://www.instagram.com/reel/Cabc/" = true ∧
    hasThrottleSignal "Please wait a few minutes before you try again. Create an account" = true ∧
    (scrapeInstagramPost
        (fun _ => capturingEnv "Please wait a few minutes before you try again. Create an account"
          emptySource)
        "https://www.instagram.com/reel/Cabc/").1
      = .failure "Instagram rate limit detected" "RETRY_EXHAUSTED" :=
  ⟨by decide, by decide,
    (C15_rate_limit_exhausts_retries
      (fun _ => capturingEnv "Please wait a few minutes before you try again. Create an account"
        emptySource)
      "https://www.instagram.com/reel/Cabc/" "Cabc"
      (fun _ => "Please wait a few minutes before you try again. Create an account")
      (by decide) (by decide) (fun _ _ _ => ⟨rfl, Or.inl rfl, rfl, rfl⟩)
      (fun _ _ _ => by
        show hasThrottleSignal
          "Please wait a few minutes before you try again. Create an account" = true
        decide)).1⟩

/-- C17: for every valid url (one with a shortcode) whose first attempt
captures content without throttling, login-wall or not-found marker, gets
the username and extracts a non-empty media list from the page source,
`scrapeInstagramPost` returns success after one call of `fn` and no retry
wait, with count = media.length; for a url that is not a reel the media is the
extracted list, so that a single extracted image gives a media list of that
one image. -/
theorem C17_success_on_first_attempt (world : Nat → AttemptEnv)
    (url shortcode html username : String) (src : PageSource)
    (hv : isValidInstagramUrl url = true) (hs : extractShortcode url = some shortcode)
    (hcap : (world 1).captures html) (ht : hasThrottleSignal html = false)
    (hl : hasLoginWall html = false) (hn : hasNotFound html = false)
    (hu : (world 1).username = .ok username) (hsrc : (world 1).source = .ok src)
    (hne : extractFromSource (isReelUrl url) src ≠ []) :
    (∃ media, (scrapeInstagramPost world url).1 = .success media media.length username ∧
      (isReelUrl url = false → media = extractFromSource false src) ∧
      (∀ imageUrl, isReelUrl url = false →
        extractFromSource false src = [{ type := .image, url := imageUrl, thumbnail := none }] →
        media = [{ type := .image, url := imageUrl, thumbnail := none }])) ∧
    attemptsIn (scrapeInstagramPost world url).2 = 1 ∧
    waitsIn (scrapeInstagramPost world url).2 = [] := by
  have e := scrapeInstagramPost_first_returns world url shortcode _ _ hv hs
    (scrapeWithPage_success (world 1) shortcode (isReelUrl url) html username src hcap ht hl hn
      hu hsrc hne)
  rw [e]
  refine ⟨⟨_, rfl, ?_, ?_⟩, ?_, ?_⟩
  · intro hr
    rw [hr]
    simp [finalMedia]
  · intro imageUrl hr h1
    rw [hr]
    simp [finalMedia, h1]
  · simp only [attemptsIn_cons_attempt, attemptsIn_calls]
  · simp only [waitsIn_cons_attempt, waitsIn_calls]

/-- C17 (witness): a post whose page source has one image. -/
theorem C17_success_on_first_attempt_witness :
    isValidInstagramUrl "https://www.instagram.com/p/Cabc/" = true ∧
    extractFromSource (isReelUrl "https://www.instagram.com/p/Cabc/") oneImageSource
      = [{ type := .image, url := "https://scontent.cdninstagram.com/v/a.jpg", thumbnail := none }] ∧
    ∃ media, (scrapeInstagramPost (fun _ => capturingEnv "<html>a post</html>" oneImageSource)
        "https://www.instagram.com/p/Cabc/").1 = .success media media.length "unknown" ∧
      media = [{ type := .image, url := "https://scontent.cdninstagram.com/v/a.jpg",
                 thumbnail := none }] := by
  obtain ⟨⟨media, h1, _, h3⟩, _, _⟩ := C17_success_on_first_attempt
    (fun _ => capturingEnv "<html>a post</html>" oneImageSource)
    "https://www.instagram.com/p/Cabc/" "Cabc" "<html>a post</html>" "unknown" oneImageSource
    (by decide) (by decide) ⟨rfl, Or.inl rfl, rfl, rfl⟩ (by decide) (by decide) (by decide)
    rfl rfl (by decide)
  exact ⟨by decide, by decide, media, h1, h3 _ (by decide) (by decide)⟩

theorem videoLoop_types (thumbnail : Option String) (captures seen : List String) :
    ∀ m ∈ (videoLoop thumbnail seen captures).2, m.type = .video := by
  induction captures generalizing seen with
  | nil => simp [videoLoop]
  | cons c rest ih =>
    unfold videoLoop
    split
    · exact ih seen
    · split
      · exact ih seen
      · intro m hm
        simp only [List.mem_cons] at hm
        rcases hm with hm | hm
        · rw [hm]
        · exact ih _ m hm

theorem imageLoop_types (captures seen : List String) :
    ∀ m ∈ (imageLoop seen captures).2, m.type = .image := by
  induction captures generalizing seen with
  | nil => simp [imageLoop]
  | cons c rest ih =>
    unfold imageLoop
    split
    · exact ih seen
    · split
      · intro m hm
        simp only [List.mem_cons] at hm
        rcases hm with hm | hm
        · rw [hm]
        · exact ih _ m hm
      · exact ih seen

theorem videoLoop_none (thumbnail : Option String) (captures seen : List String)
    (h : captures.findSome? acceptVideo = none) : (videoLoop thumbnail seen captures).2 = [] := by
  induction captures generalizing seen with
  | nil => simp [videoLoop]
  | cons c rest ih =>
    rw [List.findSome?_cons] at h
    unfold videoLoop
    split
    · rename_i hc
      rw [hc] at h
      exact ih seen h
    · rename_i u hc
      rw [hc] at h
      simp at h

theorem videoLoop_first (thumbnail : Option String) (captures : List String) (u : String)
    (h : captures.findSome? acceptVideo = some u) :
    ∃ rest, (videoLoop thumbnail [] captures).2
      = { type := .video, url := u, thumbnail := some thumbnail } :: rest := by
  induction captures with
  | nil => simp at h
  | cons c rest ih =>
    rw [List.findSome?_cons] at h
    unfold videoLoop
    split
    · rename_i hc
      rw [hc] at h
      exact ih h
    · rename_i u1 hc
      rw [hc] at h
      simp only [Option.some.injEq] at h
      subst h
      simp

theorem patternResults_videos (src : PageSource) :
    (patternResults src).filter (fun r => r.type = .video)
      = (videoLoop (videoThumbnail src) [] src.videoMatches).2 := by
  unfold patternResults
  simp only [List.filter_append]
  have h1 : (videoLoop (videoThumbnail src) [] src.videoMatches).2.filter
      (fun r => decide (r.type = .video)) = (videoLoop (videoThumbnail src) [] src.videoMatches).2 := by
    rw [List.filter_eq_self]
    intro m hm
    simp [videoLoop_types _ _ _ m hm]
  have h2 : (imageLoop (videoLoop (videoThumbnail src) [] src.videoMatches).1 src.imageMatches).2.filter
      (fun r => decide (r.type = .video)) = [] := by
    rw [List.filter_eq_nil_iff]
    intro m hm
    simp [imageLoop_types _ _ m hm]
  rw [h1, h2, List.append_nil]

/-- C18: for every reel url whose first attempt reaches the extraction, when
the pattern-based extraction finds at least one video the result is success
with a media list of exactly one item and count 1; the item is the first
video of the results, which is the first video capture that passes the test
of line 372, whatever other videos or images were matched. -/
theorem C18_reel_keeps_first_video (world : Nat → AttemptEnv)
    (url shortcode html username : String) (src : PageSource)
    (hv : isValidInstagramUrl url = true) (hs : extractShortcode url = some shortcode)
    (hreel : isReelUrl url = true)
    (hcap : (world 1).captures html) (ht : hasThrottleSignal html = false)
    (hl : hasLoginWall html = false) (hn : hasNotFound html = false)
    (hu : (world 1).username = .ok username) (hsrc : (world 1).source = .ok src)
    (hvideo : (patternResults src).any (fun r => r.type = .video) = true) :
    ∃ v, v.type = .video ∧
      src.videoMatches.findSome? acceptVideo = some v.url ∧
      (patternResults src).find? (fun r => r.type = .video) = some v ∧
      (scrapeInstagramPost world url).1 = .success [v] 1 username := by
  have hsome : ∃ u, src.videoMatches.findSome? acceptVideo = some u := by
    cases hf : src.videoMatches.findSome? acceptVideo with
    | some u => exact ⟨u, rfl⟩
    | none =>
      exfalso
      have h0 := patternResults_videos src
      rw [videoLoop_none _ _ _ hf, List.filter_eq_nil_iff] at h0
      rw [List.any_eq_true] at hvideo
      obtain ⟨m, hm, hmv⟩ := hvideo
      exact h0 m hm hmv
  obtain ⟨u, hfirst⟩ := hsome
  obtain ⟨rest, hrest⟩ := videoLoop_first (videoThumbnail src) src.videoMatches u hfirst
  have hex : extractFromSource true src
      = { type := .video, url := u, thumbnail := some (videoThumbnail src) } :: rest := by
    unfold extractFromSource
    simp only [hvideo, Bool.and_self, if_true]
    rw [patternResults_videos, hrest]
  have hfin : finalMedia true (extractFromSource true src)
      = [{ type := .video, url := u, thumbnail := some (videoThumbnail src) }] := by
    rw [hex]
    simp [finalMedia]
  have e := scrapeInstagramPost_first_returns world url shortcode _ _ hv hs
    (scrapeWithPage_success (world 1) shortcode (isReelUrl url) html username src hcap ht hl hn
      hu hsrc (by rw [hreel, hex]; simp))
  refine ⟨{ type := .video, url := u, thumbnail := some (videoThumbnail src) }, rfl, hfirst, ?_, ?_⟩
  · unfold patternResults
    simp only [hrest]
    simp
  · rw [e, hreel, hfin]
    rfl

/-- C18 (witness): a reel whose page source has three video captures and an
image: only the first video is returned. -/
theorem C18_reel_keeps_first_video_witness :
    isReelUrl "https://www.instagram.com/reel/Cabc/" = true ∧
    (patternResults reelSource).length = 3 ∧
    (scrapeInstagramPost (fun _ => capturingEnv "<html>a reel</html>" reelSource)
        "https://www.instagram.com/reel/Cabc/").1
      = .success [{ type := .video, url := "https://v.cdninstagram.com/a.mp4?e=1",
                    thumbnail := some none }] 1 "unknown" := by
  obtain ⟨v, _, _, h3, h4⟩ := C18_reel_keeps_first_video
    (fun _ => capturingEnv "<html>a reel</html>" reelSource)
    "https://www.instagram.com/reel/Cabc/" "Cabc" "<html>a reel</html>" "unknown" reelSource
    (by decide) (by decide) (by decide) ⟨rfl, Or.inl rfl, rfl, rfl⟩ (by decide) (by decide)
    (by decide) rfl rfl (by decide)
  have hc : (patternResults reelSource).find? (fun r => r.type = .video)
      = some { type := .video, url := "https://v.cdninstagram.com/a.mp4?e=1",
               thumbnail := some none } := by decide
  rw [hc] at h3
  rw [h4, ← Option.some.inj h3]
  exact ⟨by decide, by decide, rfl⟩

theorem videoLoop_distinct (thumbnail : Option String) (captures seen : List String) :
    (videoLoop thumbnail seen captures).2.Pairwise
        (fun a b => beforeQuery a.url ≠ beforeQuery b.url) ∧
    ∀ m ∈ (videoLoop thumbnail seen captures).2, beforeQuery m.url ∉ seen := by
  induction captures generalizing seen with
  | nil => simp [videoLoop]
  | cons c rest ih =>
    unfold videoLoop
    split
    · exact ih seen
    · rename_i u _
      split
      · exact ih seen
      · rename_i hseen
        obtain ⟨i1, i2⟩ := ih (beforeQuery u :: seen)
        constructor
        · rw [List.pairwise_cons]
          refine ⟨?_, i1⟩
          intro m hm heq
          exact i2 m hm (by rw [← heq]; exact List.mem_cons_self _ _)
        · intro m hm
          simp only [List.mem_cons] at hm
          rcases hm with hm | hm
          · rw [hm]
            simpa using hseen
          · intro hmem
            exact i2 m hm (List.mem_cons_of_mem _ hmem)

theorem imageLoop_distinct (captures seen : List String) :
    (imageLoop seen captures).2.Pairwise (fun a b => a.url ≠ b.url) ∧
    ∀ m ∈ (imageLoop seen captures).2, m.url ∉ seen := by
  induction captures generalizing seen with
  | nil => simp [imageLoop]
  | cons c rest ih =>
    unfold imageLoop
    split
    · exact ih seen
    · rename_i u _
      split
      · rename_i hseen
        obtain ⟨i1, i2⟩ := ih (u :: seen)
        constructor
        · rw [List.pairwise_cons]
          refine ⟨?_, i1⟩
          intro m hm heq
          exact i2 m hm (by rw [← heq]; exact List.mem_cons_self _ _)
        · intro m hm
          simp only [List.mem_cons] at hm
          rcases hm with hm | hm
          · rw [hm]
            have hs2 := hseen
            simp at hs2
            exact hs2.2
          · intro hmem
            exact i2 m hm (List.mem_cons_of_mem _ hmem)
      · exact ih seen

/-- C19 (failing input): a page in which the same image is captured twice with
two query strings. `addMedia` compares whole urls, so both captures are
returned although they are equal once the query string is stripped. The
video loop does strip the query string before comparing (no two videos
returned are equal after stripping); images are only distinct as whole
urls. -/
theorem C19_images_not_normalised :
    (extractFromSource false twiceImageSource).map (fun m => m.url)
      = ["https://scontent.cdninstagram.com/v/a.jpg?stp=dst-jpg_e35",
         "https://scontent.cdninstagram.com/v/a.jpg?stp=dst-jpg_e15"] ∧
    beforeQuery "https://scontent.cdninstagram.com/v/a.jpg?stp=dst-jpg_e35"
      = beforeQuery "https://scontent.cdninstagram.com/v/a.jpg?stp=dst-jpg_e15" ∧
    ¬ (extractFromSource false twiceImageSource).Pairwise
        (fun a b => beforeQuery a.url ≠ beforeQuery b.url) ∧
    (∀ src : PageSource,
      ((patternResults src).filter (fun r => r.type = .video)).Pairwise
        (fun a b => beforeQuery a.url ≠ beforeQuery b.url)) ∧
    (∀ src : PageSource,
      ((patternResults src).filter (fun r => r.type = .image)).Pairwise
        (fun a b => a.url ≠ b.url)) := by
  refine ⟨by decide, by decide, by decide, ?_, ?_⟩
  · intro src
    rw [patternResults_videos]
    exact (videoLoop_distinct _ _ _).1
  · intro src
    unfold patternResults
    simp only [List.filter_append]
    have h1 : (videoLoop (videoThumbnail src) [] src.videoMatches).2.filter
        (fun r => decide (r.type = .image)) = [] := by
      rw [List.filter_eq_nil_iff]
      intro m hm
      simp [videoLoop_types _ _ _ m hm]
    rw [h1, List.nil_append]
    exact ((imageLoop_distinct _ _).1).sublist (List.filter_sublist _)

/-! ## Error messages: lemmas -/

namespace ErrorRecovery

theorem foldl_checkWarning_issues (html : String) (ws : List String) (d : Diagnostic) (i : String)
    (h : i ∈ d.issues) : i ∈ (ws.foldl (checkWarning html) d).issues := by
  induction ws generalizing d with
  | nil => exact h
  | cons w rest ih => exact ih _ (checkWarning_issues html d w i h)

theorem foldl_checkWarning_reports (html : String) (ws : List String) (d : Diagnostic) (w : String)
    (hw : w ∈ ws) (hi : includes html w = true) :
    ("Login wall detected: \"" ++ w ++ "\"") ∈ (ws.foldl (checkWarning html) d).issues := by
  induction ws generalizing d with
  | nil => cases hw
  | cons v rest ih =>
    rcases List.mem_cons.mp hw with e | hr
    · subst e
      apply foldl_checkWarning_issues html rest (checkWarning html d w)
      unfold checkWarning
      simp [hi]
    · exact ih _ hr

theorem analyzePage_reports (timestamp html url w : String)
    (hw : w ∈ warningPatterns) (hi : includes html w = true) :
    ("Login wall detected: \"" ++ w ++ "\"") ∈ (analyzePage timestamp html url).issues := by
  unfold analyzePage
  apply checkErrorPage_issues
  apply checkLength_issues
  apply checkMediaElements_issues
  apply checkPostElements_issues
  exact foldl_checkWarning_reports html _ _ w hw hi

theorem analyzePage_invalid (timestamp html url w : String)
    (hw : w ∈ warningPatterns) (hi : includes html w = true) :
    (analyzePage timestamp html url).structureValid = false := by
  unfold analyzePage
  rw [checkErrorPage_valid, checkLength_valid, checkMediaElements_valid, checkPostElements_valid,
    foldl_checkWarning_valid]
  have : warningPatterns.all (fun w => !includes html w) = false := by
    rw [Bool.eq_false_iff]
    intro hall
    have := List.all_eq_true.mp hall w hw
    simp [hi] at this
  simp [this]

theorem loginIssue_includes (w : String) (hw : w ∈ warningPatterns) :
    includes ("Login wall detected: \"" ++ w ++ "\"") "Login wall" = true := by
  simp only [warningPatterns, List.mem_cons, List.mem_singleton, List.not_mem_nil, or_false] at hw
  rcases hw with e | e | e <;> subst e <;> decide

end ErrorRecovery

/-- C21: for every content string that contains at least one of the login-wall
warning patterns, and every url, `getErrorMessage(analyzePage(html, url))` is
the login-required message, whatever other issues the content triggers. -/
theorem C21_login_wall_first (timestamp html url : String)
    (h : warningPatterns.any (fun w => includes html w) = true) :
    ErrorRecovery.getErrorMessage (ErrorRecovery.analyzePage timestamp html url)
      = "Instagram requires login. Please add valid cookies to cookies.json" := by
  obtain ⟨w, hw, hi⟩ := List.any_eq_true.mp h
  have hv := ErrorRecovery.analyzePage_invalid timestamp html url w hw hi
  have hr := ErrorRecovery.analyzePage_reports timestamp html url w hw hi
  have hany : (ErrorRecovery.analyzePage timestamp html url).issues.any
      (fun i => includes i "Login wall") = true :=
    List.any_eq_true.mpr ⟨_, hr, ErrorRecovery.loginIssue_includes w hw⟩
  unfold ErrorRecovery.getErrorMessage
  simp [hv, hany]

/-- C21 at a short page that holds a login-wall pattern and a not-found
marker at once. -/
theorem C21_login_wall_first_witness :
    warningPatterns.any (fun w => includes "Create an account. Page Not Found" w) = true ∧
    ErrorRecovery.getErrorMessage
        (ErrorRecovery.analyzePage "t" "Create an account. Page Not Found" "u")
      = "Instagram requires login. Please add valid cookies to cookies.json" :=
  ⟨by decide, C21_login_wall_first "t" "Create an account. Page Not Found" "u" (by decide)⟩

/-! ## Strings: lemmas -/

theorem includes_iff (s pat : String) :
    includes s pat = true ↔ pat.toList <:+: s.toList := by
  unfold includes
  rw [List.any_eq_true]
  constructor
  · rintro ⟨t, ht, hp⟩
    rw [List.mem_tails] at ht
    rw [List.isPrefixOf_iff_prefix] at hp
    exact List.infix_iff_prefix_suffix.mpr ⟨t, hp, ht⟩
  · intro h
    obtain ⟨t, hp, ht⟩ := List.infix_iff_prefix_suffix.mp h
    exact ⟨t, (List.mem_tails _ _).mpr ht, List.isPrefixOf_iff_prefix.mpr hp⟩

theorem includes_absent (s pat : String) (c : Char) (hc : c ∈ pat.toList) (hs : c ∉ s.toList) :
    includes s pat = false := by
  rw [Bool.eq_false_iff]
  intro h
  exact hs ((includes_iff s pat).mp h |>.subset hc)

theorem digitChar_isDigit (k : Nat) (h : k < 10) : (Nat.digitChar k).isDigit = true := by
  interval_cases k <;> decide

theorem toDigitsCore_isDigit (fuel : Nat) : ∀ (n : Nat) (ds : List Char),
    (∀ c ∈ ds, c.isDigit = true) → ∀ c ∈ Nat.toDigitsCore 10 fuel n ds, c.isDigit = true := by
  induction fuel with
  | zero =>
    intro n ds hds c hc
    simp only [Nat.toDigitsCore] at hc
    exact hds c hc
  | succ f ih =>
    intro n ds hds c hc
    simp only [Nat.toDigitsCore] at hc
    have hd : ∀ c ∈ Nat.digitChar (n % 10) :: ds, c.isDigit = true := by
      intro c hc
      rcases List.mem_cons.mp hc with e | h
      · rw [e]
        exact digitChar_isDigit _ (Nat.mod_lt _ (by decide))
      · exact hds c h
    split at hc
    · exact hd c hc
    · exact ih _ _ hd c hc

theorem toString_isDigit (n : Nat) : ∀ c ∈ (toString n).toList, c.isDigit = true := by
  intro c hc
  have : (toString n).toList = Nat.toDigits 10 n := rfl
  rw [this] at hc
  exact toDigitsCore_isDigit _ _ _ (by simp) c hc

namespace ErrorRecovery

theorem checkWarning_mem (html : String) (d : Diagnostic) (w i : String)
    (h : i ∈ (checkWarning html d w).issues) :
    i ∈ d.issues ∨ (includes html w = true ∧ i = "Login wall detected: \"" ++ w ++ "\"") := by
  unfold checkWarning at h
  split at h
  · rename_i hi
    rcases List.mem_append.mp h with h | h
    · exact Or.inl h
    · exact Or.inr ⟨hi, List.mem_singleton.mp h⟩
  · exact Or.inl h

theorem foldl_checkWarning_mem (html : String) (ws : List String) (d : Diagnostic) (i : String)
    (h : i ∈ (ws.foldl (checkWarning html) d).issues) :
    i ∈ d.issues ∨
      ∃ w ∈ ws, includes html w = true ∧ i = "Login wall detected: \"" ++ w ++ "\"" := by
  induction ws generalizing d with
  | nil => exact Or.inl h
  | cons v rest ih =>
    rcases ih _ h with h1 | ⟨w, hw, hi, e⟩
    · rcases checkWarning_mem html d v i h1 with h2 | ⟨hi, e⟩
      · exact Or.inl h2
      · exact Or.inr ⟨v, List.mem_cons_self _ _, hi, e⟩
    · exact Or.inr ⟨w, List.mem_cons_of_mem _ hw, hi, e⟩

theorem checkPostElements_mem (html : String) (d : Diagnostic) (i : String)
    (h : i ∈ (checkPostElements html d).issues) :
    i ∈ d.issues ∨ i = "No post structure elements found" ∨
      i = "Only 1 post elements found (expected 2+)" := by
  unfold checkPostElements at h
  simp only at h
  split at h
  · rcases List.mem_append.mp h with h | h
    · exact Or.inl h
    · exact Or.inr (Or.inl (List.mem_singleton.mp h))
  · rename_i h0
    split at h
    · rename_i h2
      have h1 : (postElements.filter (fun el => includes html el)).length = 1 := by omega
      rw [h1] at h
      have e : "Only " ++ toString 1 ++ " post elements found (expected 2+)"
          = "Only 1 post elements found (expected 2+)" := by decide
      rw [e] at h
      rcases List.mem_append.mp h with h | h
      · exact Or.inl h
      · exact Or.inr (Or.inr (List.mem_singleton.mp h))
    · exact Or.inl h

theorem checkMediaElements_mem (html : String) (d : Diagnostic) (i : String)
    (h : i ∈ (checkMediaElements html d).issues) :
    i ∈ d.issues ∨ i = "No media URL patterns found in page" := by
  unfold checkMediaElements at h
  simp only at h
  split at h
  · rcases List.mem_append.mp h with h | h
    · exact Or.inl h
    · exact Or.inr (List.mem_singleton.mp h)
  · exact Or.inl h

theorem checkLength_mem (html : String) (d : Diagnostic) (i : String)
    (h : i ∈ (checkLength html d).issues) :
    i ∈ d.issues ∨ (jsLength html < 5000 ∧
      i = "Page unusually short (" ++ toString (jsLength html) ++ " chars)") := by
  unfold checkLength at h
  split at h
  · rename_i hl
    rcases List.mem_append.mp h with h | h
    · exact Or.inl h
    · exact Or.inr ⟨hl, List.mem_singleton.mp h⟩
  · exact Or.inl h

theorem checkLength_short (html : String) (d : Diagnostic) (hl : jsLength html < 5000) :
    ("Page unusually short (" ++ toString (jsLength html) ++ " chars)")
      ∈ (checkLength html d).issues := by
  unfold checkLength
  simp [hl]

theorem checkErrorPage_mem (html : String) (d : Diagnostic) (i : String)
    (h : i ∈ (checkErrorPage html d).issues) :
    i ∈ d.issues ∨ i = "Post not found or unavailable" := by
  unfold checkErrorPage at h
  split at h
  · rcases List.mem_append.mp h with h | h
    · exact Or.inl h
    · exact Or.inr (List.mem_singleton.mp h)
  · exact Or.inl h

/-- Every issue `analyzePage` reports is one of these. -/
theorem analyzePage_mem (timestamp html url i : String)
    (h : i ∈ (analyzePage timestamp html url).issues) :
    (∃ w ∈ warningPatterns, includes html w = true ∧ i = "Login wall detected: \"" ++ w ++ "\"") ∨
    i = "No post structure elements found" ∨
    i = "Only 1 post elements found (expected 2+)" ∨
    i = "No media URL patterns found in page" ∨
    (jsLength html < 5000 ∧
      i = "Page unusually short (" ++ toString (jsLength html) ++ " chars)") ∨
    i = "Post not found or unavailable" := by
  unfold analyzePage at h
  rcases checkErrorPage_mem _ _ _ h with h | e
  · rcases checkLength_mem _ _ _ h with h | e
    · rcases checkMediaElements_mem _ _ _ h with h | e
      · rcases checkPostElements_mem _ _ _ h with h | e | e
        · rcases foldl_checkWarning_mem _ _ _ _ h with h | e
          · cases h
          · exact Or.inl e
        · exact Or.inr (Or.inl e)
        · exact Or.inr (Or.inr (Or.inl e))
      · exact Or.inr (Or.inr (Or.inr (Or.inl e)))
    · exact Or.inr (Or.inr (Or.inr (Or.inr (Or.inl e))))
  · exact Or.inr (Or.inr (Or.inr (Or.inr (Or.inr e))))

theorem shortIssue_chars (n : Nat) (c : Char)
    (hc : c ∈ ("Page unusually short (" ++ toString n ++ " chars)").toList) :
    c ∈ "Page unusually short ( chars)".toList ∨ c.isDigit = true := by
  simp only [String.toList, String.data_append, List.mem_append] at hc
  rcases hc with (h | h) | h
  · left
    revert h
    simp [String.toList]
    tauto
  · exact Or.inr (toString_isDigit n c h)
  · left
    revert h
    simp [String.toList]
    tauto

theorem shortIssue_not_login (n : Nat) :
    includes ("Page unusually short (" ++ toString n ++ " chars)") "Login wall" = false := by
  apply includes_absent _ _ 'L' (by decide)
  intro h
  rcases shortIssue_chars n _ h with h | h
  · revert h; decide
  · revert h; decide

theorem shortIssue_not_found (n : Nat) :
    includes ("Page unusually short (" ++ toString n ++ " chars)") "Not Found" = false := by
  apply includes_absent _ _ 'N' (by decide)
  intro h
  rcases shortIssue_chars n _ h with h | h
  · revert h; decide
  · revert h; decide

theorem shortIssue_short (n : Nat) :
    includes ("Page unusually short (" ++ toString n ++ " chars)") "short" = true := by
  rw [includes_iff]
  refine ⟨"Page unusually ".toList, (" (" ++ toString n ++ " chars)").toList, ?_⟩
  simp only [String.toList, String.data_append]
  simp

end ErrorRecovery

/-- C22: the not-found message is not produced. For every content string that
contains Page Not Found or isn't available and none of the warning patterns,
and every url, `getErrorMessage(analyzePage(html, url))` is the blocked-request
message when html is shorter than 5000 and the structure-changed message
otherwise: the issue pushed for such a page reads Post not found or
unavailable, and `getErrorMessage` looks for Not Found in the issues. -/
theorem C22_not_found_message_not_given (timestamp html url : String)
    (hnf : (includes html "Page Not Found" || includes html "isn't available") = true)
    (hw : warningPatterns.all (fun w => !includes html w) = true) :
    ErrorRecovery.getErrorMessage (ErrorRecovery.analyzePage timestamp html url)
      = (if jsLength html < 5000 then "Instagram may have blocked this request. Try again later"
        else "Instagram page structure may have changed. Check diagnostics folder for details")
    ∧ ErrorRecovery.getErrorMessage (ErrorRecovery.analyzePage timestamp html url)
      ≠ "Post not found or has been deleted" := by
  have hv : (ErrorRecovery.analyzePage timestamp html url).structureValid = false := by
    unfold ErrorRecovery.analyzePage
    rw [ErrorRecovery.checkErrorPage_valid, hnf]
    simp
  have hcases : ∀ i ∈ (ErrorRecovery.analyzePage timestamp html url).issues,
      i = "No post structure elements found" ∨
      i = "Only 1 post elements found (expected 2+)" ∨
      i = "No media URL patterns found in page" ∨
      (jsLength html < 5000 ∧
        i = "Page unusually short (" ++ toString (jsLength html) ++ " chars)") ∨
      i = "Post not found or unavailable" := by
    intro i hi
    rcases ErrorRecovery.analyzePage_mem timestamp html url i hi with ⟨w, hw1, hw2, _⟩ | h
    · have := List.all_eq_true.mp hw w hw1
      simp [hw2] at this
    · exact h
  have hlogin : (ErrorRecovery.analyzePage timestamp html url).issues.any
      (fun i => includes i "Login wall") = false := by
    rw [Bool.eq_false_iff]
    intro h
    obtain ⟨i, hi, hinc⟩ := List.any_eq_true.mp h
    rcases hcases i hi with e | e | e | ⟨_, e⟩ | e
    · subst e; revert hinc; decide
    · subst e; revert hinc; decide
    · subst e; revert hinc; decide
    · subst e; rw [ErrorRecovery.shortIssue_not_login] at hinc; cases hinc
    · subst e; revert hinc; decide
  have hfound : (ErrorRecovery.analyzePage timestamp html url).issues.any
      (fun i => includes i "Not Found") = false := by
    rw [Bool.eq_false_iff]
    intro h
    obtain ⟨i, hi, hinc⟩ := List.any_eq_true.mp h
    rcases hcases i hi with e | e | e | ⟨_, e⟩ | e
    · subst e; revert hinc; decide
    · subst e; revert hinc; decide
    · subst e; revert hinc; decide
    · subst e; rw [ErrorRecovery.shortIssue_not_found] at hinc; cases hinc
    · subst e; revert hinc; decide
  have hmsg : ErrorRecovery.getErrorMessage (ErrorRecovery.analyzePage timestamp html url)
      = (if jsLength html < 5000 then "Instagram may have blocked this request. Try again later"
        else "Instagram page structure may have changed. Check diagnostics folder for details") := by
    unfold ErrorRecovery.getErrorMessage
    simp only [hv, hlogin, hfound]
    by_cases hl : jsLength html < 5000
    · have hshort : (ErrorRecovery.analyzePage timestamp html url).issues.any
          (fun i => includes i "short") = true := by
        apply List.any_eq_true.mpr
        refine ⟨_, ?_, ErrorRecovery.shortIssue_short (jsLength html)⟩
        unfold ErrorRecovery.analyzePage
        apply ErrorRecovery.checkErrorPage_issues
        exact ErrorRecovery.checkLength_short html _ hl
      simp [hshort, hl]
    · have hshort : (ErrorRecovery.analyzePage timestamp html url).issues.any
          (fun i => includes i "short") = false := by
        rw [Bool.eq_false_iff]
        intro h
        obtain ⟨i, hi, hinc⟩ := List.any_eq_true.mp h
        rcases hcases i hi with e | e | e | ⟨hlt, _⟩ | e
        · subst e; revert hinc; decide
        · subst e; revert hinc; decide
        · subst e; revert hinc; decide
        · exact hl hlt
        · subst e; revert hinc; decide
      simp [hshort, hl]
  refine ⟨hmsg, ?_⟩
  rw [hmsg]
  split <;> decide

/-- C22 at the page that reads Page Not Found. -/
theorem C22_not_found_message_not_given_witness :
    (includes "Page Not Found" "Page Not Found" || includes "Page Not Found" "isn't available") = true ∧
    warningPatterns.all (fun w => !includes "Page Not Found" w) = true ∧
    ErrorRecovery.getErrorMessage (ErrorRecovery.analyzePage "t" "Page Not Found" "u")
      = "Instagram may have blocked this request. Try again later" :=
  ⟨by decide, by decide,
    (C22_not_found_message_not_given "t" "Page Not Found" "u" (by decide) (by decide)).1.trans
      (by decide)⟩

namespace QueueSystem

/-- The record of its job after a suspended task has run to its end. -/
theorem taskResumes_record (now : Int) (i : Nat) (o : FetchOutcome) (s : QueueSystem)
    (t : PendingTask) (r : BatchJob) (ht : s.suspended[i]? = some t)
    (hr : s.q.results t.item.jobId = some r) :
    ∃ r1, (taskResumes now i o s).q.results t.item.jobId = some r1 ∧
      r1.items.length = r.items.length + 1 ∧
      (o.isFailure = false → r1.completed = r.completed + 1 ∧ r1.failed = r.failed) ∧
      (o.isFailure = true → r1.completed = r.completed ∧ r1.failed = r.failed + 1) := by
  unfold taskResumes
  simp only [ht]
  cases o with
  | saved =>
    have hf := finishCompleted_fields
      { s with suspended := s.suspended.eraseIdx i,
               effects := s.effects ++ outcomeEffects t .saved }
      t.item.jobId now { filename := t.item.filename, status := .success, detail := t.filePath }
      r hr
    simp only at hf
    refine ⟨closeIfDone now { r with completed := r.completed + 1, items := r.items ++
      [{ filename := t.item.filename, status := .success, detail := t.filePath }] }, ?_, ?_, ?_, ?_⟩
    · rw [hf.2.2.2.2.2.2.1, JobTable.set_same]
    · rw [(closeIfDone_fields now _).2.2.2.1]
      simp
    · intro _
      rw [(closeIfDone_fields now _).2.1, (closeIfDone_fields now _).2.2.1]
      exact ⟨rfl, rfl⟩
    · intro h
      cases h
  | importFails message =>
    have hf := finishFailed_fields
      { s with suspended := s.suspended.eraseIdx i,
               effects := s.effects ++ outcomeEffects t (.importFails message) }
      t.item.jobId now { filename := t.item.filename, status := .failed, detail := message }
      r hr
    simp only at hf
    refine ⟨closeIfDone now { r with failed := r.failed + 1, items := r.items ++
      [{ filename := t.item.filename, status := .failed, detail := message }] }, ?_, ?_, ?_, ?_⟩
    · rw [hf.2.2.2.2.2.2.1, JobTable.set_same]
    · rw [(closeIfDone_fields now _).2.2.2.1]
      simp
    · intro h
      cases h
    · intro _
      rw [(closeIfDone_fields now _).2.1, (closeIfDone_fields now _).2.2.1]
      exact ⟨rfl, rfl⟩
  | fetchFails message =>
    have hf := finishFailed_fields
      { s with suspended := s.suspended.eraseIdx i,
               effects := s.effects ++ outcomeEffects t (.fetchFails message) }
      t.item.jobId now { filename := t.item.filename, status := .failed, detail := message }
      r hr
    simp only at hf
    refine ⟨closeIfDone now { r with failed := r.failed + 1, items := r.items ++
      [{ filename := t.item.filename, status := .failed, detail := message }] }, ?_, ?_, ?_, ?_⟩
    · rw [hf.2.2.2.2.2.2.1, JobTable.set_same]
    · rw [(closeIfDone_fields now _).2.2.2.1]
      simp
    · intro h
      cases h
    · intro _
      rw [(closeIfDone_fields now _).2.1, (closeIfDone_fields now _).2.2.1]
      exact ⟨rfl, rfl⟩
  | writeFails message =>
    have hf := finishFailed_fields
      { s with suspended := s.suspended.eraseIdx i,
               effects := s.effects ++ outcomeEffects t (.writeFails message) }
      t.item.jobId now { filename := t.item.filename, status := .failed, detail := message }
      r hr
    simp only at hf
    refine ⟨closeIfDone now { r with failed := r.failed + 1, items := r.items ++
      [{ filename := t.item.filename, status := .failed, detail := message }] }, ?_, ?_, ?_, ?_⟩
    · rw [hf.2.2.2.2.2.2.1, JobTable.set_same]
    · rw [(closeIfDone_fields now _).2.2.2.1]
      simp
    · intro h
      cases h
    · intro _
      rw [(closeIfDone_fields now _).2.1, (closeIfDone_fields now _).2.2.1]
      exact ⟨rfl, rfl⟩

end QueueSystem

/-- C27: for every job in every reachable state of the queue, the number of
recorded item results equals completed + failed, and completed + failed <=
total. When a suspended task of the job runs to its end, the record gets
exactly one more item result and exactly one of the two counters grows, by
one. -/
theorem C27_results_counted (defaultFolder : String) (events : List QueueEvent)
    (j : JobId) (r : BatchJob)
    (hr : (QueueSystem.run defaultFolder events).getStatus j = some r) :
    (r.items.length = r.completed + r.failed ∧ r.completed + r.failed ≤ r.total) ∧
    (∀ (now : Int) (i : Nat) (o : FetchOutcome) (t : PendingTask),
      (QueueSystem.run defaultFolder events).suspended[i]? = some t → t.item.jobId = j →
      ∃ r1, (QueueSystem.taskResumes now i o (QueueSystem.run defaultFolder events)).getStatus j
          = some r1 ∧
        r1.items.length = r.items.length + 1 ∧
        ((r1.completed = r.completed + 1 ∧ r1.failed = r.failed) ∨
          (r1.completed = r.completed ∧ r1.failed = r.failed + 1))) := by
  have h := QueueSystem.run_inv defaultFolder events
  have h1 := h.logged j r hr
  have h2 := h.conserved j r hr
  refine ⟨⟨by omega, by omega⟩, ?_⟩
  intro now i o t ht hj
  subst hj
  obtain ⟨r1, e1, e2, e3, e4⟩ := QueueSystem.taskResumes_record now i o _ t r ht hr
  refine ⟨r1, e1, e2, ?_⟩
  cases hf : o.isFailure
  · exact Or.inl (e3 hf)
  · exact Or.inr (e4 hf)

/-- C27 at the state reached when, of a batch of three items, the first is
saved and the second has failed: two results, completed = 1, failed = 1. -/
theorem C27_results_counted_witness :
    ∃ r, (QueueSystem.run "D"
        [.addBatch emptyDisk 5 (List.map sampleItem (List.range 3)) "bob" "",
         .taskResumes 9 0 .saved, .taskResumes 9 0 (.fetchFails "HTTP 404")]).getStatus ⟨1, 5⟩
        = some r ∧
      r.completed = 1 ∧ r.failed = 1 ∧ r.total = 3 ∧
      r.items.length = r.completed + r.failed ∧ r.completed + r.failed ≤ r.total :=
  ⟨_, rfl, by decide, by decide, by decide,
    (C27_results_counted "D"
      [.addBatch emptyDisk 5 (List.map sampleItem (List.range 3)) "bob" "",
       .taskResumes 9 0 .saved, .taskResumes 9 0 (.fetchFails "HTTP 404")] ⟨1, 5⟩ _ rfl).1⟩

/-! ## Job ids: lemmas -/

theorem digitChar_value (k : Nat) (h : k < 10) : (Nat.digitChar k).toNat - 48 = k := by
  interval_cases k <;> decide

/-- The number a list of decimal digits stands for, read from the left
starting from `a`. -/
theorem toDigitsCore_value (fuel : Nat) : ∀ (n : Nat) (ds : List Char), n < fuel →
    (Nat.toDigitsCore 10 fuel n ds).foldl (fun a c => 10 * a + (c.toNat - 48)) 0
      = ds.foldl (fun a c => 10 * a + (c.toNat - 48)) n := by
  induction fuel with
  | zero =>
    intro n ds h
    omega
  | succ f ih =>
    intro n ds h
    simp only [Nat.toDigitsCore]
    split
    · rename_i h0
      simp only [List.foldl_cons]
      rw [digitChar_value _ (Nat.mod_lt _ (by decide))]
      have : 10 * 0 + n % 10 = n := by omega
      rw [this]
    · rename_i h0
      rw [ih (n / 10) _ (by omega)]
      simp only [List.foldl_cons]
      rw [digitChar_value _ (Nat.mod_lt _ (by decide))]
      have : 10 * (n / 10) + n % 10 = n := by omega
      rw [this]

theorem toString_nat_value (n : Nat) :
    (toString n).toList.foldl (fun a c => 10 * a + (c.toNat - 48)) 0 = n := by
  have : (toString n).toList = Nat.toDigits 10 n := rfl
  rw [this]
  exact toDigitsCore_value _ _ _ (Nat.lt_succ_self n)

theorem toString_nat_injective (a b : Nat) (h : (toString a).toList = (toString b).toList) :
    a = b := by
  rw [← toString_nat_value a, ← toString_nat_value b, h]

theorem toString_int_toList (i : Int) :
    (toString i).toList = match i with
      | Int.ofNat m => (toString m).toList
      | Int.negSucc m => '-' :: (toString (m + 1)).toList := by
  cases i <;> rfl

theorem toString_int_injective (a b : Int) (h : (toString a).toList = (toString b).toList) :
    a = b := by
  rw [toString_int_toList, toString_int_toList] at h
  cases a with
  | ofNat m =>
    cases b with
    | ofNat k =>
      simp only at h
      rw [toString_nat_injective m k h]
    | negSucc k =>
      simp only at h
      have : '-' ∈ (toString m).toList := by rw [h]; exact List.mem_cons_self _ _
      have hd := toString_isDigit m _ this
      exact absurd hd (by decide)
  | negSucc m =>
    cases b with
    | ofNat k =>
      simp only at h
      have : '-' ∈ (toString k).toList := by rw [← h]; exact List.mem_cons_self _ _
      have hd := toString_isDigit k _ this
      exact absurd hd (by decide)
    | negSucc k =>
      simp only [List.cons.injEq, true_and] at h
      have := toString_nat_injective _ _ h
      have : m = k := by omega
      rw [this]

/-- Where the first occurrence of a separator stands decides both parts. -/
theorem split_unique {α : Type} (x : α) : ∀ (l1 l2 r1 r2 : List α),
    x ∉ l1 → x ∉ l2 → l1 ++ x :: r1 = l2 ++ x :: r2 → l1 = l2 ∧ r1 = r2 := by
  intro l1
  induction l1 with
  | nil =>
    intro l2 r1 r2 _ h2 h
    cases l2 with
    | nil =>
      simp only [List.nil_append, List.cons.injEq, true_and] at h
      exact ⟨rfl, h⟩
    | cons b l2 =>
      simp only [List.nil_append, List.cons_append, List.cons.injEq] at h
      exact absurd (h.1 ▸ List.mem_cons_self _ _) h2
  | cons a l1 ih =>
    intro l2 r1 r2 h1 h2 h
    cases l2 with
    | nil =>
      simp only [List.nil_append, List.cons_append, List.cons.injEq] at h
      exact absurd (h.1 ▸ List.mem_cons_self _ _) h1
    | cons b l2 =>
      simp only [List.cons_append, List.cons.injEq] at h
      obtain ⟨e1, e2⟩ := ih l2 r1 r2 (fun hm => h1 (List.mem_cons_of_mem _ hm))
        (fun hm => h2 (List.mem_cons_of_mem _ hm)) h.2
      exact ⟨by rw [h.1, e1], e2⟩

theorem render_toList (j : JobId) :
    j.render.toList = "job_".toList ++ ((toString j.counter).toList ++ '_' :: (toString j.millis).toList) := by
  unfold JobId.render
  simp only [String.toList, String.data_append, List.append_assoc]
  rfl

/-- The rendering of a job id is injective: two ids with the same string have
the same counter and the same clock value. -/
theorem render_injective (a b : JobId) (h : a.render = b.render) : a = b := by
  have hl : a.render.toList = b.render.toList := by rw [h]
  rw [render_toList, render_toList] at hl
  have hl2 := List.append_cancel_left hl
  have hu : ∀ n : Nat, '_' ∉ (toString n).toList := by
    intro n hm
    have := toString_isDigit n _ hm
    revert this
    decide
  obtain ⟨e1, e2⟩ := split_unique '_' _ _ _ _ (hu _) (hu _) hl2
  have c := toString_nat_injective _ _ e1
  have m := toString_int_injective _ _ e2
  cases a
  cases b
  simp only at c m
  rw [c, m]

namespace QueueSystem

theorem step_jobCounter (defaultFolder : String) (s : QueueSystem) (e : QueueEvent) :
    s.q.jobCounter ≤ (step defaultFolder s e).q.jobCounter := by
  cases e with
  | addBatch disk now items username downloadPath =>
    show _ ≤ (addBatch defaultFolder disk now items username downloadPath s).1.q.jobCounter
    rw [(addBatch_totals defaultFolder disk now items username downloadPath s ⟨0, 0⟩).2]
    omega
  | taskResumes now i o =>
    show _ ≤ (taskResumes now i o s).q.jobCounter
    rw [(taskResumes_totals now i o s).2]
  | finallyRuns disk now =>
    show _ ≤ (finallyRuns disk now s).q.jobCounter
    rw [(finallyRuns_totals disk now s).2]
  | timerFires i =>
    show _ ≤ (timerFires i s).q.jobCounter
    rw [(timerFires_totals i s ⟨0, 0⟩).2]

/-- The counters of the returned ids increase strictly, starting above the
counter of the state the run starts from. -/
theorem returnedIds_increasing (defaultFolder : String) (events : List QueueEvent) :
    ∀ s : QueueSystem,
      (returnedIds defaultFolder s events).Pairwise (fun a b => a.counter < b.counter) ∧
      ∀ a ∈ returnedIds defaultFolder s events, s.q.jobCounter < a.counter := by
  induction events with
  | nil =>
    intro s
    exact ⟨List.Pairwise.nil, fun a ha => by cases ha⟩
  | cons e rest ih =>
    intro s
    obtain ⟨p, lo⟩ := ih (step defaultFolder s e)
    have hstep := step_jobCounter defaultFolder s e
    cases e with
    | addBatch disk now items username downloadPath =>
      have hc : (step defaultFolder s (.addBatch disk now items username downloadPath)).q.jobCounter
          = s.q.jobCounter + 1 :=
        (addBatch_totals defaultFolder disk now items username downloadPath s ⟨0, 0⟩).2
      show List.Pairwise _ (_ :: returnedIds defaultFolder _ rest) ∧
        ∀ a ∈ (_ :: returnedIds defaultFolder _ rest), _
      constructor
      · refine List.Pairwise.cons ?_ p
        intro b hb
        have := lo b hb
        rw [hc] at this
        show s.q.jobCounter + 1 < b.counter
        exact this
      · intro a ha
        rcases List.mem_cons.mp ha with e | hr
        · rw [e]
          show s.q.jobCounter < s.q.jobCounter + 1
          omega
        · have := lo a hr
          omega
    | taskResumes now i o =>
      exact ⟨p, fun a ha => Nat.lt_of_le_of_lt hstep (lo a ha)⟩
    | finallyRuns disk now =>
      exact ⟨p, fun a ha => Nat.lt_of_le_of_lt hstep (lo a ha)⟩
    | timerFires i =>
      exact ⟨p, fun a ha => Nat.lt_of_le_of_lt hstep (lo a ha)⟩

end QueueSystem

/-- C30: for every sequence of events on one queue, whatever clock values
the `addBatch` calls read, the job id strings they return are pairwise
distinct, and the id a further `addBatch` call returns has no record in the
table before the call: a new batch never overwrites the record of an earlier
job. -/
theorem C30_job_ids_unique (defaultFolder : String) (events : List QueueEvent) :
    ((QueueSystem.returnedIds defaultFolder QueueSystem.init events).map JobId.render).Nodup ∧
    ∀ (disk : Disk) (now : Int) (items : List MediaItem) (username downloadPath : String),
      (QueueSystem.run defaultFolder events).getStatus
        (QueueSystem.addBatch defaultFolder disk now items username downloadPath
          (QueueSystem.run defaultFolder events)).2 = none := by
  constructor
  · have hp := (QueueSystem.returnedIds_increasing defaultFolder events QueueSystem.init).1
    have hn : (QueueSystem.returnedIds defaultFolder QueueSystem.init events).Nodup := by
      refine List.Pairwise.imp ?_ hp
      intro a b hab e
      rw [e] at hab
      exact Nat.lt_irrefl _ hab
    exact List.Nodup.map (fun a b h => render_injective a b h) hn
  · intro disk now items username downloadPath
    have h := QueueSystem.run_inv defaultFolder events
    show (QueueSystem.run defaultFolder events).q.results
      (QueueSystem.nextJobId (QueueSystem.run defaultFolder events) now) = none
    cases hr : (QueueSystem.run defaultFolder events).q.results
      (QueueSystem.nextJobId (QueueSystem.run defaultFolder events) now) with
    | none => rfl
    | some r =>
      have := h.table_fresh _ r hr
      have hc : (QueueSystem.nextJobId (QueueSystem.run defaultFolder events) now).counter
          = (QueueSystem.run defaultFolder events).q.jobCounter + 1 := rfl
      omega

/-- Two batches submitted at the same clock value get the ids job_1_5 and
job_2_5. -/
theorem returnedIds_same_clock :
    (QueueSystem.returnedIds "D" QueueSystem.init
      [.addBatch emptyDisk 5 [sampleItem 1] "bob" "", .taskResumes 5 0 .saved,
       .addBatch emptyDisk 5 [sampleItem 2] "bob" ""]).map JobId.render
      = ["job_1_5", "job_2_5"] := by
  decide

/-- C29 (counterexample): after triggerCooldown(120000), a call
triggerCooldown(30000) one second later moves throttleUntil 89 s earlier, and
the next `waitForSlot` call records 89 s earlier than it would have. -/
theorem C29_counterexample :
    (0 : Int) ≤ 30000 ∧
    ((LimiterRun.run 1700000000000 [.triggerCooldown 0 120000]).limiter.triggerCooldown
        1700000001000 30000).throttleUntil
      < (LimiterRun.run 1700000000000 [.triggerCooldown 0 120000]).limiter.throttleUntil ∧
    (LimiterRun.run 1700000000000
        [.triggerCooldown 0 120000, .triggerCooldown 1000 30000, .waitForSlot 0 onTime]).recorded
      = [1700000031000] ∧
    (LimiterRun.run 1700000000000
        [.triggerCooldown 0 120000, .waitForSlot 1000 onTime]).recorded
      = [1700000120000] := by
  decide

/-- C29 (amended): `triggerCooldown(d)` at clock value t sets throttleUntil to
t + d whatever its value before. In a run of sequential calls on a fresh
limiter started at a positive clock value, the new value is at least the
value before when d >= 0 and no earlier `triggerCooldown` call of the run used
a duration greater than d. -/
theorem C29_cooldown_not_shortened (t0 : Int) (calls : List LimiterCall) (d : Int) (gap : Nat)
    (h0 : 0 < t0) (hd : 0 ≤ d)
    (hcalls : ∀ g e, LimiterCall.triggerCooldown g e ∈ calls → e ≤ d) :
    ((LimiterRun.run t0 calls).limiter.triggerCooldown
        ((LimiterRun.run t0 calls).now + gap) d).throttleUntil
      = (LimiterRun.run t0 calls).now + gap + d ∧
    (LimiterRun.run t0 calls).limiter.throttleUntil
      ≤ ((LimiterRun.run t0 calls).limiter.triggerCooldown
          ((LimiterRun.run t0 calls).now + gap) d).throttleUntil := by
  have hb := LimiterRun.until_bound d hd calls (LimiterRun.start t0)
    (by show (0 : Int) ≤ t0 + d; omega) hcalls
  refine ⟨rfl, ?_⟩
  show (LimiterRun.run t0 calls).limiter.throttleUntil ≤ (LimiterRun.run t0 calls).now + gap + d
  have : (LimiterRun.run t0 calls).limiter.throttleUntil ≤ (LimiterRun.run t0 calls).now + d := hb
  omega

/-- C29 (witness): a second triggerCooldown(120000) one second after the
first moves throttleUntil one second later. -/
theorem C29_cooldown_not_shortened_witness :
    (0 : Int) < 1700000000000 ∧ (0 : Int) ≤ 120000 ∧
    (LimiterRun.run 1700000000000 [.triggerCooldown 0 120000]).limiter.throttleUntil
      = 1700000120000 ∧
    ((LimiterRun.run 1700000000000 [.triggerCooldown 0 120000]).limiter.triggerCooldown
        ((LimiterRun.run 1700000000000 [.triggerCooldown 0 120000]).now + (1000 : Nat))
        120000).throttleUntil = 1700000121000 ∧
    (LimiterRun.run 1700000000000 [.triggerCooldown 0 120000]).limiter.throttleUntil
      ≤ ((LimiterRun.run 1700000000000 [.triggerCooldown 0 120000]).limiter.triggerCooldown
          ((LimiterRun.run 1700000000000 [.triggerCooldown 0 120000]).now + (1000 : Nat))
          120000).throttleUntil :=
  ⟨by decide, by decide, by decide, by decide,
    (C29_cooldown_not_shortened 1700000000000 [.triggerCooldown 0 120000] 120000 1000
      (by decide) (by decide)
      (by
        intro g e hm
        rcases List.mem_singleton.mp hm with h
        cases h
        decide)).2⟩

/-! ## Rate window: lemmas -/

namespace RateLimiter

theorem cooldownPhase_window (s : RateLimiter) (now : Int) (l : Lateness) :
    (cooldownPhase s now l).1.requestTimestamps = s.requestTimestamps := by
  unfold cooldownPhase
  split <;> rfl

/-- The window after a call: what the call kept of the old window, then the
timestamp it recorded. What is kept was less than 60000 old when the window
was cleaned, at clock value `c`; the call records at most MIN_DELAY_MS plus
the lateness of the timer after `c`, unless it went through the burst
cooldown, which empties the window. -/
theorem waitForSlot_window (s : RateLimiter) (now : Int) (l : Lateness)
    (hlast : s.lastRequestTime ≤ now) :
    ∃ kept : List Int, kept.Sublist s.requestTimestamps ∧
      (waitForSlot s now l).1.requestTimestamps = kept ++ [(waitForSlot s now l).2] ∧
      (∀ t ∈ kept, (cooldownPhase s now l).2 - 60000 < t) ∧
      (∀ t ∈ kept, (waitForSlot s now l).2 - 60000 - MIN_DELAY_MS - l.delay < t) := by
  have hc := cooldownPhase_time s now l
  have hw := cooldownPhase_window s now l
  have hl := cooldownPhase_last s now l
  unfold waitForSlot
  simp only
  generalize cooldownPhase s now l = p at hc hw hl
  obtain ⟨s1, c⟩ := p
  simp only at hc hw hl
  unfold burstPhase
  simp only
  split
  · refine ⟨[], List.nil_sublist _, rfl, ?_, ?_⟩ <;> intro t ht <;> cases ht
  · refine ⟨s1.requestTimestamps.filter (fun ts => decide (ts > c - 60000)), ?_, rfl, ?_, ?_⟩
    · rw [← hw]
      exact List.filter_sublist _
    · intro t ht
      have := (List.mem_filter.mp ht).2
      simpa using this
    · intro t ht
      have h1 : c - 60000 < t := by
        have := (List.mem_filter.mp ht).2
        simpa using this
      show (recordPhase _ c l).2 - 60000 - MIN_DELAY_MS - l.delay < t
      unfold recordPhase
      simp only
      have hm : MIN_DELAY_MS = 1000 := rfl
      split
      · rename_i hsl
        have hb := (timerDelay_bounds (MIN_DELAY_MS - (c - s1.lastRequestTime))).2.2
        unfold sleep
        rw [hm] at hb hsl ⊢
        have hle : s1.lastRequestTime ≤ c := by omega
        have := hb (by omega)
        omega
      · omega

end RateLimiter

namespace LimiterRun

/-- The window holds recorded timestamps, in the order they were recorded. -/
theorem window_sublist (calls : List LimiterCall) :
    ∀ r : LimiterRun, r.Good → r.limiter.requestTimestamps.Sublist r.recorded →
      (calls.foldl step r).limiter.requestTimestamps.Sublist (calls.foldl step r).recorded := by
  induction calls with
  | nil =>
    intro r _ h
    exact h
  | cons c rest ih =>
    intro r hg h
    refine ih (r.step c) (good_step r c hg) ?_
    cases c with
    | waitForSlot gap l =>
      obtain ⟨kept, hk, he, _, _⟩ := RateLimiter.waitForSlot_window r.limiter (r.now + gap) l
        (by have := hg.last_le; omega)
      show (r.limiter.waitForSlot (r.now + gap) l).1.requestTimestamps.Sublist
        (r.recorded ++ [(r.limiter.waitForSlot (r.now + gap) l).2])
      rw [he]
      exact List.Sublist.append (hk.trans h) (List.Sublist.refl _)
    | triggerCooldown gap d =>
      exact h

end LimiterRun

/-- C25 (counterexample): calls at 0, 59800 and 59900 ms, all timers on time.
The third call cleans the window at 59900, keeping the first timestamp, then
waits 900 ms for the minimum delay and records at 60800: the window then holds
a timestamp 60800 ms older than the one just recorded. -/
theorem C25_counterexample :
    (LimiterRun.run 1700000000000
      [.waitForSlot 0 onTime, .waitForSlot 59800 onTime, .waitForSlot 100 onTime]).limiter.requestTimestamps
      = [1700000000000, 1700000059800, 1700000060800] ∧
    (LimiterRun.run 1700000000000
      [.waitForSlot 0 onTime, .waitForSlot 59800 onTime, .waitForSlot 100 onTime]).recorded.getLast?
      = some 1700000060800 ∧
    ¬ ∀ t ∈ (LimiterRun.run 1700000000000
        [.waitForSlot 0 onTime, .waitForSlot 59800 onTime, .waitForSlot 100 onTime]).limiter.requestTimestamps,
      t > 1700000060800 - 60000 := by
  decide

/-- C25 (amended): in every run of sequential calls on a fresh limiter started
at a positive clock value, immediately after a `waitForSlot` call returns the
window is in increasing order (any two of its timestamps are at least
MIN_DELAY_MS apart), it ends with the timestamp r the call just recorded, and
every timestamp t in it satisfies t <= r and t > c - 60000, where c <= r is
the clock value at which the call cleaned the window; so
t > r - 60000 - MIN_DELAY_MS - (lateness of the minimum-delay timer). -/
theorem C25_window_trailing (t0 : Int) (calls : List LimiterCall) (gap : Nat) (l : Lateness)
    (h0 : 0 < t0) :
    ((LimiterRun.run t0 calls).step (.waitForSlot gap l)).limiter.requestTimestamps.Pairwise
      (fun a b => a + MIN_DELAY_MS ≤ b) ∧
    ((LimiterRun.run t0 calls).step (.waitForSlot gap l)).limiter.requestTimestamps.getLast?
      = some ((LimiterRun.run t0 calls).step (.waitForSlot gap l)).now ∧
    ((LimiterRun.run t0 calls).limiter.cooldownPhase ((LimiterRun.run t0 calls).now + gap) l).2
      ≤ ((LimiterRun.run t0 calls).step (.waitForSlot gap l)).now ∧
    ∀ t ∈ ((LimiterRun.run t0 calls).step (.waitForSlot gap l)).limiter.requestTimestamps,
      t ≤ ((LimiterRun.run t0 calls).step (.waitForSlot gap l)).now ∧
      ((LimiterRun.run t0 calls).limiter.cooldownPhase ((LimiterRun.run t0 calls).now + gap) l).2
        - 60000 < t ∧
      ((LimiterRun.run t0 calls).step (.waitForSlot gap l)).now - 60000 - MIN_DELAY_MS - l.delay
        < t := by
  have hg := LimiterRun.good_run t0 calls h0
  have hg1 := LimiterRun.good_step _ (.waitForSlot gap l) hg
  have hs : ((LimiterRun.run t0 calls).step (.waitForSlot gap l)).limiter.requestTimestamps.Sublist
      ((LimiterRun.run t0 calls).step (.waitForSlot gap l)).recorded := by
    have h := LimiterRun.window_sublist (calls ++ [.waitForSlot gap l]) (LimiterRun.start t0)
      (LimiterRun.good_start t0 h0) (List.Sublist.refl _)
    rw [List.foldl_append] at h
    exact h
  obtain ⟨kept, hk, he, hc, hr⟩ := RateLimiter.waitForSlot_window (LimiterRun.run t0 calls).limiter
    ((LimiterRun.run t0 calls).now + gap) l (by have := hg.last_le; omega)
  have hnow : ((LimiterRun.run t0 calls).step (.waitForSlot gap l)).now
      = ((LimiterRun.run t0 calls).limiter.waitForSlot ((LimiterRun.run t0 calls).now + gap) l).2 :=
    rfl
  have hwin : ((LimiterRun.run t0 calls).step (.waitForSlot gap l)).limiter.requestTimestamps
      = kept ++ [((LimiterRun.run t0 calls).limiter.waitForSlot
          ((LimiterRun.run t0 calls).now + gap) l).2] := he
  have hlast : ((LimiterRun.run t0 calls).step (.waitForSlot gap l)).limiter.lastRequestTime
      = ((LimiterRun.run t0 calls).step (.waitForSlot gap l)).now := rfl
  have hcr : ((LimiterRun.run t0 calls).limiter.cooldownPhase
      ((LimiterRun.run t0 calls).now + gap) l).2
      ≤ ((LimiterRun.run t0 calls).step (.waitForSlot gap l)).now := by
    rw [hnow]
    have h2 := RateLimiter.burstPhase_time
      ((LimiterRun.run t0 calls).limiter.cooldownPhase ((LimiterRun.run t0 calls).now + gap) l).1
      ((LimiterRun.run t0 calls).limiter.cooldownPhase ((LimiterRun.run t0 calls).now + gap) l).2 l
    have h3 := (RateLimiter.recordPhase_time
      (RateLimiter.burstPhase
        ((LimiterRun.run t0 calls).limiter.cooldownPhase ((LimiterRun.run t0 calls).now + gap) l).1
        ((LimiterRun.run t0 calls).limiter.cooldownPhase ((LimiterRun.run t0 calls).now + gap) l).2
        l).1
      (RateLimiter.burstPhase
        ((LimiterRun.run t0 calls).limiter.cooldownPhase ((LimiterRun.run t0 calls).now + gap) l).1
        ((LimiterRun.run t0 calls).limiter.cooldownPhase ((LimiterRun.run t0 calls).now + gap) l).2
        l).2 l).1
    show _ ≤ ((LimiterRun.run t0 calls).limiter.waitForSlot _ l).2
    unfold RateLimiter.waitForSlot
    simp only
    omega
  refine ⟨hg1.spaced.sublist hs, ?_, hcr, ?_⟩
  · rw [hwin, hnow]
    simp
  · intro t ht
    have hb := hg1.bounded t (hs.subset ht)
    rw [hlast] at hb
    refine ⟨hb.2, ?_, ?_⟩
    · rw [hwin, List.mem_append, List.mem_singleton] at ht
      rcases ht with h | h
      · exact hc t h
      · rw [hnow] at hcr
        omega
    · rw [hwin, List.mem_append, List.mem_singleton] at ht
      rcases ht with h | h
      · rw [hnow]
        exact hr t h
      · rw [hnow, h]
        have : MIN_DELAY_MS = 1000 := rfl
        omega

/-- C25 (witness): the run of the counterexample. The third call cleans the
window at 59900 and records at 60800; the oldest timestamp in the window is
60800 old, within 60000 + MIN_DELAY_MS. -/
theorem C25_window_trailing_witness :
    (0 : Int) < 1700000000000 ∧
    ((LimiterRun.run 1700000000000 [.waitForSlot 0 onTime, .waitForSlot 59800 onTime]).step
      (.waitForSlot 100 onTime)).limiter.requestTimestamps
      = [1700000000000, 1700000059800, 1700000060800] ∧
    ∀ t ∈ ((LimiterRun.run 1700000000000 [.waitForSlot 0 onTime, .waitForSlot 59800 onTime]).step
        (.waitForSlot 100 onTime)).limiter.requestTimestamps,
      t ≤ ((LimiterRun.run 1700000000000 [.waitForSlot 0 onTime, .waitForSlot 59800 onTime]).step
        (.waitForSlot 100 onTime)).now ∧
      ((LimiterRun.run 1700000000000
          [.waitForSlot 0 onTime, .waitForSlot 59800 onTime]).limiter.cooldownPhase
        ((LimiterRun.run 1700000000000 [.waitForSlot 0 onTime, .waitForSlot 59800 onTime]).now
          + (100 : Nat)) onTime).2 - 60000 < t ∧
      ((LimiterRun.run 1700000000000 [.waitForSlot 0 onTime, .waitForSlot 59800 onTime]).step
        (.waitForSlot 100 onTime)).now - 60000 - MIN_DELAY_MS - onTime.delay < t :=
  ⟨by decide, by decide,
    (C25_window_trailing 1700000000000 [.waitForSlot 0 onTime, .waitForSlot 59800 onTime] 100
      onTime (by decide)).2.2.2⟩

/-! ## Login wall: lemmas -/

namespace ErrorRecovery

/-- The login-wall issue for a warning pattern is reported only when the page
holds that pattern. -/
theorem analyzePage_login_issue (timestamp html url w : String) (hw : w ∈ warningPatterns)
    (h : ("Login wall detected: \"" ++ w ++ "\"") ∈ (analyzePage timestamp html url).issues) :
    includes html w = true := by
  have hL : 'L' ∈ ("Login wall detected: \"" ++ w ++ "\"").toList := by
    simp [String.toList, String.data_append]
  simp only [warningPatterns, List.mem_cons, List.mem_singleton, List.not_mem_nil, or_false] at hw
  rcases analyzePage_mem timestamp html url _ h with ⟨v, hv, hin, e⟩ | e | e | e | ⟨_, e⟩ | e
  · simp only [warningPatterns, List.mem_cons, List.mem_singleton, List.not_mem_nil, or_false]
      at hv
    rcases hw with rfl | rfl | rfl <;> rcases hv with rfl | rfl | rfl <;>
      first
        | exact hin
        | exact absurd e (by decide)
  · rcases hw with rfl | rfl | rfl <;> exact absurd e (by decide)
  · rcases hw with rfl | rfl | rfl <;> exact absurd e (by decide)
  · rcases hw with rfl | rfl | rfl <;> exact absurd e (by decide)
  · rw [e] at hL
    rcases shortIssue_chars _ _ hL with h1 | h1
    · exact absurd h1 (by decide)
    · exact absurd h1 (by decide)
  · rcases hw with rfl | rfl | rfl <;> exact absurd e (by decide)

end ErrorRecovery

/-- C28 (counterexample): a page whose only warning pattern is Install the
app, with no throttling signal. `analyzePage` reports a login-wall issue and
`getErrorMessage` gives the login-required message, but the attempt does not
return LOGIN_REQUIRED: with no media in the page the three attempts are used
up and the code is RETRY_EXHAUSTED; with an image in the page source the
result is a success. -/
theorem C28_counterexample :
    hasThrottleSignal "<p>Install the app</p>" = false ∧
    "Login wall detected: \"Install the app\"" ∈
      (ErrorRecovery.analyzePage "t" "<p>Install the app</p>"
        "https://www.instagram.com/p/Cabc/").issues ∧
    ErrorRecovery.getErrorMessage
      (ErrorRecovery.analyzePage "t" "<p>Install the app</p>" "https://www.instagram.com/p/Cabc/")
      = "Instagram requires login. Please add valid cookies to cookies.json" ∧
    (scrapeInstagramPost (fun _ => capturingEnv "<p>Install the app</p>" emptySource)
        "https://www.instagram.com/p/Cabc/").1
      = .failure "Instagram requires login. Please add valid cookies to cookies.json"
          "RETRY_EXHAUSTED" ∧
    attemptsIn (scrapeInstagramPost (fun _ => capturingEnv "<p>Install the app</p>" emptySource)
        "https://www.instagram.com/p/Cabc/").2 = 3 ∧
    (scrapeInstagramPost (fun _ => capturingEnv "<p>Install the app</p>" oneImageSource)
        "https://www.instagram.com/p/Cabc/").1
      = .success [{ type := .image, url := "https://scontent.cdninstagram.com/v/a.jpg",
                    thumbnail := none }] 1 "unknown" := by
  decide

/-- C28 (amended): for every valid url whose first attempt captures page
content with no throttling signal, if `analyzePage` reports the login-wall
issue for You must log in to continue or for Create an account, then the
orchestrator classifies the content as a login wall, `getErrorMessage` gives
the login-required message, and the result has code LOGIN_REQUIRED after one
call of `fn` and no retry wait. -/
theorem C28_login_wall_agreement (world : Nat → AttemptEnv)
    (url shortcode html timestamp pageUrl : String)
    (hv : isValidInstagramUrl url = true) (hs : extractShortcode url = some shortcode)
    (hcap : (world 1).captures html) (ht : hasThrottleSignal html = false)
    (hi : ∃ w ∈ ["You must log in to continue", "Create an account"],
      ("Login wall detected: \"" ++ w ++ "\"")
        ∈ (ErrorRecovery.analyzePage timestamp html pageUrl).issues) :
    hasLoginWall html = true ∧
    ErrorRecovery.getErrorMessage (ErrorRecovery.analyzePage timestamp html pageUrl)
      = "Instagram requires login. Please add valid cookies to cookies.json" ∧
    (scrapeInstagramPost world url).1
      = .failure "Instagram requires login. Please add valid cookies." "LOGIN_REQUIRED" ∧
    attemptsIn (scrapeInstagramPost world url).2 = 1 ∧
    waitsIn (scrapeInstagramPost world url).2 = [] := by
  obtain ⟨w, hw, hin⟩ := hi
  have hwp : w ∈ warningPatterns := by
    simp only [List.mem_cons, List.mem_singleton, List.not_mem_nil, or_false] at hw
    rcases hw with rfl | rfl <;> decide
  have hinc := ErrorRecovery.analyzePage_login_issue timestamp html pageUrl w hwp hin
  have hl : hasLoginWall html = true := by
    simp only [List.mem_cons, List.mem_singleton, List.not_mem_nil, or_false] at hw
    unfold hasLoginWall
    rcases hw with rfl | rfl <;> simp [hinc]
  have hv1 := ErrorRecovery.analyzePage_invalid timestamp html pageUrl w hwp hinc
  have hany : (ErrorRecovery.analyzePage timestamp html pageUrl).issues.any
      (fun i => includes i "Login wall") = true :=
    List.any_eq_true.mpr ⟨_, hin, ErrorRecovery.loginIssue_includes w hwp⟩
  have hmsg : ErrorRecovery.getErrorMessage (ErrorRecovery.analyzePage timestamp html pageUrl)
      = "Instagram requires login. Please add valid cookies to cookies.json" := by
    unfold ErrorRecovery.getErrorMessage
    simp [hv1, hany]
  have login := scrapeInstagramPost_first_returns world url shortcode _ _ hv hs
    (scrapeWithPage_loginWall (world 1) shortcode (isReelUrl url) html hcap ht hl)
  refine ⟨hl, hmsg, by rw [login], ?_, ?_⟩
  · rw [login]
    simp only [attemptsIn_cons_attempt, attemptsIn_calls]
  · rw [login]
    simp only [waitsIn_cons_attempt, waitsIn_calls]

/-- C28 (witness): a page that asks to create an account. -/
theorem C28_login_wall_agreement_witness :
    isValidInstagramUrl "https://www.instagram.com/p/Cabc/" = true ∧
    hasThrottleSignal "<p>Create an account</p>" = false ∧
    "Login wall detected: \"Create an account\"" ∈
      (ErrorRecovery.analyzePage "t" "<p>Create an account</p>"
        "https://www.instagram.com/p/Cabc/").issues ∧
    (scrapeInstagramPost (fun _ => capturingEnv "<p>Create an account</p>" emptySource)
        "https://www.instagram.com/p/Cabc/").1
      = .failure "Instagram requires login. Please add valid cookies." "LOGIN_REQUIRED" ∧
    attemptsIn (scrapeInstagramPost (fun _ => capturingEnv "<p>Create an account</p>" emptySource)
        "https://www.instagram.com/p/Cabc/").2 = 1 :=
  ⟨by decide, by decide, by decide,
    (C28_login_wall_agreement (fun _ => capturingEnv "<p>Create an account</p>" emptySource)
      "https://www.instagram.com/p/Cabc/" "Cabc" "<p>Create an account</p>" "t"
      "https://www.instagram.com/p/Cabc/" (by decide) (by decide) ⟨rfl, Or.inl rfl, rfl, rfl⟩
      (by decide) ⟨"Create an account", by decide, by decide⟩).2.2.1,
    (C28_login_wall_agreement (fun _ => capturingEnv "<p>Create an account</p>" emptySource)
      "https://www.instagram.com/p/Cabc/" "Cabc" "<p>Create an account</p>" "t"
      "https://www.instagram.com/p/Cabc/" (by decide) (by decide) ⟨rfl, Or.inl rfl, rfl, rfl⟩
      (by decide) ⟨"Create an account", by decide, by decide⟩).2.2.2.1⟩

/-! ## Diagnostics directory: lemmas -/

theorem sortNewestFirst_perm (files : List DirEntry) : (sortNewestFirst files).Perm files :=
  List.perm_insertionSort _ files

theorem sortNewestFirst_sorted (files : List DirEntry) :
    (sortNewestFirst files).Pairwise (fun a b => b.time ≤ a.time) :=
  @List.sorted_insertionSort DirEntry (fun a b => b.time ≤ a.time) _
    ⟨fun a b => le_total b.time a.time⟩ ⟨fun a b c h1 h2 => le_trans h2 h1⟩ files

theorem toDelete_subset (dir : List DirEntry) (d : DirEntry) (h : d ∈ toDelete dir) :
    d ∈ dir ∧ isDiagnosticFile d.name = true := by
  have h1 : d ∈ sortNewestFirst (dir.filter (fun f => isDiagnosticFile f.name)) :=
    List.mem_of_mem_drop h
  have h2 := (sortNewestFirst_perm _).subset h1
  exact ⟨(List.mem_filter.mp h2).1, (List.mem_filter.mp h2).2⟩

/-- In a directory, whose names are distinct, a file is deleted exactly when
it is among the files to delete. -/
theorem deleted_iff (dir : List DirEntry) (hnames : (dir.map (fun f => f.name)).Nodup)
    (f : DirEntry) (hf : f ∈ dir) :
    (toDelete dir).any (fun d => d.name == f.name) = true ↔ f ∈ toDelete dir := by
  constructor
  · intro h
    obtain ⟨d, hd, he⟩ := List.any_eq_true.mp h
    have he2 : d.name = f.name := by simpa using he
    have := List.inj_on_of_nodup_map hnames (toDelete_subset dir d hd).1 hf he2
    rw [← this]
    exact hd
  · intro h
    exact List.any_eq_true.mpr ⟨f, h, by simp⟩

theorem cleanOldDiagnostics_mem (dir : List DirEntry)
    (hnames : (dir.map (fun f => f.name)).Nodup) (f : DirEntry) :
    f ∈ cleanOldDiagnostics dir ↔ f ∈ dir ∧ f ∉ toDelete dir := by
  unfold cleanOldDiagnostics
  rw [List.mem_filter]
  constructor
  · rintro ⟨h1, h2⟩
    refine ⟨h1, fun hd => ?_⟩
    have := (deleted_iff dir hnames f h1).mpr hd
    simp [this] at h2
  · rintro ⟨h1, h2⟩
    refine ⟨h1, ?_⟩
    cases hc : (toDelete dir).any (fun d => d.name == f.name)
    · rfl
    · exact absurd ((deleted_iff dir hnames f h1).mp hc) h2

/-- The prefixed files left are the first twenty of the sorted list. -/
theorem kept_length (dir : List DirEntry) (hnames : (dir.map (fun f => f.name)).Nodup) :
    ((cleanOldDiagnostics dir).filter (fun f => isDiagnosticFile f.name)).length
      = ((sortNewestFirst (dir.filter (fun f => isDiagnosticFile f.name))).take 20).length := by
  have hnd : dir.Nodup := List.Nodup.of_map _ hnames
  have hF : (dir.filter (fun f => isDiagnosticFile f.name)).Nodup := hnd.filter _
  have hS : (sortNewestFirst (dir.filter (fun f => isDiagnosticFile f.name))).Nodup :=
    (sortNewestFirst_perm _).nodup_iff.mpr hF
  have e1 : (cleanOldDiagnostics dir).filter (fun f => isDiagnosticFile f.name)
      = (dir.filter (fun f => isDiagnosticFile f.name)).filter
          (fun f => decide (f ∉ toDelete dir)) := by
    unfold cleanOldDiagnostics
    rw [List.filter_filter, List.filter_filter]
    apply List.filter_congr
    intro f hf
    have := deleted_iff dir hnames f hf
    by_cases hd : f ∈ toDelete dir
    · simp [hd, this.mpr hd]
    · have hc : (toDelete dir).any (fun d => d.name == f.name) = false := by
        rw [Bool.eq_false_iff]
        exact fun h => hd (this.mp h)
      simp [hd, hc]
  rw [e1]
  have e2 := ((sortNewestFirst_perm (dir.filter (fun f => isDiagnosticFile f.name))).filter
    (fun f => decide (f ∉ toDelete dir))).length_eq
  rw [← e2]
  have e3 : (sortNewestFirst (dir.filter (fun f => isDiagnosticFile f.name))).filter
      (fun f => decide (f ∉ toDelete dir))
      = (sortNewestFirst (dir.filter (fun f => isDiagnosticFile f.name))).take 20 := by
    have hsplit := List.take_append_drop 20
      (sortNewestFirst (dir.filter (fun f => isDiagnosticFile f.name)))
    have hdis := hS
    rw [← hsplit, List.nodup_append] at hdis
    conv_lhs => rw [← hsplit]
    rw [List.filter_append]
    have hk : ((sortNewestFirst (dir.filter (fun f => isDiagnosticFile f.name))).take 20).filter
        (fun f => decide (f ∉ toDelete dir))
        = (sortNewestFirst (dir.filter (fun f => isDiagnosticFile f.name))).take 20 := by
      rw [List.filter_eq_self]
      intro a ha
      have : a ∉ toDelete dir := fun hd => hdis.2.2 ha hd
      simp [this]
    have hd : ((sortNewestFirst (dir.filter (fun f => isDiagnosticFile f.name))).drop 20).filter
        (fun f => decide (f ∉ toDelete dir)) = [] := by
      rw [List.filter_eq_nil_iff]
      intro a ha
      have : a ∈ toDelete dir := ha
      simp [this]
    rw [hk, hd, List.append_nil]
  rw [e3]

/-- C23: in a diagnostics directory (a list of files with distinct names)
holding more than 20 files whose names start with diag_ or page_, after
`cleanOldDiagnostics` exactly 20 such files remain, every remaining one has
mtime >= every deleted one, and the files with neither prefix are all still
there; no file is added or reordered. -/
theorem C23_retention_by_mtime (dir : List DirEntry)
    (hnames : (dir.map (fun f => f.name)).Nodup)
    (hmany : 20 < (dir.filter (fun f => isDiagnosticFile f.name)).length) :
    ((cleanOldDiagnostics dir).filter (fun f => isDiagnosticFile f.name)).length = 20 ∧
    (∀ k ∈ cleanOldDiagnostics dir, isDiagnosticFile k.name = true →
      ∀ d ∈ dir, d ∉ cleanOldDiagnostics dir → d.time ≤ k.time) ∧
    (cleanOldDiagnostics dir).filter (fun f => !isDiagnosticFile f.name)
      = dir.filter (fun f => !isDiagnosticFile f.name) ∧
    (cleanOldDiagnostics dir).Sublist dir := by
  refine ⟨?_, ?_, ?_, ?_⟩
  · rw [kept_length dir hnames, List.length_take,
      (sortNewestFirst_perm _).length_eq]
    omega
  · intro k hk hkd d hd hdel
    have hk2 := (cleanOldDiagnostics_mem dir hnames k).mp hk
    have hdD : d ∈ toDelete dir := by
      by_contra hn
      exact hdel ((cleanOldDiagnostics_mem dir hnames d).mpr ⟨hd, hn⟩)
    have hkS : k ∈ sortNewestFirst (dir.filter (fun f => isDiagnosticFile f.name)) :=
      (sortNewestFirst_perm _).mem_iff.mpr (List.mem_filter.mpr ⟨hk2.1, hkd⟩)
    have hsplit := List.take_append_drop 20
      (sortNewestFirst (dir.filter (fun f => isDiagnosticFile f.name)))
    have hkK : k ∈ (sortNewestFirst (dir.filter (fun f => isDiagnosticFile f.name))).take 20 := by
      rw [← hsplit, List.mem_append] at hkS
      rcases hkS with h | h
      · exact h
      · exact absurd h hk2.2
    have hsorted := sortNewestFirst_sorted (dir.filter (fun f => isDiagnosticFile f.name))
    rw [← hsplit, List.pairwise_append] at hsorted
    exact hsorted.2.2 k hkK d hdD
  · unfold cleanOldDiagnostics
    rw [List.filter_filter]
    apply List.filter_congr
    intro f hf
    cases hp : isDiagnosticFile f.name
    · have hc : (toDelete dir).any (fun d => d.name == f.name) = false := by
        rw [Bool.eq_false_iff]
        intro h
        obtain ⟨d, hd, he⟩ := List.any_eq_true.mp h
        have he2 : d.name = f.name := by simpa using he
        have := (toDelete_subset dir d hd).2
        rw [he2, hp] at this
        cases this
      simp [hc]
    · simp
  · exact List.filter_sublist _

/-- C23 at a directory of eleven records, two files each, and one other file:
the two files of the oldest record are deleted, twenty remain. -/
theorem C23_retention_by_mtime_witness :
    ((sampleDir 11 11).map (fun f => f.name)).Nodup ∧
    20 < ((sampleDir 11 11).filter (fun f => isDiagnosticFile f.name)).length ∧
    (toDelete (sampleDir 11 11)).map (fun f => f.name) = ["page_Cabc_1.html", "diag_Cabc_1.json"] ∧
    ((cleanOldDiagnostics (sampleDir 11 11)).filter (fun f => isDiagnosticFile f.name)).length
      = 20 ∧
    (cleanOldDiagnostics (sampleDir 11 11)).filter (fun f => !isDiagnosticFile f.name)
      = [{ name := "notes.txt", time := 5 }] :=
  ⟨by decide, by decide, by decide,
    (C23_retention_by_mtime (sampleDir 11 11) (by decide) (by decide)).1,
    (C23_retention_by_mtime (sampleDir 11 11) (by decide) (by decide)).2.2.1.trans (by decide)⟩

/-- C26: the clean-up keeps the twenty newest files of both types together,
not ten of each type. In a directory of twelve diag_ files and nine page_
files only the oldest diag_ file is deleted: eleven diag_ files remain. -/
theorem C26_eleven_of_one_type :
    ((sampleDir 12 9).filter (fun f => startsWith f.name "diag_")).length = 12 ∧
    ((sampleDir 12 9).filter (fun f => startsWith f.name "page_")).length = 9 ∧
    (toDelete (sampleDir 12 9)).map (fun f => f.name) = ["diag_Cabc_1.json"] ∧
    ((cleanOldDiagnostics (sampleDir 12 9)).filter (fun f => startsWith f.name "diag_")).length
      = 11 ∧
    ((cleanOldDiagnostics (sampleDir 12 9)).filter (fun f => startsWith f.name "page_")).length
      = 9 := by
  decide

/-! ## Overlapping calls: lemmas -/

namespace RateLimiter

theorem finishAlone_fromDelayCheck (s : RateLimiter) (now : Int) (l : Lateness) (n : Nat) :
    finishAlone l (n + 1) (s.fromDelayCheck now) = some (s.recordPhase now l) := by
  unfold fromDelayCheck recordPhase
  simp only
  split
  · simp only [finishAlone, waitForSlotResume, record, Lateness.of, sleep]
  · simp [finishAlone, record]

theorem finishAlone_fromWindowCheck (s : RateLimiter) (now : Int) (l : Lateness) (n : Nat) :
    finishAlone l (n + 2) (s.fromWindowCheck now)
      = some ((s.burstPhase now l).1.recordPhase (s.burstPhase now l).2 l) := by
  unfold fromWindowCheck burstPhase
  simp only
  split
  · simp only [finishAlone, waitForSlotResume, Lateness.of]
    rw [finishAlone_fromDelayCheck]
    rfl
  · exact finishAlone_fromDelayCheck _ _ l (n + 1)

end RateLimiter

/-- Cutting the call at its awaits agrees with the call run as a whole: a
call that runs with no other call in between returns what `waitForSlot` does. -/
theorem finishAlone_eq_waitForSlot (s : RateLimiter) (now : Int) (l : Lateness) :
    RateLimiter.finishAlone l 3 (s.waitForSlotStart now) = some (s.waitForSlot now l) := by
  unfold RateLimiter.waitForSlotStart RateLimiter.waitForSlot RateLimiter.cooldownPhase
  simp only
  split
  · simp only [RateLimiter.finishAlone, RateLimiter.waitForSlotResume, Lateness.of]
    rw [RateLimiter.finishAlone_fromWindowCheck]
    rfl
  · exact RateLimiter.finishAlone_fromWindowCheck s now l 1

/-- C24: two overlapping calls record the same timestamp. After a request
recorded at 1700000000000, a call starts 100 ms later and sleeps for the
minimum delay; a second call starts 100 ms after that, while the first is
suspended, reads the same lastRequestTime and sleeps until the same moment;
both then record 1700000001000. -/
theorem C24_overlapping_calls_record_together :
    (Overlapping.run 1700000000000 (twoCallsOverlap.take 2)).map (fun o => (o.recorded, o.sleeping))
      = some ([1700000000000], [{ point := .delay, wake := 1700000001000 }]) ∧
    (Overlapping.run 1700000000000 (twoCallsOverlap.take 3)).map (fun o => (o.recorded, o.sleeping))
      = some ([1700000000000],
          [{ point := .delay, wake := 1700000001000 }, { point := .delay, wake := 1700000001000 }]) ∧
    (Overlapping.run 1700000000000 twoCallsOverlap).map (fun o => (o.recorded, o.sleeping))
      = some ([1700000000000, 1700000001000, 1700000001000], []) ∧
    ¬ [(1700000000000 : Int), 1700000001000, 1700000001000].Pairwise
        (fun a b => a + MIN_DELAY_MS ≤ b) := by
  decide
